import Mathlib

/-!
# CHRE event loop

A shallow embedding of `core/event_loop.cc` (class `EventLoop`) together with the
small utilities it relies on, and theorems about event distribution, admission
control, shutdown and the nanoapp registry.

Conventions of the embedding

* The loop is a record `EventLoop`; every member function becomes a function from
  a loop state to a loop state. Pointers to events and nanoapps are the records
  they point to; function pointers are opaque addresses.
* Code that lives outside the event loop (nanoapp hooks, free callbacks, power
  manager, resource managers, the fatal-error handler) is opaque: a call to it is
  appended to `EventLoop.trace` and does not re-enter the loop. The only callback
  with an effect on the loop is the lambda created by `EventLoop::stop`, which
  calls `onStopComplete`.
* A function whose name ends in `With` is the member function with the code it calls
  as a parameter, any function of the loop state: what this code is given, and
  what it may do to the loop, is then a matter of the member function. The function
  without `With` is that function at the opaque code.
* Diagnostic logging is recorded only for the dropped-event warning of
  `distributeEvent` and for `logDanglingResources`.
* Constants and build flags coming from headers are fields of `Config`.
* Machine integers are natural numbers; `uint32_t` arithmetic is taken modulo
  `kUint32Modulus`.
* What the platform answers during a call (the calling thread, whether memory is left) is
  an argument of type `Platform`. `CHRE_ASSERT` is compiled out.
-/

namespace chre

/-- Build flags and constants from headers that `event_loop.cc` reads. -/
structure Config where
  /-- `CHRE_STATIC_EVENT_LOOP` is defined. -/
  staticEventLoop : Bool
  /-- `kMaxEventCount`: the number of events the pool can hold. -/
  kMaxEventCount : Nat
  /-- The number of event pointers `mEvents` can hold. -/
  kMaxQueueSize : Nat
  /-- `kSystemInstanceId`. -/
  kSystemInstanceId : Nat
  /-- `kBroadcastInstanceId`. -/
  kBroadcastInstanceId : Nat
  /-- `SystemCallbackType::Shutdown` as a `uint16_t`. -/
  shutdownCallbackType : Nat
  /-- `kDefaultTargetGroupMask`. -/
  kDefaultTargetGroupMask : Nat
  /-- `SIZE_MAX`. -/
  kSizeMax : Nat
  /-- The address of the `EventLoop` object, `this`. -/
  eventLoopAddress : Nat
  /-- `CHRE_FIRST_SUPPORTED_API_VERSION`. -/
  firstSupportedApiVersion : Nat
  /-- `CHRE_EVENT_NANOAPP_STARTED`. -/
  kEventNanoappStarted : Nat
  /-- `CHRE_EVENT_NANOAPP_STOPPED`. -/
  kEventNanoappStopped : Nat
  /-- The address of `freeEventDataCallback`. -/
  freeEventDataCallback : Nat
  /-- `CHRE_WIFI_SUPPORT_ENABLED` is defined. -/
  wifiSupportEnabled : Bool
  /-- `CHRE_GNSS_SUPPORT_ENABLED` is defined. -/
  gnssSupportEnabled : Bool
  /-- `CHRE_SENSORS_SUPPORT_ENABLED` is defined. -/
  sensorsSupportEnabled : Bool
  /-- `CHRE_AUDIO_SUPPORT_ENABLED` is defined. -/
  audioSupportEnabled : Bool
  /-- `CHRE_BLE_SUPPORT_ENABLED` is defined. -/
  bleSupportEnabled : Bool
  deriving DecidableEq, Repr

/-- `UINT32_MAX + 1`, the modulus of `uint32_t` arithmetic. -/
def kUint32Modulus : Nat := 2 ^ 32

/-- A `SystemEventCallbackFunction *`: either the lambda `EventLoop::stop` creates or
some other function, known by its address only. -/
inductive SystemEventCallbackFunction where
  | stopCallback
  | function (address : Nat)
  deriving DecidableEq, Repr

/-- The callback an `Event` stores: a `chreEventCompleteFunction *` (events built by
`allocateAndPostEvent`) or a system callback with its extra data (events built by
`postSystemEvent`). -/
inductive FreeCallback where
  | eventComplete (address : Nat)
  | systemEvent (callback : SystemEventCallbackFunction) (extraData : Nat)
  deriving DecidableEq, Repr

/-- Modelled from the spec: the `Event` record of `chre/core/event.h`, with the fields
`event_loop.cc` reads. A null callback is `none`. -/
structure Event where
  eventType : Nat
  receivedTimeMillis : Nat
  eventData : Nat
  freeCallback : Option FreeCallback
  isLowPriority : Bool
  senderInstanceId : Nat
  targetInstanceId : Nat
  targetAppGroupMask : Nat
  deriving DecidableEq, Repr

/-- `Event::hasFreeCallback`. -/
def Event.hasFreeCallback (event : Event) : Bool :=
  event.freeCallback.isSome

/-- The counts the resource managers report when everything a nanoapp still owns is
released at unload. -/
structure DanglingResources where
  wifiSubscriptions : Nat
  gnssSubscriptions : Nat
  sensorSubscriptions : Nat
  audioRequests : Nat
  bleScans : Nat
  timers : Nat
  heapBlocks : Nat
  deriving DecidableEq, Repr

/-- Modelled from the spec: the `Nanoapp` class of `chre/core/nanoapp.h`, reduced to what
the event loop asks of it: its identifiers, the result its start hook gives, the event
types it registered for broadcast, and what it still owns at unload. -/
structure Nanoapp where
  appId : Nat
  instanceId : Nat
  appVersion : Nat
  targetApiVersion : Nat
  isSystemNanoapp : Bool
  startResult : Bool
  registeredEventTypes : List Nat
  dangling : DanglingResources
  deriving DecidableEq, Repr

/-- Modelled from the spec: `Nanoapp::isRegisteredForBroadcastEvent`, the
broadcast-registration predicate, which accepts an event by its type. -/
def Nanoapp.isRegisteredForBroadcastEvent (app : Nanoapp) (event : Event) : Bool :=
  app.registeredEventTypes.contains event.eventType

/-- The resource domains released by `unloadNanoappAtIndex`. -/
inductive Resource where
  | wifiSubscriptions
  | gnssSubscriptions
  | sensorSubscriptions
  | audioRequests
  | bleScan
  | timers
  | heapBlocks
  deriving DecidableEq, Repr

/-- Calls that leave the event loop, in the order they are made. -/
inductive Action where
  /-- `app->processEvent(event)`. -/
  | processEvent (app : Nanoapp) (event : Event)
  /-- A free callback called with `(eventType, eventData)`, and the value of
  `mCurrentApp` during the call. -/
  | invokeCallback (currentApp : Option Nanoapp) (callback : FreeCallback)
      (eventType : Nat) (eventData : Nat)
  /-- `mEventPool.deallocate(event)`. -/
  | deallocate (event : Event)
  /-- The `LOGW("Dropping event ...")` of `distributeEvent`. -/
  | logDroppedEvent (event : Event)
  /-- `mPowerControlManager.preEventLoopProcess(count)`. -/
  | preEventLoopProcess (count : Nat)
  /-- `mPowerControlManager.postEventLoopProcess(count)`. -/
  | postEventLoopProcess (count : Nat)
  /-- `nanoapp->start()`. -/
  | nanoappStart (app : Nanoapp)
  /-- `nanoapp->end()`. -/
  | nanoappEnd (app : Nanoapp)
  /-- The release operation of one resource domain, called for `app`. -/
  | releaseResources (resource : Resource) (app : Nanoapp)
  /-- The `LOGE` of `logDanglingResources`. -/
  | logDanglingResources (resource : Resource) (appId : Nat) (count : Nat)
  /-- `flushNanoappMessages(app)` of the host comms manager. -/
  | flushNanoappMessages (app : Nanoapp)
  /-- `mNanoappsLock.lock()`. -/
  | lockNanoapps
  /-- `mNanoappsLock.unlock()`. -/
  | unlockNanoapps
  /-- `FATAL_ERROR(...)`. -/
  | fatalError (eventType : Nat)
  /-- The stores of `notifyAppStatusChange` into the `chreNanoappInfo` it allocated at
  `address`: `info->appId`, `info->version` and `info->instanceId`. -/
  | writeNanoappInfo (address : Nat) (appId : Nat) (version : Nat) (instanceId : Nat)
  deriving DecidableEq, Repr

/-- `StatsContainer<uint32_t>` of `util/system/stats_container.h`. -/
structure StatsContainer where
  mMax : Nat
  deriving DecidableEq, Repr

/-- `StatsContainer::addValue`: `mMax = MAX(value, mMax)`. -/
def StatsContainer.addValue (stats : StatsContainer) (value : Nat) : StatsContainer :=
  { mMax := if value > stats.mMax then value else stats.mMax }

/-- `StatsContainer::getMax`. -/
def StatsContainer.getMax (stats : StatsContainer) : Nat :=
  stats.mMax

/-- Modelled from the spec: the event pool, a fixed-capacity allocator. Only the number of
events in flight is kept; the capacity is `Config.kMaxEventCount`. -/
structure MemoryPool where
  allocated : Nat
  deriving DecidableEq, Repr

/-- Modelled from the spec: `full()`, no block is left. -/
def MemoryPool.full (cfg : Config) (pool : MemoryPool) : Bool :=
  decide (cfg.kMaxEventCount ≤ pool.allocated)

/-- Modelled from the spec: `allocate(...)`, which fails (`none`, a null pointer) rather
than growing when the pool is full. -/
def MemoryPool.allocate (cfg : Config) (pool : MemoryPool) : Option MemoryPool :=
  if pool.full cfg then none else some { allocated := pool.allocated + 1 }

/-- Modelled from the spec: `deallocate(event)`, which returns one slot to the pool. -/
def MemoryPool.deallocate (pool : MemoryPool) : MemoryPool :=
  { allocated := pool.allocated - 1 }

/-- The members of `EventLoop`, the clock `Event::getTimeMillis()` reads, and the trace of
calls made so far. -/
structure EventLoop where
  mRunning : Bool
  /-- The inbound queue, front first. -/
  mEvents : List Event
  mEventPool : MemoryPool
  /-- The registry, in load order. -/
  mNanoapps : List Nanoapp
  mCurrentApp : Option Nanoapp
  mStoppingNanoapp : Option Nanoapp
  /-- A `uint32_t` counter. -/
  mNumDroppedLowPriEvents : Nat
  mEventPoolUsage : StatsContainer
  /-- The value `Event::getTimeMillis()` returns, a `uint16_t`. -/
  timeMillis : Nat
  trace : List Action
  deriving DecidableEq, Repr

/-- Append one call to the trace. -/
def EventLoop.record (loop : EventLoop) (action : Action) : EventLoop :=
  { loop with trace := loop.trace ++ [action] }

/-- `EventLoop::onStopComplete`. -/
def onStopComplete (loop : EventLoop) : EventLoop :=
  { loop with mRunning := false }

/-- A call of a free callback with `(eventType, eventData)`. The lambda of `stop` calls
`onStopComplete` on the loop; any other function is opaque. -/
def invokeCallback (loop : EventLoop) (callback : FreeCallback) (eventType eventData : Nat) :
    EventLoop :=
  let called := loop.record (Action.invokeCallback loop.mCurrentApp callback eventType eventData)
  match callback with
  | FreeCallback.systemEvent SystemEventCallbackFunction.stopCallback _ => onStopComplete called
  | _ => called

/-- `Event::invokeFreeCallback`. -/
def Event.invokeFreeCallback (event : Event) (loop : EventLoop) : EventLoop :=
  match event.freeCallback with
  | some callback => invokeCallback loop callback event.eventType event.eventData
  | none => loop

/-- `EventLoop::lookupAppByInstanceId`. -/
def lookupAppByInstanceId (cfg : Config) (loop : EventLoop) (instanceId : Nat) :
    Option Nanoapp :=
  if instanceId ≠ cfg.kSystemInstanceId then
    loop.mNanoapps.find? (fun app => app.instanceId == instanceId)
  else
    none

/-- `EventLoop::lookupAppByAppId`. -/
def lookupAppByAppId (loop : EventLoop) (appId : Nat) : Option Nanoapp :=
  loop.mNanoapps.find? (fun app => app.appId == appId)

/-- `EventLoop::freeEvent`, with the call `event->invokeFreeCallback()` as `invoke`: the
callback is code from outside the loop, which is run on the loop state and hands it back. -/
def freeEventWith (invoke : Event → EventLoop → EventLoop) (cfg : Config) (loop : EventLoop)
    (event : Event) : EventLoop :=
  let afterCallback :=
    if event.hasFreeCallback then
      let entered := { loop with mCurrentApp := lookupAppByInstanceId cfg loop event.senderInstanceId }
      let called := invoke event entered
      { called with mCurrentApp := none }
    else
      loop
  { afterCallback.record (Action.deallocate event) with
    mEventPool := afterCallback.mEventPool.deallocate }

/-- `EventLoop::freeEvent`, for a callback that is opaque or the lambda of `stop`. -/
def freeEvent (cfg : Config) (loop : EventLoop) (event : Event) : EventLoop :=
  freeEventWith Event.invokeFreeCallback cfg loop event

/-- `EventLoop::deliverNextEvent`, without its throttled latency warning, with the call
`app->processEvent(event)` as `handler`. -/
def deliverNextEventWith (handler : EventLoop → EventLoop) (loop : EventLoop) (app : Nanoapp) :
    EventLoop :=
  let entered := { loop with mCurrentApp := some app }
  let processed := handler entered
  { processed with mCurrentApp := none }

/-- `EventLoop::deliverNextEvent`, for an event handler that is opaque: the call is recorded
in the trace. -/
def deliverNextEvent (loop : EventLoop) (app : Nanoapp) (event : Event) : EventLoop :=
  deliverNextEventWith (fun state => state.record (Action.processEvent app event)) loop app

/-- The condition under which `distributeEvent` hands `event` to `app`. -/
def isEventTarget (cfg : Config) (event : Event) (app : Nanoapp) : Bool :=
  (event.targetInstanceId == cfg.kBroadcastInstanceId && app.isRegisteredForBroadcastEvent event)
    || event.targetInstanceId == app.instanceId

/-- The `for` loop of `distributeEvent` over the registry: the pair holds
`eventDelivered` and the loop state. -/
def deliverToNanoapps (cfg : Config) (event : Event) :
    List Nanoapp → Bool × EventLoop → Bool × EventLoop
  | [], acc => acc
  | app :: rest, acc =>
    if isEventTarget cfg event app then
      deliverToNanoapps cfg event rest (true, deliverNextEvent acc.2 app event)
    else
      deliverToNanoapps cfg event rest acc

/-- `EventLoop::distributeEvent`, with the call `event->invokeFreeCallback()` of its
`freeEvent` as `invoke`. -/
def distributeEventWith (invoke : Event → EventLoop → EventLoop) (cfg : Config)
    (loop : EventLoop) (event : Event) : EventLoop :=
  let delivered := deliverToNanoapps cfg event loop.mNanoapps (false, loop)
  let logged :=
    if !delivered.1 && event.targetInstanceId != cfg.kBroadcastInstanceId
        && event.targetInstanceId != cfg.kSystemInstanceId then
      delivered.2.record (Action.logDroppedEvent event)
    else
      delivered.2
  freeEventWith invoke cfg logged event

/-- `EventLoop::distributeEvent`, for a callback that is opaque or the lambda of `stop`. -/
def distributeEvent (cfg : Config) (loop : EventLoop) (event : Event) : EventLoop :=
  distributeEventWith Event.invokeFreeCallback cfg loop event

/-- `targetLowPriorityEventRemove`: how many low priority events to remove when the pool
is full and a new event needs to be pushed. -/
def targetLowPriorityEventRemove : Nat := 4

/-- `isNonNanoappLowPriorityEvent`: a low priority event that is not from a nanoapp. -/
def isNonNanoappLowPriorityEvent (cfg : Config) (event : Event) : Bool :=
  event.isLowPriority && event.senderInstanceId == cfg.kSystemInstanceId

/-- `deallocateFromMemoryPool`, the free function given to `removeMatchedFromBack`. -/
def deallocateFromMemoryPool (loop : EventLoop) (event : Event) : EventLoop :=
  { loop.record (Action.deallocate event) with mEventPool := loop.mEventPool.deallocate }

/-- Modelled from the spec: the scan of `removeMatchedFromBack`, on the queue read from its
tail. It walks from the youngest event towards the oldest, takes out a matching event
while fewer than `maxNum` were taken, and skips the others. The result holds the events
taken out, youngest first, and the events left, youngest first. -/
def scanMatchedFromBack (matchFunc : Event → Bool) :
    Nat → List Event → List Event × List Event
  | 0, youngestFirst => ([], youngestFirst)
  | _ + 1, [] => ([], [])
  | maxNum + 1, event :: older =>
    if matchFunc event then
      let scanned := scanMatchedFromBack matchFunc maxNum older
      (event :: scanned.1, scanned.2)
    else
      let scanned := scanMatchedFromBack matchFunc (maxNum + 1) older
      (scanned.1, event :: scanned.2)

/-- Modelled from the spec: `mEvents.removeMatchedFromBack(matchFunc, ..., maxNum, ...)`
of the segmented queue, which removes up to `maxNum` matching events scanning from the
tail. The result holds the removed events, youngest first, and the queue that is left,
front first. -/
def removeMatchedFromBack (matchFunc : Event → Bool) (maxNum : Nat) (queue : List Event) :
    List Event × List Event :=
  let scanned := scanMatchedFromBack matchFunc maxNum queue.reverse
  (scanned.1, scanned.2.reverse)

/-- `EventLoop::removeNonNanoappLowPriorityEventsFromBack`. The free function runs once
for each removed event. -/
def removeNonNanoappLowPriorityEventsFromBack (cfg : Config) (loop : EventLoop)
    (removeNum : Nat) : Bool × EventLoop :=
  if cfg.staticEventLoop then
    (false, loop)
  else if removeNum == 0 then
    (true, loop)
  else
    let removed := removeMatchedFromBack (isNonNanoappLowPriorityEvent cfg) removeNum loop.mEvents
    let numRemovedEvent := removed.1.length
    let freed := removed.1.foldl deallocateFromMemoryPool { loop with mEvents := removed.2 }
    let counted :=
      if numRemovedEvent == 0 || numRemovedEvent == cfg.kSizeMax then
        freed
      else
        { freed with
          mNumDroppedLowPriEvents :=
            (freed.mNumDroppedLowPriEvents + numRemovedEvent) % kUint32Modulus }
    (decide (numRemovedEvent > 0), counted)

/-- `EventLoop::hasNoSpaceForHighPriorityEvent`. -/
def hasNoSpaceForHighPriorityEvent (cfg : Config) (loop : EventLoop) : Bool × EventLoop :=
  if loop.mEventPool.full cfg then
    let removed := removeNonNanoappLowPriorityEventsFromBack cfg loop targetLowPriorityEventRemove
    (!removed.1, removed.2)
  else
    (false, loop)

/-- Modelled from the spec: `mEvents.push(event)`, which appends at the tail and fails when
the queue holds `kMaxQueueSize` events. -/
def pushEvent (cfg : Config) (queue : List Event) (event : Event) : Option (List Event) :=
  if queue.length < cfg.kMaxQueueSize then some (queue ++ [event]) else none

/-- `EventLoop::allocateAndPostEvent`. A null `freeCallback` is `none`. -/
def allocateAndPostEvent (cfg : Config) (loop : EventLoop) (eventType eventData : Nat)
    (freeCallback : Option Nat) (isLowPriority : Bool)
    (senderInstanceId targetInstanceId targetGroupMask : Nat) : Bool × EventLoop :=
  match loop.mEventPool.allocate cfg with
  | none => (false, loop)
  | some pool =>
    let event : Event :=
      { eventType := eventType
        receivedTimeMillis := loop.timeMillis
        eventData := eventData
        freeCallback := freeCallback.map FreeCallback.eventComplete
        isLowPriority := isLowPriority
        senderInstanceId := senderInstanceId
        targetInstanceId := targetInstanceId
        targetAppGroupMask := targetGroupMask }
    match pushEvent cfg loop.mEvents event with
    | some queue => (true, { loop with mEventPool := pool, mEvents := queue })
    | none => (false, { loop with mEventPool := pool })

/-- The result of a function that may end in `FATAL_ERROR`, which does not return. -/
inductive Outcome (α : Type) where
  | done (value : α) (loop : EventLoop)
  | fatalError (loop : EventLoop)
  deriving DecidableEq, Repr

/-- The loop state an outcome carries. -/
def Outcome.loop {α : Type} : Outcome α → EventLoop
  | Outcome.done _ loop => loop
  | Outcome.fatalError loop => loop

/-- Whether the fatal-error path was reached. -/
def Outcome.isFatal {α : Type} : Outcome α → Bool
  | Outcome.done _ _ => false
  | Outcome.fatalError _ => true

/-- `EventLoop::postEventOrDie`. -/
def postEventOrDie (cfg : Config) (loop : EventLoop) (eventType eventData : Nat)
    (freeCallback : Option Nat) (targetInstanceId targetGroupMask : Nat) : Outcome Unit :=
  if loop.mRunning then
    let noSpace := hasNoSpaceForHighPriorityEvent cfg loop
    if noSpace.1 then
      Outcome.fatalError (noSpace.2.record (Action.fatalError eventType))
    else
      let posted := allocateAndPostEvent cfg noSpace.2 eventType eventData freeCallback false
        cfg.kSystemInstanceId targetInstanceId targetGroupMask
      if !posted.1 then
        Outcome.fatalError (posted.2.record (Action.fatalError eventType))
      else
        Outcome.done () posted.2
  else
    match freeCallback with
    | some address =>
      Outcome.done () (invokeCallback loop (FreeCallback.eventComplete address) eventType eventData)
    | none => Outcome.done () loop

/-- Modelled from the spec: the `Event` constructor for system events, whose sender and
target are the system instance and which is not low priority. -/
def systemEvent (cfg : Config) (loop : EventLoop) (eventType eventData : Nat)
    (callback : Option SystemEventCallbackFunction) (extraData : Nat) : Event :=
  { eventType := eventType
    receivedTimeMillis := loop.timeMillis
    eventData := eventData
    freeCallback := callback.map (fun function => FreeCallback.systemEvent function extraData)
    isLowPriority := false
    senderInstanceId := cfg.kSystemInstanceId
    targetInstanceId := cfg.kSystemInstanceId
    targetAppGroupMask := cfg.kDefaultTargetGroupMask }

/-- `EventLoop::postSystemEvent`. -/
def postSystemEvent (cfg : Config) (loop : EventLoop) (eventType eventData : Nat)
    (callback : Option SystemEventCallbackFunction) (extraData : Nat) : Outcome Bool :=
  if !loop.mRunning then
    Outcome.done false loop
  else
    let noSpace := hasNoSpaceForHighPriorityEvent cfg loop
    if noSpace.1 then
      Outcome.fatalError (noSpace.2.record (Action.fatalError eventType))
    else
      match noSpace.2.mEventPool.allocate cfg with
      | none => Outcome.fatalError (noSpace.2.record (Action.fatalError eventType))
      | some pool =>
        let allocated := { noSpace.2 with mEventPool := pool }
        match pushEvent cfg allocated.mEvents
            (systemEvent cfg noSpace.2 eventType eventData callback extraData) with
        | none => Outcome.fatalError (allocated.record (Action.fatalError eventType))
        | some queue => Outcome.done true { allocated with mEvents := queue }

/-- `EventLoop::postLowPriorityEventOrFree`. -/
def postLowPriorityEventOrFree (cfg : Config) (loop : EventLoop) (eventType eventData : Nat)
    (freeCallback : Option Nat) (senderInstanceId targetInstanceId targetGroupMask : Nat) :
    Bool × EventLoop :=
  let posted :=
    if loop.mRunning then
      let allocated := allocateAndPostEvent cfg loop eventType eventData freeCallback true
        senderInstanceId targetInstanceId targetGroupMask
      if !allocated.1 then
        (false, { allocated.2 with
          mNumDroppedLowPriEvents := (allocated.2.mNumDroppedLowPriEvents + 1) % kUint32Modulus })
      else
        allocated
    else
      (false, loop)
  match posted.1, freeCallback with
  | false, some address =>
    (false, invokeCallback posted.2 (FreeCallback.eventComplete address) eventType eventData)
  | _, _ => posted

/-- `EventLoop::stop`. -/
def stop (cfg : Config) (loop : EventLoop) : Outcome Unit :=
  match postSystemEvent cfg loop cfg.shutdownCallbackType cfg.eventLoopAddress
      (some SystemEventCallbackFunction.stopCallback) 0 with
  | Outcome.done _ posted => Outcome.done () posted
  | Outcome.fatalError failed => Outcome.fatalError failed

/-- `EventLoop::logDanglingResources`, which reads the app id through `mCurrentApp`. -/
def logDanglingResources (loop : EventLoop) (resource : Resource) (count : Nat) : EventLoop :=
  if count > 0 then
    match loop.mCurrentApp with
    | some app => loop.record (Action.logDanglingResources resource app.appId count)
    | none => loop
  else
    loop

/-- One cleanup block of `unloadNanoappAtIndex`, with the release operation of the domain
as `release`: when the domain is compiled in, the release operation is called and the count
it returns is given to `logDanglingResources`. -/
def releaseDomainWith (release : EventLoop → EventLoop) (enabled : Bool) (resource : Resource)
    (count : Nat) (loop : EventLoop) : EventLoop :=
  if enabled then
    logDanglingResources (release loop) resource count
  else
    loop

/-- One cleanup block of `unloadNanoappAtIndex`, for a release operation that is opaque: the
call is recorded in the trace. -/
def releaseDomain (enabled : Bool) (resource : Resource) (count : Nat) (app : Nanoapp)
    (loop : EventLoop) : EventLoop :=
  releaseDomainWith (fun state => state.record (Action.releaseResources resource app)) enabled
    resource count loop

/-- `EventLoop::unloadNanoappAtIndex`, with `nanoapp->end()` as `endHook` and the release
operations of the resource domains as `release`. An index outside the registry leaves the
loop as it is. -/
def unloadNanoappAtIndexWith (endHook : Nanoapp → EventLoop → EventLoop)
    (release : Resource → Nanoapp → EventLoop → EventLoop) (cfg : Config) (loop : EventLoop)
    (index : Nat) (nanoappStarted : Bool) : EventLoop :=
  match loop.mNanoapps.get? index with
  | none => loop
  | some nanoapp =>
    let locked := loop.record Action.lockNanoapps
    let entered := { locked with mCurrentApp := some nanoapp }
    let ended := if nanoappStarted then endHook nanoapp entered else entered
    let wifi := releaseDomainWith (release Resource.wifiSubscriptions nanoapp)
      cfg.wifiSupportEnabled Resource.wifiSubscriptions nanoapp.dangling.wifiSubscriptions ended
    let gnss := releaseDomainWith (release Resource.gnssSubscriptions nanoapp)
      cfg.gnssSupportEnabled Resource.gnssSubscriptions nanoapp.dangling.gnssSubscriptions wifi
    let sensors := releaseDomainWith (release Resource.sensorSubscriptions nanoapp)
      cfg.sensorsSupportEnabled Resource.sensorSubscriptions
      nanoapp.dangling.sensorSubscriptions gnss
    let audio := releaseDomainWith (release Resource.audioRequests nanoapp)
      cfg.audioSupportEnabled Resource.audioRequests nanoapp.dangling.audioRequests sensors
    let ble := releaseDomainWith (release Resource.bleScan nanoapp) cfg.bleSupportEnabled
      Resource.bleScan nanoapp.dangling.bleScans audio
    let timers := releaseDomainWith (release Resource.timers nanoapp) true Resource.timers
      nanoapp.dangling.timers ble
    let heap := releaseDomainWith (release Resource.heapBlocks nanoapp) true Resource.heapBlocks
      nanoapp.dangling.heapBlocks timers
    let erased := { heap with mNanoapps := heap.mNanoapps.eraseIdx index }
    let cleared := { erased with mCurrentApp := none }
    cleared.record Action.unlockNanoapps

/-- `EventLoop::unloadNanoappAtIndex`, for an end hook and release operations that are
opaque: the calls are recorded in the trace. -/
def unloadNanoappAtIndex (cfg : Config) (loop : EventLoop) (index : Nat)
    (nanoappStarted : Bool) : EventLoop :=
  unloadNanoappAtIndexWith (fun nanoapp state => state.record (Action.nanoappEnd nanoapp))
    (fun resource nanoapp state => state.record (Action.releaseResources resource nanoapp))
    cfg loop index nanoappStarted

/-! ### The run loop -/

/-- How a loop of `run` ends: it runs to its end, or it waits for ever in the blocking
`mEvents.pop()` because the queue is empty and nothing else posts. -/
inductive LoopOutcome where
  | finished (loop : EventLoop)
  | blocked (loop : EventLoop)
  deriving DecidableEq, Repr

/-- Whether the loop ran to its end. -/
def LoopOutcome.isFinished : LoopOutcome → Bool
  | LoopOutcome.finished _ => true
  | LoopOutcome.blocked _ => false

/-- The loop state an outcome carries. -/
def LoopOutcome.loop : LoopOutcome → EventLoop
  | LoopOutcome.finished loop => loop
  | LoopOutcome.blocked loop => loop

/-- One cycle of the first loop of `EventLoop::run`, on a loop whose queue is
`event :: rest`, with the call `event->invokeFreeCallback()` as `invoke`: the sample of the
pool usage, the pop, and `distributeEvent` between the two power notifications. -/
def dispatchCycleWith (invoke : Event → EventLoop → EventLoop) (cfg : Config)
    (loop : EventLoop) (event : Event) (rest : List Event) : EventLoop :=
  let sampled :=
    { loop with
      mEventPoolUsage := loop.mEventPoolUsage.addValue (loop.mEvents.length % kUint32Modulus) }
  let popped := { sampled with mEvents := rest }
  let notified := popped.record (Action.preEventLoopProcess (popped.mEvents.length + 1))
  let distributed := distributeEventWith invoke cfg notified event
  distributed.record (Action.postEventLoopProcess distributed.mEvents.length)

/-- The first loop of `EventLoop::run`, `while (mRunning)`, with the call
`event->invokeFreeCallback()` as `invoke`, for at most `cycles` cycles. Each cycle pops the
front of the queue as it then is, so that a callback may post to the queue or take from it.
The result is the loop state when the loop ends, when it waits in the blocking pop on an
empty queue, or after `cycles` cycles. -/
def dispatchCyclesWith (invoke : Event → EventLoop → EventLoop) (cfg : Config) :
    Nat → EventLoop → EventLoop
  | 0, loop => loop
  | cycles + 1, loop =>
    if loop.mRunning then
      match loop.mEvents with
      | [] =>
        { loop with
          mEventPoolUsage := loop.mEventPoolUsage.addValue (loop.mEvents.length % kUint32Modulus) }
      | event :: rest =>
        dispatchCyclesWith invoke cfg cycles (dispatchCycleWith invoke cfg loop event rest)
    else
      loop

/-- The first loop of `EventLoop::run`, `while (mRunning)`, for a callback that is opaque or
the lambda of `stop`, with the events still queued as the list the recursion is on:
`loop.mEvents` is `queue` in every cycle, since no callee pushes to the queue
(`dispatchLoop_step`). One event is popped and distributed per cycle; with an empty queue
the blocking pop never returns. -/
def dispatchLoopOn (cfg : Config) : List Event → EventLoop → LoopOutcome
  | [], loop =>
    if loop.mRunning then
      LoopOutcome.blocked
        { loop with
          mEventPoolUsage := loop.mEventPoolUsage.addValue (loop.mEvents.length % kUint32Modulus) }
    else
      LoopOutcome.finished loop
  | event :: rest, loop =>
    if loop.mRunning then
      dispatchLoopOn cfg rest (dispatchCycleWith Event.invokeFreeCallback cfg loop event rest)
    else
      LoopOutcome.finished loop

/-- The first loop of `EventLoop::run`. -/
def dispatchLoop (cfg : Config) (loop : EventLoop) : LoopOutcome :=
  dispatchLoopOn cfg loop.mEvents loop

/-- The second loop of `EventLoop::run`, `while (!mEvents.empty()) freeEvent(mEvents.pop())`,
with the events still queued as the list the recursion is on (`purgeEvents_step`). -/
def purgeEventsOn (cfg : Config) : List Event → EventLoop → EventLoop
  | [], loop => loop
  | event :: rest, loop => purgeEventsOn cfg rest (freeEvent cfg { loop with mEvents := rest } event)

/-- The second loop of `EventLoop::run`. -/
def purgeEvents (cfg : Config) (loop : EventLoop) : EventLoop :=
  purgeEventsOn cfg loop.mEvents loop

/-- The third loop of `EventLoop::run`, `while (!mNanoapps.empty())` unload the last nanoapp
(the call leaves `nanoappStarted` to its default, taken to be `true`), with the number of
nanoapps still loaded as the number the recursion is on (`unloadAllNanoapps_step`). -/
def unloadLastNanoapps (cfg : Config) : Nat → EventLoop → EventLoop
  | 0, loop => loop
  | remaining + 1, loop =>
    unloadLastNanoapps cfg remaining
      (unloadNanoappAtIndex cfg loop (loop.mNanoapps.length - 1) true)

/-- The third loop of `EventLoop::run`. -/
def unloadAllNanoapps (cfg : Config) (loop : EventLoop) : EventLoop :=
  unloadLastNanoapps cfg loop.mNanoapps.length loop

/-- `EventLoop::run`. -/
def run (cfg : Config) (loop : EventLoop) : LoopOutcome :=
  match dispatchLoop cfg loop with
  | LoopOutcome.blocked waiting => LoopOutcome.blocked waiting
  | LoopOutcome.finished stopped =>
    LoopOutcome.finished (unloadAllNanoapps cfg (purgeEvents cfg stopped))

/-! ### Loading and unloading nanoapps -/

/-- What the platform answers during one call of `startNanoapp` or `unloadNanoapp`. -/
structure Platform where
  /-- `inEventLoopThread()`. -/
  inEventLoopThread : Bool
  /-- Whether `mNanoapps.push_back(...)` finds memory. -/
  pushBackSucceeds : Bool
  /-- The result of `memoryAlloc<chreNanoappInfo>()`; a null pointer is `none`. -/
  nanoappInfo : Option Nat
  deriving DecidableEq, Repr

/-- The constructor of `ConditionalLockGuard<Mutex>` on `mNanoappsLock`
(`util/conditional_lock_guard_impl.h`). -/
def conditionalLock (shouldLock : Bool) (loop : EventLoop) : EventLoop :=
  if shouldLock then loop.record Action.lockNanoapps else loop

/-- The destructor of `ConditionalLockGuard<Mutex>` on `mNanoappsLock`. -/
def conditionalUnlock (shouldLock : Bool) (loop : EventLoop) : EventLoop :=
  if shouldLock then loop.record Action.unlockNanoapps else loop

/-- `EventLoop::findNanoappInstanceIdByAppId`. The result is `some` of the instance id
written to `*instanceId` when the function returns true, and `none` when it returns
false. -/
def findNanoappInstanceIdByAppId (loop : EventLoop) (inEventLoopThread : Bool) (appId : Nat) :
    Option Nat × EventLoop :=
  let locked := conditionalLock (!inEventLoopThread) loop
  let found := (locked.mNanoapps.find? (fun app => app.appId == appId)).map
    (fun app => app.instanceId)
  (found, conditionalUnlock (!inEventLoopThread) locked)

/-- `EventLoop::flushInboundEventQueue`, `while (!mEvents.empty())
distributeEvent(mEvents.pop())`, with the events still queued as the list the recursion
is on (`flushInboundEventQueue_step`). -/
def flushInboundEventQueueOn (cfg : Config) : List Event → EventLoop → EventLoop
  | [], loop => loop
  | event :: rest, loop =>
    flushInboundEventQueueOn cfg rest (distributeEvent cfg { loop with mEvents := rest } event)

/-- `EventLoop::flushInboundEventQueue`. -/
def flushInboundEventQueue (cfg : Config) (loop : EventLoop) : EventLoop :=
  flushInboundEventQueueOn cfg loop.mEvents loop

/-- `EventLoop::notifyAppStatusChange`. `info` is the result of `memoryAlloc`. The call of
`postEventOrDie` leaves the target and the group mask to their defaults, modelled from
the spec as the broadcast target and `kDefaultTargetGroupMask`. -/
def notifyAppStatusChange (cfg : Config) (loop : EventLoop) (info : Option Nat)
    (eventType : Nat) (nanoapp : Nanoapp) : Outcome Unit :=
  match info with
  | none => Outcome.done () loop
  | some address =>
    postEventOrDie cfg
      (loop.record
        (Action.writeNanoappInfo address nanoapp.appId nanoapp.appVersion nanoapp.instanceId))
      eventType address (some cfg.freeEventDataCallback) cfg.kBroadcastInstanceId
      cfg.kDefaultTargetGroupMask

/-- The `for` loop of `unloadNanoapp` up to its `break`: the first index whose nanoapp has
the instance id, and that nanoapp. -/
def findNanoappIndex (instanceId : Nat) : List Nanoapp → Option (Nat × Nanoapp)
  | [] => none
  | app :: rest =>
    if instanceId == app.instanceId then
      some (0, app)
    else
      (findNanoappIndex instanceId rest).map (fun found => (found.1 + 1, found.2))

/-- `EventLoop::unloadNanoapp`, with the call `flushNanoappMessages(...)` of the host comms
manager as `flushMessages`, with the call `flushInboundEventQueue()`, which runs event
handlers and free callbacks, as `flushQueue`, with `nanoapp->end()` as `endHook` and the
release operations of the resource domains as `release`. -/
def unloadNanoappWith (flushMessages : Nanoapp → EventLoop → EventLoop)
    (flushQueue : EventLoop → EventLoop) (endHook : Nanoapp → EventLoop → EventLoop)
    (release : Resource → Nanoapp → EventLoop → EventLoop) (cfg : Config) (loop : EventLoop)
    (platform : Platform) (instanceId : Nat) (allowSystemNanoappUnload nanoappStarted : Bool) :
    Outcome Bool :=
  match findNanoappIndex instanceId loop.mNanoapps with
  | none => Outcome.done false loop
  | some (index, nanoapp) =>
    if !allowSystemNanoappUnload && nanoapp.isSystemNanoapp then
      Outcome.done false loop
    else
      let flushed := flushMessages nanoapp loop
      let stopping := { flushed with mStoppingNanoapp := some nanoapp }
      let notified :=
        if nanoappStarted then
          notifyAppStatusChange cfg (flushQueue stopping) platform.nanoappInfo
            cfg.kEventNanoappStopped nanoapp
        else
          Outcome.done () stopping
      match notified with
      | Outcome.fatalError failed => Outcome.fatalError failed
      | Outcome.done _ ready =>
        let unloaded := unloadNanoappAtIndexWith endHook release cfg ready index nanoappStarted
        Outcome.done true { unloaded with mStoppingNanoapp := none }

/-- `EventLoop::unloadNanoapp`, for code outside the loop that is opaque: the flush of the
inbound queue is `flushInboundEventQueue`, and the flush of the host messages, the end hook
and the release operations are recorded in the trace. -/
def unloadNanoapp (cfg : Config) (loop : EventLoop) (platform : Platform) (instanceId : Nat)
    (allowSystemNanoappUnload nanoappStarted : Bool) : Outcome Bool :=
  unloadNanoappWith (fun nanoapp state => state.record (Action.flushNanoappMessages nanoapp))
    (flushInboundEventQueue cfg)
    (fun nanoapp state => state.record (Action.nanoappEnd nanoapp))
    (fun resource nanoapp state => state.record (Action.releaseResources resource nanoapp))
    cfg loop platform instanceId allowSystemNanoappUnload nanoappStarted

/-- `EventLoop::startNanoapp`, with `newNanoapp->start()` as `startHook`, which returns
whether the nanoapp started. A null `nanoapp` is `none`. The event loop of the
`EventLoopManagerSingleton` is this loop. -/
def startNanoappWith (startHook : Nanoapp → EventLoop → Bool × EventLoop) (cfg : Config)
    (loop : EventLoop) (platform : Platform) (nanoapp : Option Nanoapp) : Outcome Bool :=
  match nanoapp with
  | none => Outcome.done false loop
  | some newNanoapp =>
    if newNanoapp.targetApiVersion < cfg.firstSupportedApiVersion then
      Outcome.done false loop
    else
      let found := findNanoappInstanceIdByAppId loop platform.inEventLoopThread newNanoapp.appId
      if found.1.isSome then
        Outcome.done false found.2
      else
        let locked := found.2.record Action.lockNanoapps
        if !platform.pushBackSucceeds then
          Outcome.done false (locked.record Action.unlockNanoapps)
        else
          let pushed :=
            ({ locked with mNanoapps := locked.mNanoapps ++ [newNanoapp] } : EventLoop).record
              Action.unlockNanoapps
          let entered := { pushed with mCurrentApp := some newNanoapp }
          let started := startHook newNanoapp entered
          let left := { started.2 with mCurrentApp := none }
          if !started.1 then
            match unloadNanoapp cfg left platform newNanoapp.instanceId true false with
            | Outcome.done _ unloaded => Outcome.done false unloaded
            | Outcome.fatalError failed => Outcome.fatalError failed
          else
            match notifyAppStatusChange cfg left platform.nanoappInfo cfg.kEventNanoappStarted
                newNanoapp with
            | Outcome.done _ notified => Outcome.done true notified
            | Outcome.fatalError failed => Outcome.fatalError failed

/-- `EventLoop::startNanoapp`, for a start hook that is opaque: the call is recorded in the
trace and returns the `startResult` of the nanoapp. -/
def startNanoapp (cfg : Config) (loop : EventLoop) (platform : Platform)
    (nanoapp : Option Nanoapp) : Outcome Bool :=
  startNanoappWith
    (fun newNanoapp state =>
      (newNanoapp.startResult, state.record (Action.nanoappStart newNanoapp)))
    cfg loop platform nanoapp

/-! ### Synchronous delivery and the context pointers -/

/-- `EventLoop::deliverEventSync`. The event is built on the stack of the call, with no free
callback, and handed to the first nanoapp of the registry with the instance id. -/
def deliverEventSync (cfg : Config) (loop : EventLoop)
    (nanoappInstanceId eventType eventData : Nat) : Bool × EventLoop :=
  let event : Event :=
    { eventType := eventType
      receivedTimeMillis := loop.timeMillis
      eventData := eventData
      freeCallback := none
      isLowPriority := false
      senderInstanceId := cfg.kSystemInstanceId
      targetInstanceId := nanoappInstanceId
      targetAppGroupMask := cfg.kDefaultTargetGroupMask }
  match loop.mNanoapps.find? (fun app => app.instanceId == nanoappInstanceId) with
  | some app => (true, deliverNextEvent loop app event)
  | none => (false, loop)

/-- `EventLoop::currentNanoappIsStopping`. -/
def currentNanoappIsStopping (loop : EventLoop) : Bool :=
  decide (loop.mCurrentApp = loop.mStoppingNanoapp) || !loop.mRunning

/-! ### Program points of `unloadNanoapp` -/

/-- The loop state of `unloadNanoapp` once it has marked `nanoapp` as stopping: the host
messages of the nanoapp are flushed and `mStoppingNanoapp` points to it. -/
def markStopping (loop : EventLoop) (nanoapp : Nanoapp) : EventLoop :=
  { loop.record (Action.flushNanoappMessages nanoapp) with mStoppingNanoapp := some nanoapp }

/-- The latency `deliverNextEvent` computes before it hands an event over: `now` is the
`uint32_t` that receives `Event::getTimeMillis()`, `received` the `uint16_t`
`receivedTimeMillis` of the event, and the difference is taken in `uint32_t`. -/
def dispatchLatency (now received : Nat) : Nat :=
  let start := now % kUint32Modulus
  let unwrapped := if start < received then (start + (65535 + 1)) % kUint32Modulus else start
  (unwrapped + kUint32Modulus - received % kUint32Modulus) % kUint32Modulus

/-- `StatsContainer() {}` with `T mMax = 0`. -/
def StatsContainer.fresh : StatsContainer :=
  { mMax := 0 }

/-- `StatsContainer<T>` for a signed element type `T`, whose values are integers. -/
structure SignedStatsContainer where
  mMax : Int
  deriving DecidableEq, Repr

/-- `StatsContainer() {}` with `T mMax = 0`, for a signed element type. -/
def SignedStatsContainer.fresh : SignedStatsContainer :=
  { mMax := 0 }

/-- `StatsContainer::addValue`, `mMax = MAX(value, mMax)`, for a signed element type. -/
def SignedStatsContainer.addValue (stats : SignedStatsContainer) (value : Int) :
    SignedStatsContainer :=
  { mMax := if value > stats.mMax then value else stats.mMax }

/-- `StatsContainer::getMax` for a signed element type. -/
def SignedStatsContainer.getMax (stats : SignedStatsContainer) : Int :=
  stats.mMax

/-! ### Lookups, iteration and message free functions -/

/-- `EventLoop::invokeMessageFreeFunction`, with `freeFunction(message, messageSize)` as a
function of the message, its size and the loop state. The error log for an unknown app id is
left out. -/
def invokeMessageFreeFunction (freeFunction : Nat → Nat → EventLoop → EventLoop)
    (loop : EventLoop) (appId message messageSize : Nat) : EventLoop :=
  match lookupAppByAppId loop appId with
  | none => loop
  | some nanoapp =>
    let prevCurrentApp := loop.mCurrentApp
    let entered := { loop with mCurrentApp := some nanoapp }
    let freed := freeFunction message messageSize entered
    { freed with mCurrentApp := prevCurrentApp }

/-- `EventLoop::forEachNanoapp`, with `callback(nanoapp, data)` as a function of the nanoapp
and the loop state. -/
def forEachNanoapp (callback : Nanoapp → EventLoop → EventLoop) (loop : EventLoop)
    (inEventLoopThread : Bool) : EventLoop :=
  let locked := conditionalLock (!inEventLoopThread) loop
  let visited := locked.mNanoapps.foldl (fun state nanoapp => callback nanoapp state) locked
  conditionalUnlock (!inEventLoopThread) visited

/-- `EventLoop::findNanoappByInstanceId`. -/
def findNanoappByInstanceId (cfg : Config) (loop : EventLoop) (inEventLoopThread : Bool)
    (instanceId : Nat) : Option Nanoapp × EventLoop :=
  let locked := conditionalLock (!inEventLoopThread) loop
  (lookupAppByInstanceId cfg locked instanceId, conditionalUnlock (!inEventLoopThread) locked)

/-- `populateNanoappInfo`: the stores into `*info` when neither pointer is null. A null
pointer is `none`; the RPC service fields, which no claim reads, are left out. -/
def populateNanoappInfo (loop : EventLoop) (app : Option Nanoapp) (info : Option Nat) :
    Bool × EventLoop :=
  match app, info with
  | some nanoapp, some address =>
    (true, loop.record
      (Action.writeNanoappInfo address nanoapp.appId nanoapp.appVersion nanoapp.instanceId))
  | _, _ => (false, loop)

/-- `EventLoop::populateNanoappInfoForAppId`. -/
def populateNanoappInfoForAppId (loop : EventLoop) (inEventLoopThread : Bool) (appId : Nat)
    (info : Option Nat) : Bool × EventLoop :=
  let locked := conditionalLock (!inEventLoopThread) loop
  let populated := populateNanoappInfo locked (lookupAppByAppId locked appId) info
  (populated.1, conditionalUnlock (!inEventLoopThread) populated.2)

/-- `EventLoop::populateNanoappInfoForInstanceId`. -/
def populateNanoappInfoForInstanceId (cfg : Config) (loop : EventLoop)
    (inEventLoopThread : Bool) (instanceId : Nat) (info : Option Nat) : Bool × EventLoop :=
  let locked := conditionalLock (!inEventLoopThread) loop
  let populated := populateNanoappInfo locked (lookupAppByInstanceId cfg locked instanceId) info
  (populated.1, conditionalUnlock (!inEventLoopThread) populated.2)

/-! ### The log message parser of the host (`log_message_parser.cc`) -/

/-- `kImageHeaderSize` of `log_message_parser.cc`: the offset in bytes between the address and
the real start of a nanoapp binary. -/
def kImageHeaderSize : Nat := 0x1000

/-- `LogMessageParser::checkTokenDatabaseOverflow`. `databaseOffset` is the `uint32_t`
parameter; `databaseSize` and `binarySize` are `size_t`, whose sums are taken modulo
`sizeModulus` (2^32 or 2^64, with the host). -/
def checkTokenDatabaseOverflow (sizeModulus databaseOffset databaseSize binarySize : Nat) :
    Bool :=
  decide (databaseOffset > binarySize) || decide (databaseSize > binarySize)
    || decide ((databaseOffset + databaseSize) % sizeModulus > binarySize)
    || decide ((databaseOffset + databaseSize) % sizeModulus < databaseOffset)

/-- `LogMessageParser::addNanoappDetokenizer`, up to the span of token entries it hands to
`Detokenizer::FromElfSection`: the offset into the stored binary at which the span starts and
its size in bytes, or `none` when no span is built. `binarySize` is the size of the binary
stored for the app id, `none` when there is none. `databaseOffset` is the `uint64_t` argument;
the call of `checkTokenDatabaseOverflow` converts it to `uint32_t`. -/
def addNanoappDetokenizer (sizeModulus : Nat) (binarySize : Option Nat)
    (databaseOffset databaseSize : Nat) : Option (Nat × Nat) :=
  match binarySize with
  | none => none
  | some size =>
    if checkTokenDatabaseOverflow sizeModulus (databaseOffset % kUint32Modulus) databaseSize
        size then
      none
    else
      some (kImageHeaderSize + databaseOffset, databaseSize)

/-- `LogMessageParser::getLogLevelFromMetadata`. -/
def getLogLevelFromMetadata (metadata : Nat) : Nat :=
  metadata &&& 0xf

/-- `LogMessageParser::isLogMessageEncoded`. -/
def isLogMessageEncoded (metadata : Nat) : Bool :=
  metadata &&& 0x10 != 0

/-- `LogMessageParser::isBtSnoopLogMessage`. -/
def isBtSnoopLogMessage (metadata : Nat) : Bool :=
  metadata &&& 0x20 != 0

/-- `LogMessageParser::isNanoappTokenizedLogMessage`. -/
def isNanoappTokenizedLogMessage (metadata : Nat) : Bool :=
  (metadata &&& 0x20 != 0) && (metadata &&& 0x10 != 0)

/-- `kSystemTokenizedLogOffset`. -/
def kSystemTokenizedLogOffset : Nat := 1

/-- `kNanoappTokenizedLogOffset`. -/
def kNanoappTokenizedLogOffset : Nat := 3

/-- What the parser is built with and what its collaborators answer. The struct
`LogMessageV2` is declared in `log_message_parser.h`, which is not among the sources: it is
taken as packed, `metadata` in its first byte, the little-endian `timestampMillis` in the
four bytes behind it, and the flexible array `logMessage` at offset `sizeof(LogMessageV2)`. -/
structure LogParser where
  /-- `sizeof(LogMessageV2)`. -/
  sizeofLogMessageV2 : Nat
  /-- Whether `mSystemDetokenizer` is not null. -/
  hasSystemDetokenizer : Bool
  /-- The instance ids that have an entry in `mNanoappDetokenizers`. -/
  nanoappDetokenizers : List Nat
  /-- The size `mBtLogParser.log(message->logMessage)` returns for the message whose
  `logMessage` starts at the given offset of the buffer. -/
  btSnoopLogSize : Nat → Nat
  /-- `mNumLogsDropped`, a `uint32_t`. -/
  mNumLogsDropped : Nat

/-- The lines `logV2` writes to the log of the host. -/
inductive HostLog where
  /-- `emitLogMessage` for a plain message: level, timestamp and the bytes of the C string. -/
  | message (level timestampMillis : Nat) (text : List Nat)
  /-- `emitLogMessage` for a tokenized message of the system: the encoded bytes given to the
  detokenizer. -/
  | detokenized (level timestampMillis : Nat) (encoded : List Nat)
  /-- `emitLogMessage` for a tokenized message of a nanoapp. -/
  | nanoappDetokenized (level timestampMillis instanceId : Nat) (encoded : List Nat)
  /-- The call of `mBtLogParser.log` for the message at an offset. -/
  | btSnoop (offset : Nat)
  /-- The error `Dropping log due to invalid buffer structure`. -/
  | invalidStructure
  /-- The error `Null detokenizer! Cannot decode log message`. -/
  | nullDetokenizer
  /-- The error `Unable to find nanoapp log detokenizer` for an instance id. -/
  | unknownNanoapp (instanceId : Nat)
  /-- The error of `updateAndPrintDroppedLogs` for a count that went back. -/
  | droppedCountWentBack (received last : Nat)
  /-- The line `# logs dropped:` with the count. -/
  | logsDropped (count : Nat)
  deriving DecidableEq, Repr

/-- What a run of `logV2` did: the lines it wrote, in order, the offsets of the buffer it read
(the reads of `mBtLogParser` apart), and `mNumLogsDropped` after it. -/
structure LogOutput where
  emitted : List HostLog
  reads : List Nat
  mNumLogsDropped : Nat
  deriving DecidableEq, Repr

/-- `strnlen(start, maxLen)` on the buffer `logBuffer`, a function from offsets to bytes:
the number of bytes before the first NUL, and `maxLen` when the first `maxLen` bytes hold
none. -/
def strnlen (logBuffer : Nat → Nat) (start : Nat) : Nat → Nat
  | 0 => 0
  | maxLen + 1 => if logBuffer start = 0 then 0 else strnlen logBuffer (start + 1) maxLen + 1

/-- The offsets `strnlen(start, maxLen)` reads when it returns `length`: the bytes it counts,
and the NUL that ends them when it meets one within `maxLen` bytes. -/
def strnlenReads (start maxLen length : Nat) : List Nat :=
  (List.range (min (length + 1) maxLen)).map (fun offset => start + offset)

/-- The bytes of the buffer at `count` offsets from `start` on. -/
def readBytes (logBuffer : Nat → Nat) (start count : Nat) : List Nat :=
  (List.range count).map (fun offset => logBuffer (start + offset))

/-- `le32toh(message->timestampMillis)` for the message at offset `index`. -/
def timestampMillisAt (logBuffer : Nat → Nat) (index : Nat) : Nat :=
  logBuffer (index + 1) + 256 * logBuffer (index + 2) + 65536 * logBuffer (index + 3)
    + 16777216 * logBuffer (index + 4)

/-- `LogMessageParser::updateAndPrintDroppedLogs`: the lines it writes and the new value of
`mNumLogsDropped`. -/
def updateAndPrintDroppedLogs (mNumLogsDropped numLogsDropped : Nat) : List HostLog × Nat :=
  let wentBack :=
    if numLogsDropped < mNumLogsDropped then
      [HostLog.droppedCountWentBack numLogsDropped mNumLogsDropped]
    else []
  let diffLogsDropped := (numLogsDropped + kUint32Modulus - mNumLogsDropped) % kUint32Modulus
  (wentBack ++ (if diffLogsDropped > 0 then [HostLog.logsDropped diffLogsDropped] else []),
    numLogsDropped)

/-- The `while` loop of `LogMessageParser::logV2`, from the offset `bufferIndex` on, for at
most `fuel` messages: `none` when the fuel runs out before the loop ends. The arithmetic on
`size_t` is exact, `bufferIndex` staying within one message of `logBufferSize`. -/
def logV2Loop (parser : LogParser) (logBuffer : Nat → Nat) (logBufferSize : Nat) :
    Nat → Nat → LogOutput → Option LogOutput
  | 0, _, _ => none
  | fuel + 1, bufferIndex, output =>
    let kMinLogMessageV2Size := parser.sizeofLogMessageV2 + 1
    if bufferIndex + kMinLogMessageV2Size ≤ logBufferSize then
      let metadata := logBuffer bufferIndex
      let logMessage := bufferIndex + parser.sizeofLogMessageV2
      let level := getLogLevelFromMetadata metadata
      let timestampMillis := timestampMillisAt logBuffer bufferIndex
      let timestampReads :=
        [bufferIndex + 1, bufferIndex + 2, bufferIndex + 3, bufferIndex + 4]
      if isNanoappTokenizedLogMessage metadata then
        let instanceId := logBuffer logMessage + 256 * logBuffer (logMessage + 1)
        let size := logBuffer (logMessage + 2)
        let headerReads := [bufferIndex, logMessage, logMessage + 1, logMessage + 2]
        let parsed :=
          if parser.nanoappDetokenizers.contains instanceId then
            { output with
              emitted := output.emitted ++
                [HostLog.nanoappDetokenized level timestampMillis instanceId
                  (readBytes logBuffer (logMessage + 3) size)]
              reads := output.reads ++ headerReads
                ++ (List.range size).map (fun offset => logMessage + 3 + offset)
                ++ timestampReads }
          else
            { output with
              emitted := output.emitted ++ [HostLog.unknownNanoapp instanceId]
              reads := output.reads ++ headerReads }
        logV2Loop parser logBuffer logBufferSize fuel
          (bufferIndex + (parser.sizeofLogMessageV2 + (size + kNanoappTokenizedLogOffset)))
          parsed
      else if isBtSnoopLogMessage metadata then
        logV2Loop parser logBuffer logBufferSize fuel
          (bufferIndex + (parser.sizeofLogMessageV2 + parser.btSnoopLogSize logMessage))
          { output with
            emitted := output.emitted ++ [HostLog.btSnoop logMessage]
            reads := output.reads ++ [bufferIndex] }
      else if isLogMessageEncoded metadata then
        if parser.hasSystemDetokenizer then
          let size := logBuffer logMessage
          logV2Loop parser logBuffer logBufferSize fuel
            (bufferIndex + (parser.sizeofLogMessageV2 + (size + kSystemTokenizedLogOffset)))
            { output with
              emitted := output.emitted ++
                [HostLog.detokenized level timestampMillis
                  (readBytes logBuffer (logMessage + 1) size)]
              reads := output.reads ++ [bufferIndex, logMessage]
                ++ (List.range size).map (fun offset => logMessage + 1 + offset)
                ++ timestampReads }
        else
          logV2Loop parser logBuffer logBufferSize fuel
            (bufferIndex + (parser.sizeofLogMessageV2 + 0))
            { output with
              emitted := output.emitted ++ [HostLog.nullDetokenizer]
              reads := output.reads ++ [bufferIndex] }
      else
        let maxLogMessageLen := (logBufferSize - bufferIndex) - kMinLogMessageV2Size
        let logMessageLen := strnlen logBuffer logMessage maxLogMessageLen
        let scanReads := [bufferIndex]
          ++ strnlenReads logMessage maxLogMessageLen logMessageLen
          ++ [logMessage + logMessageLen]
        if logBuffer (logMessage + logMessageLen) ≠ 0 then
          some
            { output with
              emitted := output.emitted ++ [HostLog.invalidStructure]
              reads := output.reads ++ scanReads }
        else
          logV2Loop parser logBuffer logBufferSize fuel
            (bufferIndex + (parser.sizeofLogMessageV2 + (logMessageLen + 1)))
            { output with
              emitted := output.emitted ++
                [HostLog.message level timestampMillis
                  (readBytes logBuffer logMessage logMessageLen)]
              reads := output.reads ++ scanReads ++ timestampReads
                ++ (List.range (logMessageLen + 1)).map (fun offset => logMessage + offset) }
    else
      some output

/-- `LogMessageParser::logV2`. The loop handles at most one message per byte of the buffer,
so `logBufferSize + 1` cycles are room enough (`logV2_terminates`). -/
def logV2 (parser : LogParser) (logBuffer : Nat → Nat) (logBufferSize numLogsDropped : Nat) :
    Option LogOutput :=
  let dropped := updateAndPrintDroppedLogs parser.mNumLogsDropped numLogsDropped
  logV2Loop parser logBuffer logBufferSize (logBufferSize + 1) 0
    { emitted := dropped.1, reads := [], mNumLogsDropped := dropped.2 }

/-! ### Vocabulary of the statements -/

/-- Whether a callback is the lambda of `stop`, which clears `mRunning`. -/
def FreeCallback.stopsLoop : FreeCallback → Bool
  | FreeCallback.systemEvent SystemEventCallbackFunction.stopCallback _ => true
  | _ => false

/-- Whether the free callback of `event` is the lambda of `stop`. -/
def Event.stopsLoop (event : Event) : Bool :=
  match event.freeCallback with
  | some callback => callback.stopsLoop
  | none => false

/-- The calls of `freeEvent` for `event` in a loop with the registry of `loop`: the free
callback, when there is one, then the return of the event to the pool. -/
def freeEventCalls (cfg : Config) (loop : EventLoop) (event : Event) : List Action :=
  (match event.freeCallback with
    | some callback =>
      [Action.invokeCallback (lookupAppByInstanceId cfg loop event.senderInstanceId) callback
        event.eventType event.eventData]
    | none => [])
  ++ [Action.deallocate event]

/-- The nanoapps of the registry that `event` is handed to, in registry order. -/
def eventTargets (cfg : Config) (loop : EventLoop) (event : Event) : List Nanoapp :=
  loop.mNanoapps.filter (isEventTarget cfg event)

/-- The calls of `distributeEvent` before `freeEvent`: one `processEvent` for each target,
in registry order, or the dropped-event warning. -/
def deliveryCalls (cfg : Config) (loop : EventLoop) (event : Event) : List Action :=
  (eventTargets cfg loop event).map (fun app => Action.processEvent app event)
  ++ (if (eventTargets cfg loop event).isEmpty
        && event.targetInstanceId != cfg.kBroadcastInstanceId
        && event.targetInstanceId != cfg.kSystemInstanceId then
      [Action.logDroppedEvent event]
    else [])

/-- The calls of `distributeEvent` for `event` in a loop with the registry of `loop`. -/
def distributeEventCalls (cfg : Config) (loop : EventLoop) (event : Event) : List Action :=
  deliveryCalls cfg loop event ++ freeEventCalls cfg loop event

/-- The calls of successive cycles of the dispatch loop for the events `dispatched`, popped
in this order while `behind` more events stay queued behind them. -/
def dispatchCalls (cfg : Config) (loop : EventLoop) : List Event → Nat → List Action
  | [], _ => []
  | event :: rest, behind =>
    [Action.preEventLoopProcess (rest.length + behind + 1)]
    ++ distributeEventCalls cfg loop event
    ++ [Action.postEventLoopProcess (rest.length + behind)]
    ++ dispatchCalls cfg loop rest behind

/-- The events the dispatch loop of a running loop pops from `queue`: the events in front of
the first one whose free callback is the lambda of `stop`, and that event. -/
def dispatchedEvents : List Event → List Event
  | [] => []
  | event :: rest => if event.stopsLoop then [event] else event :: dispatchedEvents rest

/-- The calls of one cleanup block of `unloadNanoappAtIndex` for `app`. -/
def releaseCalls (enabled : Bool) (resource : Resource) (count : Nat) (app : Nanoapp) :
    List Action :=
  if enabled then
    Action.releaseResources resource app
      :: (if count > 0 then [Action.logDanglingResources resource app.appId count] else [])
  else
    []

/-- The calls of `unloadNanoappAtIndex` for the nanoapp `app`. -/
def unloadCalls (cfg : Config) (app : Nanoapp) (nanoappStarted : Bool) : List Action :=
  [Action.lockNanoapps]
  ++ (if nanoappStarted then [Action.nanoappEnd app] else [])
  ++ releaseCalls cfg.wifiSupportEnabled Resource.wifiSubscriptions
      app.dangling.wifiSubscriptions app
  ++ releaseCalls cfg.gnssSupportEnabled Resource.gnssSubscriptions
      app.dangling.gnssSubscriptions app
  ++ releaseCalls cfg.sensorsSupportEnabled Resource.sensorSubscriptions
      app.dangling.sensorSubscriptions app
  ++ releaseCalls cfg.audioSupportEnabled Resource.audioRequests app.dangling.audioRequests app
  ++ releaseCalls cfg.bleSupportEnabled Resource.bleScan app.dangling.bleScans app
  ++ releaseCalls true Resource.timers app.dangling.timers app
  ++ releaseCalls true Resource.heapBlocks app.dangling.heapBlocks app
  ++ [Action.unlockNanoapps]

/-- Whether a call is a delivery to a nanoapp. -/
def Action.isProcessEvent : Action → Bool
  | Action.processEvent _ _ => true
  | _ => false

/-- Whether a call is one that takes a nanoapp down: its end hook or the release operation
of a resource domain. -/
def Action.isTeardown : Action → Bool
  | Action.nanoappEnd _ => true
  | Action.releaseResources _ _ => true
  | _ => false

/-- The calls of `postEventOrDie`: returns of evicted events to the pool, the fatal error, or
the free callback of the event itself. -/
def Action.isPostCall : Action → Bool
  | Action.deallocate _ => true
  | Action.fatalError _ => true
  | Action.invokeCallback _ _ _ _ => true
  | _ => false

/-- Whether the cleanup block of a resource domain is compiled in. -/
def Resource.isEnabled (cfg : Config) : Resource → Bool
  | Resource.wifiSubscriptions => cfg.wifiSupportEnabled
  | Resource.gnssSubscriptions => cfg.gnssSupportEnabled
  | Resource.sensorSubscriptions => cfg.sensorsSupportEnabled
  | Resource.audioRequests => cfg.audioSupportEnabled
  | Resource.bleScan => cfg.bleSupportEnabled
  | Resource.timers => true
  | Resource.heapBlocks => true

/-- The loop state after one cycle of the dispatch loop that popped `event` from in front
of `rest`. -/
def afterCycle (cfg : Config) (loop : EventLoop) (event : Event) (rest : List Event) :
    EventLoop :=
  { loop with
    mRunning := !event.stopsLoop
    mEvents := rest
    mEventPoolUsage := loop.mEventPoolUsage.addValue (loop.mEvents.length % kUint32Modulus)
    mCurrentApp :=
      if event.hasFreeCallback || !(eventTargets cfg loop event).isEmpty then none
      else loop.mCurrentApp
    mEventPool := loop.mEventPool.deallocate
    trace := loop.trace
      ++ ([Action.preEventLoopProcess (rest.length + 1)]
        ++ distributeEventCalls cfg loop event
        ++ [Action.postEventLoopProcess rest.length]) }

/-- The queue that is left when a high priority event is admitted: when the pool is full, the
low priority events of the system are evicted from the back, up to
`targetLowPriorityEventRemove` of them. -/
def queueAfterEviction (cfg : Config) (loop : EventLoop) : List Event :=
  if loop.mEventPool.full cfg then
    (removeMatchedFromBack (isNonNanoappLowPriorityEvent cfg) targetLowPriorityEventRemove
      loop.mEvents).2
  else
    loop.mEvents

/-- The events that are evicted when a high priority event is admitted: when the pool is full,
the low priority events of the system at the back of the queue, youngest first, up to
`targetLowPriorityEventRemove` of them. -/
def evictedEvents (cfg : Config) (loop : EventLoop) : List Event :=
  if loop.mEventPool.full cfg then
    (removeMatchedFromBack (isNonNanoappLowPriorityEvent cfg) targetLowPriorityEventRemove
      loop.mEvents).1
  else
    []

/-- The status-change event `notifyAppStatusChange` posts with the payload at `address`: a high
priority event sent by the system instance to the broadcast target, freed by
`freeEventDataCallback`. -/
def statusChangeEvent (cfg : Config) (loop : EventLoop) (eventType address : Nat) : Event :=
  { eventType := eventType
    receivedTimeMillis := loop.timeMillis
    eventData := address
    freeCallback := some (FreeCallback.eventComplete cfg.freeEventDataCallback)
    isLowPriority := false
    senderInstanceId := cfg.kSystemInstanceId
    targetInstanceId := cfg.kBroadcastInstanceId
    targetAppGroupMask := cfg.kDefaultTargetGroupMask }

/-- The queue after a `notifyAppStatusChange` that returns: the status-change event is
appended behind the queue the admission leaves when there is memory for the payload
(`info` is not null) and the loop is running; otherwise the queue is as before. -/
def statusChangeQueue (cfg : Config) (loop : EventLoop) (info : Option Nat) (eventType : Nat) :
    List Event :=
  match info with
  | some address =>
    if loop.mRunning then
      queueAfterEviction cfg loop ++ [statusChangeEvent cfg loop eventType address]
    else
      loop.mEvents
  | none => loop.mEvents

/-- The calls of a `notifyAppStatusChange` that returns: none without memory for the payload;
otherwise the stores into the payload, followed on a running loop by the returns of the
evicted events to the pool, and on a loop that is not running by the call of
`freeEventDataCallback` on the payload. -/
def statusChangeCalls (cfg : Config) (loop : EventLoop) (info : Option Nat) (eventType : Nat)
    (nanoapp : Nanoapp) : List Action :=
  match info with
  | some address =>
    Action.writeNanoappInfo address nanoapp.appId nanoapp.appVersion nanoapp.instanceId
      :: (if loop.mRunning then
            (evictedEvents cfg loop).map Action.deallocate
          else
            [Action.invokeCallback none (FreeCallback.eventComplete cfg.freeEventDataCallback)
              eventType address])
  | none => []

/-- A section of code under `ConditionalLockGuard lock(mNanoappsLock, shouldLock)`: the
mutex is locked before the section and unlocked after it when `shouldLock` holds, and not
touched otherwise. -/
def underRegistryLock (shouldLock : Bool) (guarded : EventLoop → EventLoop)
    (loop : EventLoop) : EventLoop :=
  if shouldLock then
    (guarded (loop.record Action.lockNanoapps)).record Action.unlockNanoapps
  else
    guarded loop

/-- Whether a call locks or unlocks the registry mutex. -/
def Action.isLockCall : Action → Bool
  | Action.lockNanoapps => true
  | Action.unlockNanoapps => true
  | _ => false

/-- A plain log message as the buffer holds it. -/
structure PlainLogMessage where
  metadata : Nat
  /-- The four bytes of `timestampMillis`, least significant first. -/
  timestamp : Nat × Nat × Nat × Nat
  /-- The bytes of the text, without the NUL that ends it. -/
  text : List Nat
  deriving DecidableEq, Repr

/-- The bytes of a plain log message in the buffer, for a packed `LogMessageV2`. -/
def PlainLogMessage.bytes (message : PlainLogMessage) : List Nat :=
  [message.metadata, message.timestamp.1, message.timestamp.2.1, message.timestamp.2.2.1,
    message.timestamp.2.2.2] ++ message.text ++ [0]

/-- The line `logV2` writes for a plain log message. -/
def PlainLogMessage.line (message : PlainLogMessage) : HostLog :=
  HostLog.message (getLogLevelFromMetadata message.metadata)
    (message.timestamp.1 + 256 * message.timestamp.2.1 + 65536 * message.timestamp.2.2.1
      + 16777216 * message.timestamp.2.2.2)
    message.text

/-- Whether a message is plain: neither tokenized nor a BT snoop log, with no NUL in its
text. -/
def PlainLogMessage.isPlain (message : PlainLogMessage) : Bool :=
  !isLogMessageEncoded message.metadata && !isBtSnoopLogMessage message.metadata
    && message.text.all (fun byte => byte != 0)

/-- Whether the bytes left in the buffer hold no NUL-terminated message: they are too few for
a message with an empty text, or they start as a plain message whose text runs to the end of
the buffer without a NUL. -/
def holdsNoMessage (rest : List Nat) : Bool :=
  decide (rest.length < 6)
    || (!isLogMessageEncoded (rest.getD 0 0) && !isBtSnoopLogMessage (rest.getD 0 0)
        && (rest.drop 5).all (fun byte => byte != 0))

/-- A build with the dynamic pool, room for three events, and every resource domain. -/
def exampleConfig : Config :=
  { staticEventLoop := false
    kMaxEventCount := 3
    kMaxQueueSize := 3
    kSystemInstanceId := 0
    kBroadcastInstanceId := 65535
    shutdownCallbackType := 1000
    kDefaultTargetGroupMask := 65535
    kSizeMax := 4294967295
    eventLoopAddress := 1
    firstSupportedApiVersion := 1
    kEventNanoappStarted := 3
    kEventNanoappStopped := 4
    freeEventDataCallback := 600
    wifiSupportEnabled := true
    gnssSupportEnabled := true
    sensorsSupportEnabled := true
    audioSupportEnabled := true
    bleSupportEnabled := true }

/-- The same build with `CHRE_STATIC_EVENT_LOOP` defined. -/
def staticConfig : Config :=
  { exampleConfig with staticEventLoop := true }

/-- A nanoapp with instance id 1 that registered for broadcast events of type 7. -/
def exampleApp : Nanoapp :=
  { appId := 170
    instanceId := 1
    appVersion := 1
    targetApiVersion := 1
    isSystemNanoapp := false
    startResult := true
    registeredEventTypes := [7]
    dangling :=
      { wifiSubscriptions := 0, gnssSubscriptions := 0, sensorSubscriptions := 0,
        audioRequests := 0, bleScans := 0, timers := 2, heapBlocks := 0 } }

/-- A high priority broadcast event of type 7 sent by the system, with a free callback. -/
def broadcastEvent : Event :=
  { eventType := 7
    receivedTimeMillis := 0
    eventData := 40
    freeCallback := some (FreeCallback.eventComplete 500)
    isLowPriority := false
    senderInstanceId := 0
    targetInstanceId := 65535
    targetAppGroupMask := 65535 }

/-- A low priority broadcast event of type 7 sent by the system, with a free callback. -/
def lowPriorityEvent : Event :=
  { eventType := 7
    receivedTimeMillis := 0
    eventData := 41
    freeCallback := some (FreeCallback.eventComplete 501)
    isLowPriority := true
    senderInstanceId := 0
    targetInstanceId := 65535
    targetAppGroupMask := 65535 }

/-- A low priority event sent by the nanoapp with instance id 1. -/
def nanoappEvent : Event :=
  { eventType := 8
    receivedTimeMillis := 0
    eventData := 42
    freeCallback := none
    isLowPriority := true
    senderInstanceId := 1
    targetInstanceId := 65535
    targetAppGroupMask := 65535 }

/-- A running loop with one nanoapp and an empty queue. -/
def idleLoop : EventLoop :=
  { mRunning := true
    mEvents := []
    mEventPool := { allocated := 0 }
    mNanoapps := [exampleApp]
    mCurrentApp := none
    mStoppingNanoapp := none
    mNumDroppedLowPriEvents := 0
    mEventPoolUsage := { mMax := 0 }
    timeMillis := 0
    trace := [] }

/-- A running loop with one nanoapp and one event queued. -/
def busyLoop : EventLoop :=
  { idleLoop with mEvents := [broadcastEvent], mEventPool := { allocated := 1 } }

/-- A running loop whose pool is full and whose queue ends with a low priority event of the
system. -/
def fullLoop : EventLoop :=
  { idleLoop with
    mEvents := [broadcastEvent, nanoappEvent, lowPriorityEvent]
    mEventPool := { allocated := 3 } }

/-- A running loop whose pool is full of events that cannot be evicted. -/
def jammedLoop : EventLoop :=
  { idleLoop with
    mEvents := [broadcastEvent, nanoappEvent, broadcastEvent]
    mEventPool := { allocated := 3 } }

/-- A loop that was stopped with an event still queued. -/
def stoppedLoop : EventLoop :=
  { busyLoop with mRunning := false }

/-- A platform that answers from the loop thread and has memory for everything. -/
def examplePlatform : Platform :=
  { inEventLoopThread := true, pushBackSucceeds := true, nanoappInfo := some 900 }

/-- A platform on which `memoryAlloc` finds no memory. -/
def exhaustedPlatform : Platform :=
  { examplePlatform with nanoappInfo := none }

/-- A second nanoapp, with another app id and instance id 2. -/
def secondApp : Nanoapp :=
  { exampleApp with appId := 171, instanceId := 2 }

/-- A second nanoapp whose start hook returns false. -/
def failingApp : Nanoapp :=
  { secondApp with startResult := false }

/-- A nanoapp built for an API version older than the first supported one. -/
def outdatedApp : Nanoapp :=
  { secondApp with targetApiVersion := 0 }

/-- A nanoapp with the app id of `exampleApp` and another instance id. -/
def duplicateApp : Nanoapp :=
  { exampleApp with instanceId := 2 }

/-- A system nanoapp with instance id 3. -/
def systemApp : Nanoapp :=
  { exampleApp with appId := 172, instanceId := 3, isSystemNanoapp := true }

/-- A high priority event sent by the system to the nanoapp with instance id 2. -/
def unicastEvent : Event :=
  { broadcastEvent with eventType := 9, targetInstanceId := 2 }

/-- A running loop with three nanoapps, the last one a system nanoapp, and one event
queued. -/
def crowdedLoop : EventLoop :=
  { busyLoop with mNanoapps := [exampleApp, secondApp, systemApp] }

/-- A low priority event sent by the nanoapp with instance id 1, with a free callback. -/
def senderCallbackEvent : Event :=
  { nanoappEvent with freeCallback := some (FreeCallback.eventComplete 502) }

/-- A nanoapp whose instance id is the system instance id. -/
def systemIdApp : Nanoapp :=
  { exampleApp with instanceId := 0 }

/-- A high priority event sent by the system to the system instance. -/
def systemTargetEvent : Event :=
  { broadcastEvent with eventType := 9, targetInstanceId := 0 }

/-- The shutdown event `stop` posts. -/
def stopEvent : Event :=
  systemEvent exampleConfig idleLoop exampleConfig.shutdownCallbackType
    exampleConfig.eventLoopAddress (some SystemEventCallbackFunction.stopCallback) 0

/-- The loop while the nanoapp that is being unloaded handles the event flushed to it. -/
def unloadingLoop : EventLoop :=
  { markStopping busyLoop exampleApp with mCurrentApp := some exampleApp }

/-- A free callback that calls back into the loop, as the deferred callback of an unload
request does: the call of the callback is recorded, and the callback unloads the nanoapp
whose instance id is the event data, with `unloadNanoapp(instanceId,
allowSystemNanoappUnload)` and `nanoappStarted` left to its default, taken to be true. -/
def invokeUnloadCallback (cfg : Config) (platform : Platform) (event : Event)
    (loop : EventLoop) : EventLoop :=
  (unloadNanoapp cfg (event.invokeFreeCallback loop) platform event.eventData false true).loop

/-- A system event whose free callback is the deferred callback of a request to unload the
nanoapp with instance id 2. -/
def unloadRequestEvent : Event :=
  { eventType := 1001
    receivedTimeMillis := 0
    eventData := 2
    freeCallback :=
      some (FreeCallback.systemEvent (SystemEventCallbackFunction.function 700) 0)
    isLowPriority := false
    senderInstanceId := 0
    targetInstanceId := 0
    targetAppGroupMask := 65535 }

/-- A running loop with two nanoapps, in which the unload request for the second one is
queued in front of a broadcast event. -/
def unloadRequestLoop : EventLoop :=
  { idleLoop with
    mEvents := [unloadRequestEvent, broadcastEvent]
    mEventPool := { allocated := 2 }
    mNanoapps := [exampleApp, secondApp] }

/-- A nanoapp with another app id and the instance id of `exampleApp`, whose start hook
returns false. -/
def failingReusedIdApp : Nanoapp :=
  { exampleApp with appId := 171, startResult := false }

/-- A nanoapp whose instance id is the broadcast id and that registered for no event. -/
def broadcastIdApp : Nanoapp :=
  { exampleApp with appId := 173, instanceId := 65535, registeredEventTypes := [] }

/-- A nanoapp with another app id and the instance id of `secondApp`. -/
def secondIdApp : Nanoapp :=
  { secondApp with appId := 174 }

/-- A buffer as a function from offsets to bytes; the bytes behind it read as 1. -/
def bufferOf (bytes : List Nat) : Nat → Nat :=
  fun offset => bytes.getD offset 1

/-- A parser for packed messages, with no detokenizer. -/
def exampleParser : LogParser :=
  { sizeofLogMessageV2 := 5
    hasSystemDetokenizer := false
    nanoappDetokenizers := []
    btSnoopLogSize := fun _ => 2
    mNumLogsDropped := 0 }

/-- The plain message `hi` at level 2 and time 258 ms. -/
def hiMessage : PlainLogMessage :=
  { metadata := 2, timestamp := (2, 1, 0, 0), text := [104, 105] }

/-- The plain message `ok` at level 3 and time 259 ms. -/
def okMessage : PlainLogMessage :=
  { metadata := 3, timestamp := (3, 1, 0, 0), text := [111, 107] }

/-- A running loop with three nanoapps in which two events are queued in front of the
shutdown event. -/
def orderedLoop : EventLoop :=
  { crowdedLoop with
    mEvents := [broadcastEvent, unicastEvent, stopEvent, nanoappEvent]
    mEventPool := { allocated := 4 } }

/-! ## Theorems -/

/-! ### The functions for opaque code, written out

Each function that runs code from outside the loop is the function that takes this code as a
parameter, at the code that leaves its call in the trace. Written out, they read as follows. -/

theorem freeEvent_def (cfg : Config) (loop : EventLoop) (event : Event) :
    freeEvent cfg loop event =
      let afterCallback :=
        if event.hasFreeCallback then
          let entered :=
            { loop with mCurrentApp := lookupAppByInstanceId cfg loop event.senderInstanceId }
          let called := event.invokeFreeCallback entered
          { called with mCurrentApp := none }
        else
          loop
      { afterCallback.record (Action.deallocate event) with
        mEventPool := afterCallback.mEventPool.deallocate } :=
  rfl

theorem deliverNextEvent_def (loop : EventLoop) (app : Nanoapp) (event : Event) :
    deliverNextEvent loop app event =
      let entered := { loop with mCurrentApp := some app }
      let processed := entered.record (Action.processEvent app event)
      { processed with mCurrentApp := none } :=
  rfl

theorem distributeEvent_def (cfg : Config) (loop : EventLoop) (event : Event) :
    distributeEvent cfg loop event =
      let delivered := deliverToNanoapps cfg event loop.mNanoapps (false, loop)
      let logged :=
        if !delivered.1 && event.targetInstanceId != cfg.kBroadcastInstanceId
            && event.targetInstanceId != cfg.kSystemInstanceId then
          delivered.2.record (Action.logDroppedEvent event)
        else
          delivered.2
      freeEvent cfg logged event :=
  rfl

theorem dispatchCycleWith_def (cfg : Config) (loop : EventLoop) (event : Event)
    (rest : List Event) :
    dispatchCycleWith Event.invokeFreeCallback cfg loop event rest =
      let sampled :=
        { loop with
          mEventPoolUsage :=
            loop.mEventPoolUsage.addValue (loop.mEvents.length % kUint32Modulus) }
      let popped := { sampled with mEvents := rest }
      let notified := popped.record (Action.preEventLoopProcess (popped.mEvents.length + 1))
      let distributed := distributeEvent cfg notified event
      distributed.record (Action.postEventLoopProcess distributed.mEvents.length) :=
  rfl

theorem releaseDomain_def (enabled : Bool) (resource : Resource) (count : Nat) (app : Nanoapp)
    (loop : EventLoop) :
    releaseDomain enabled resource count app loop =
      if enabled then
        logDanglingResources (loop.record (Action.releaseResources resource app)) resource count
      else
        loop :=
  rfl

theorem unloadNanoappAtIndex_def (cfg : Config) (loop : EventLoop) (index : Nat)
    (nanoappStarted : Bool) :
    unloadNanoappAtIndex cfg loop index nanoappStarted =
      match loop.mNanoapps.get? index with
      | none => loop
      | some nanoapp =>
        let locked := loop.record Action.lockNanoapps
        let entered := { locked with mCurrentApp := some nanoapp }
        let ended :=
          if nanoappStarted then entered.record (Action.nanoappEnd nanoapp) else entered
        let wifi := releaseDomain cfg.wifiSupportEnabled Resource.wifiSubscriptions
          nanoapp.dangling.wifiSubscriptions nanoapp ended
        let gnss := releaseDomain cfg.gnssSupportEnabled Resource.gnssSubscriptions
          nanoapp.dangling.gnssSubscriptions nanoapp wifi
        let sensors := releaseDomain cfg.sensorsSupportEnabled Resource.sensorSubscriptions
          nanoapp.dangling.sensorSubscriptions nanoapp gnss
        let audio := releaseDomain cfg.audioSupportEnabled Resource.audioRequests
          nanoapp.dangling.audioRequests nanoapp sensors
        let ble := releaseDomain cfg.bleSupportEnabled Resource.bleScan
          nanoapp.dangling.bleScans nanoapp audio
        let timers := releaseDomain true Resource.timers nanoapp.dangling.timers nanoapp ble
        let heap :=
          releaseDomain true Resource.heapBlocks nanoapp.dangling.heapBlocks nanoapp timers
        let erased := { heap with mNanoapps := heap.mNanoapps.eraseIdx index }
        let cleared := { erased with mCurrentApp := none }
        cleared.record Action.unlockNanoapps := by
  unfold unloadNanoappAtIndex unloadNanoappAtIndexWith
  cases loop.mNanoapps.get? index <;> rfl

theorem unloadNanoapp_def (cfg : Config) (loop : EventLoop) (platform : Platform)
    (instanceId : Nat) (allowSystemNanoappUnload nanoappStarted : Bool) :
    unloadNanoapp cfg loop platform instanceId allowSystemNanoappUnload nanoappStarted =
      match findNanoappIndex instanceId loop.mNanoapps with
      | none => Outcome.done false loop
      | some (index, nanoapp) =>
        if !allowSystemNanoappUnload && nanoapp.isSystemNanoapp then
          Outcome.done false loop
        else
          let flushed := loop.record (Action.flushNanoappMessages nanoapp)
          let stopping := { flushed with mStoppingNanoapp := some nanoapp }
          let notified :=
            if nanoappStarted then
              notifyAppStatusChange cfg (flushInboundEventQueue cfg stopping)
                platform.nanoappInfo cfg.kEventNanoappStopped nanoapp
            else
              Outcome.done () stopping
          match notified with
          | Outcome.fatalError failed => Outcome.fatalError failed
          | Outcome.done _ ready =>
            let unloaded := unloadNanoappAtIndex cfg ready index nanoappStarted
            Outcome.done true { unloaded with mStoppingNanoapp := none } :=
  rfl

theorem startNanoapp_def (cfg : Config) (loop : EventLoop) (platform : Platform)
    (nanoapp : Option Nanoapp) :
    startNanoapp cfg loop platform nanoapp =
      match nanoapp with
      | none => Outcome.done false loop
      | some newNanoapp =>
        if newNanoapp.targetApiVersion < cfg.firstSupportedApiVersion then
          Outcome.done false loop
        else
          let found :=
            findNanoappInstanceIdByAppId loop platform.inEventLoopThread newNanoapp.appId
          if found.1.isSome then
            Outcome.done false found.2
          else
            let locked := found.2.record Action.lockNanoapps
            if !platform.pushBackSucceeds then
              Outcome.done false (locked.record Action.unlockNanoapps)
            else
              let pushed :=
                ({ locked with mNanoapps := locked.mNanoapps ++ [newNanoapp] } :
                  EventLoop).record Action.unlockNanoapps
              let entered := { pushed with mCurrentApp := some newNanoapp }
              let started := entered.record (Action.nanoappStart newNanoapp)
              let left := { started with mCurrentApp := none }
              if !newNanoapp.startResult then
                match unloadNanoapp cfg left platform newNanoapp.instanceId true false with
                | Outcome.done _ unloaded => Outcome.done false unloaded
                | Outcome.fatalError failed => Outcome.fatalError failed
              else
                match notifyAppStatusChange cfg left platform.nanoappInfo
                    cfg.kEventNanoappStarted newNanoapp with
                | Outcome.done _ notified => Outcome.done true notified
                | Outcome.fatalError failed => Outcome.fatalError failed :=
  rfl

/-! ### What the callees leave untouched -/

theorem invokeCallback_mEvents (loop : EventLoop) (callback : FreeCallback)
    (eventType eventData : Nat) :
    (invokeCallback loop callback eventType eventData).mEvents = loop.mEvents := by
  unfold invokeCallback
  split <;> rfl

theorem freeEvent_mEvents (cfg : Config) (loop : EventLoop) (event : Event) :
    (freeEvent cfg loop event).mEvents = loop.mEvents := by
  simp only [freeEvent_def]
  unfold Event.invokeFreeCallback
  cases hcb : event.freeCallback with
  | none => simp [Event.hasFreeCallback, hcb, EventLoop.record]
  | some callback => simp [Event.hasFreeCallback, hcb, EventLoop.record, invokeCallback_mEvents]

theorem deliverToNanoapps_mEvents (cfg : Config) (event : Event) (apps : List Nanoapp)
    (acc : Bool × EventLoop) :
    (deliverToNanoapps cfg event apps acc).2.mEvents = acc.2.mEvents := by
  induction apps generalizing acc with
  | nil => rfl
  | cons app rest ih =>
    unfold deliverToNanoapps
    split
    · rw [ih]; rfl
    · exact ih acc

theorem distributeEvent_mEvents (cfg : Config) (loop : EventLoop) (event : Event) :
    (distributeEvent cfg loop event).mEvents = loop.mEvents := by
  simp only [distributeEvent_def]
  simp only [freeEvent_mEvents]
  split
  · simp [EventLoop.record, deliverToNanoapps_mEvents]
  · simp [deliverToNanoapps_mEvents]

theorem invokeCallback_eq (loop : EventLoop) (callback : FreeCallback)
    (eventType eventData : Nat) :
    invokeCallback loop callback eventType eventData =
      { loop with
        mRunning := loop.mRunning && !callback.stopsLoop
        trace := loop.trace
          ++ [Action.invokeCallback loop.mCurrentApp callback eventType eventData] } := by
  unfold invokeCallback
  split
  · simp [FreeCallback.stopsLoop, onStopComplete, EventLoop.record]
  · rename_i hne
    have hstop : callback.stopsLoop = false := by
      unfold FreeCallback.stopsLoop
      split
      · exact absurd rfl (hne _)
      · rfl
    simp [hstop, EventLoop.record]

theorem freeEvent_eq (cfg : Config) (loop : EventLoop) (event : Event) :
    freeEvent cfg loop event =
      { loop with
        mRunning := loop.mRunning && !event.stopsLoop
        mCurrentApp := if event.hasFreeCallback then none else loop.mCurrentApp
        mEventPool := loop.mEventPool.deallocate
        trace := loop.trace ++ freeEventCalls cfg loop event } := by
  simp only [freeEvent_def]
  unfold Event.invokeFreeCallback freeEventCalls
  cases hcb : event.freeCallback with
  | none => simp [Event.hasFreeCallback, hcb, EventLoop.record, Event.stopsLoop]
  | some callback =>
    simp [Event.hasFreeCallback, hcb, EventLoop.record, invokeCallback_eq, Event.stopsLoop]

theorem lookupAppByInstanceId_congr (cfg : Config) (a b : EventLoop) (instanceId : Nat)
    (happs : a.mNanoapps = b.mNanoapps) :
    lookupAppByInstanceId cfg a instanceId = lookupAppByInstanceId cfg b instanceId := by
  unfold lookupAppByInstanceId
  rw [happs]

theorem freeEventCalls_congr (cfg : Config) (a b : EventLoop) (event : Event)
    (happs : a.mNanoapps = b.mNanoapps) :
    freeEventCalls cfg a event = freeEventCalls cfg b event := by
  unfold freeEventCalls
  rw [lookupAppByInstanceId_congr cfg a b _ happs]

theorem deliverToNanoapps_eq (cfg : Config) (event : Event) (apps : List Nanoapp)
    (acc : Bool × EventLoop) :
    deliverToNanoapps cfg event apps acc =
      (acc.1 || (apps.filter (isEventTarget cfg event)).length != 0,
        { acc.2 with
          mCurrentApp :=
            if (apps.filter (isEventTarget cfg event)).length != 0 then none
            else acc.2.mCurrentApp
          trace := acc.2.trace
            ++ (apps.filter (isEventTarget cfg event)).map
                (fun app => Action.processEvent app event) }) := by
  induction apps generalizing acc with
  | nil => simp [deliverToNanoapps]
  | cons app rest ih =>
    unfold deliverToNanoapps
    by_cases htarget : isEventTarget cfg event app = true
    · simp [htarget, ih, deliverNextEvent_def, EventLoop.record]
    · simp [htarget, ih]

theorem distributeEvent_eq (cfg : Config) (loop : EventLoop) (event : Event) :
    distributeEvent cfg loop event =
      { loop with
        mRunning := loop.mRunning && !event.stopsLoop
        mCurrentApp :=
          if event.hasFreeCallback || !(eventTargets cfg loop event).isEmpty then none
          else loop.mCurrentApp
        mEventPool := loop.mEventPool.deallocate
        trace := loop.trace ++ distributeEventCalls cfg loop event } := by
  simp only [distributeEvent_def]
  simp only [deliverToNanoapps_eq, freeEvent_eq]
  by_cases hnone : (eventTargets cfg loop event) = []
  · have hfilter : List.filter (isEventTarget cfg event) loop.mNanoapps = [] := hnone
    by_cases hlog : (event.targetInstanceId != cfg.kBroadcastInstanceId
        && event.targetInstanceId != cfg.kSystemInstanceId) = true
    · simp only [Bool.and_eq_true] at hlog
      rw [freeEventCalls_congr cfg _ loop event (by simp [hfilter, hlog, EventLoop.record])]
      simp [hfilter, hnone, hlog, EventLoop.record, distributeEventCalls, deliveryCalls]
    · rw [freeEventCalls_congr cfg _ loop event (by
        simp only [hfilter]; split <;> simp [EventLoop.record])]
      simp only [Bool.not_eq_true] at hlog
      simp [hfilter, hnone, hlog, EventLoop.record, distributeEventCalls, deliveryCalls]
  · have hfilter : List.filter (isEventTarget cfg event) loop.mNanoapps ≠ [] := hnone
    rw [freeEventCalls_congr cfg _ loop event (by simp [hfilter])]
    simp [hfilter, hnone, distributeEventCalls, deliveryCalls, eventTargets]

theorem eventTargets_congr (cfg : Config) (a b : EventLoop) (event : Event)
    (happs : a.mNanoapps = b.mNanoapps) :
    eventTargets cfg a event = eventTargets cfg b event := by
  unfold eventTargets
  rw [happs]

theorem distributeEventCalls_congr (cfg : Config) (a b : EventLoop) (event : Event)
    (happs : a.mNanoapps = b.mNanoapps) :
    distributeEventCalls cfg a event = distributeEventCalls cfg b event := by
  unfold distributeEventCalls deliveryCalls
  rw [freeEventCalls_congr cfg a b event happs, eventTargets_congr cfg a b event happs]

theorem dispatchCalls_congr (cfg : Config) (a b : EventLoop) (events : List Event) (behind : Nat)
    (happs : a.mNanoapps = b.mNanoapps) :
    dispatchCalls cfg a events behind = dispatchCalls cfg b events behind := by
  induction events with
  | nil => rfl
  | cons event rest ih =>
    simp only [dispatchCalls, ih, distributeEventCalls_congr cfg a b event happs]

theorem deliveryCalls_shape (cfg : Config) (loop : EventLoop) (event : Event) :
    ∀ action ∈ deliveryCalls cfg loop event,
      (∃ app, action = Action.processEvent app event) ∨ action = Action.logDroppedEvent event := by
  intro action hmem
  unfold deliveryCalls at hmem
  rw [List.mem_append] at hmem
  rcases hmem with hmem | hmem
  · rw [List.mem_map] at hmem
    obtain ⟨app, _, happ⟩ := hmem
    exact Or.inl ⟨app, happ.symm⟩
  · split at hmem
    · rw [List.mem_singleton] at hmem
      exact Or.inr hmem
    · exact absurd hmem (List.not_mem_nil _)

/-! ### Event distribution -/

/-- C1. For every event and every registry, `distributeEvent` first makes its deliveries
(calls of `processEvent`, or the dropped-event warning when there was none), then calls
the free callback once when the event has one and not at all when it has none, and last
returns the event to the pool once. -/
theorem distributeEvent_frees_event_once (cfg : Config) (loop : EventLoop) (event : Event) :
    ∃ deliveries : List Action,
      (∀ action ∈ deliveries,
        (∃ app, action = Action.processEvent app event)
          ∨ action = Action.logDroppedEvent event) ∧
      (distributeEvent cfg loop event).trace =
        loop.trace ++ deliveries
          ++ (match event.freeCallback with
              | some callback =>
                [Action.invokeCallback (lookupAppByInstanceId cfg loop event.senderInstanceId)
                  callback event.eventType event.eventData]
              | none => [])
          ++ [Action.deallocate event] ∧
      (distributeEvent cfg loop event).mEventPool = loop.mEventPool.deallocate := by
  refine ⟨deliveryCalls cfg loop event, deliveryCalls_shape cfg loop event, ?_, ?_⟩
  · rw [distributeEvent_eq]
    simp [distributeEventCalls, freeEventCalls]
  · rw [distributeEvent_eq]

/-! ### The loops of `run`, one cycle at a time -/

/-- One cycle of the dispatch loop as `run` writes it: the pool usage is sampled, one event
is popped from `mEvents`, and the loop goes on from the state `distributeEvent` leaves. -/
theorem dispatchLoop_step (cfg : Config) (loop : EventLoop) :
    dispatchLoop cfg loop =
      if loop.mRunning then
        match loop.mEvents with
        | [] =>
          LoopOutcome.blocked
            { loop with
              mEventPoolUsage := loop.mEventPoolUsage.addValue (loop.mEvents.length % kUint32Modulus) }
        | event :: rest =>
          dispatchLoop cfg
            ((distributeEvent cfg
              ({ loop with
                  mEventPoolUsage :=
                    loop.mEventPoolUsage.addValue (loop.mEvents.length % kUint32Modulus)
                  mEvents := rest }.record (Action.preEventLoopProcess (rest.length + 1)))
              event).record (Action.postEventLoopProcess rest.length))
      else
        LoopOutcome.finished loop := by
  unfold dispatchLoop
  cases hq : loop.mEvents with
  | nil => simp [dispatchLoopOn, hq]
  | cons event rest =>
    simp only [dispatchLoopOn, dispatchCycleWith_def, hq, EventLoop.record,
      distributeEvent_mEvents]

/-- One cycle of the purge loop as `run` writes it. -/
theorem purgeEvents_step (cfg : Config) (loop : EventLoop) :
    purgeEvents cfg loop =
      match loop.mEvents with
      | [] => loop
      | event :: rest => purgeEvents cfg (freeEvent cfg { loop with mEvents := rest } event) := by
  unfold purgeEvents
  cases hq : loop.mEvents with
  | nil => simp [purgeEventsOn]
  | cons event rest => simp only [purgeEventsOn, freeEvent_mEvents]

theorem releaseDomain_eq (enabled : Bool) (resource : Resource) (count : Nat) (app : Nanoapp)
    (loop : EventLoop) (hcurrent : loop.mCurrentApp = some app) :
    releaseDomain enabled resource count app loop =
      { loop with trace := loop.trace ++ releaseCalls enabled resource count app } := by
  simp only [releaseDomain_def]
  unfold releaseCalls logDanglingResources
  cases enabled with
  | false => simp
  | true =>
    by_cases hcount : count > 0
    · simp [hcount, EventLoop.record, hcurrent]
    · simp [hcount, EventLoop.record]

theorem releaseDomain_after (enabled : Bool) (resource : Resource) (count : Nat) (app : Nanoapp)
    (loop : EventLoop) (hcurrent : loop.mCurrentApp = some app) (calls : List Action) :
    releaseDomain enabled resource count app { loop with trace := loop.trace ++ calls } =
      { loop with
        trace := loop.trace ++ (calls ++ releaseCalls enabled resource count app) } := by
  rw [releaseDomain_eq enabled resource count app { loop with trace := loop.trace ++ calls }
    hcurrent]
  simp

theorem unloadNanoappAtIndex_eq (cfg : Config) (loop : EventLoop) (index : Nat)
    (nanoappStarted : Bool) (app : Nanoapp) (happ : loop.mNanoapps.get? index = some app) :
    unloadNanoappAtIndex cfg loop index nanoappStarted =
      { loop with
        mNanoapps := loop.mNanoapps.eraseIdx index
        mCurrentApp := none
        trace := loop.trace ++ unloadCalls cfg app nanoappStarted } := by
  have hended : (if nanoappStarted = true then
        ({ loop.record Action.lockNanoapps with mCurrentApp := some app } : EventLoop).record
          (Action.nanoappEnd app)
      else { loop.record Action.lockNanoapps with mCurrentApp := some app }) =
      { ({ loop with mCurrentApp := some app } : EventLoop) with
        trace := ({ loop with mCurrentApp := some app } : EventLoop).trace
          ++ ([Action.lockNanoapps] ++ (if nanoappStarted then [Action.nanoappEnd app] else [])) } := by
    cases nanoappStarted <;> simp [EventLoop.record]
  simp only [unloadNanoappAtIndex_def]
  rw [happ]
  simp only []
  rw [hended]
  rw [releaseDomain_after _ _ _ app _ rfl, releaseDomain_after _ _ _ app _ rfl,
    releaseDomain_after _ _ _ app _ rfl, releaseDomain_after _ _ _ app _ rfl,
    releaseDomain_after _ _ _ app _ rfl, releaseDomain_after _ _ _ app _ rfl,
    releaseDomain_after _ _ _ app _ rfl]
  simp [EventLoop.record, unloadCalls]

theorem unloadCalls_no_delivery (cfg : Config) (app : Nanoapp) (nanoappStarted : Bool) :
    ∀ action ∈ unloadCalls cfg app nanoappStarted, action.isProcessEvent = false := by
  intro action hmem
  simp only [unloadCalls, releaseCalls, List.mem_append, List.mem_singleton] at hmem
  rcases hmem with ((((((((h | h) | h) | h) | h) | h) | h) | h) | h) | h
  all_goals first
    | (subst h; rfl)
    | (split at h
       · first
         | (rw [List.mem_singleton] at h; subst h; rfl)
         | (rw [List.mem_cons] at h
            rcases h with h | h
            · subst h; rfl
            · split at h
              · rw [List.mem_singleton] at h; subst h; rfl
              · exact absurd h (List.not_mem_nil _))
       · exact absurd h (List.not_mem_nil _))

/-! ### The purge loop and the unload loop as state updates -/

theorem purgeEventsOn_eq (cfg : Config) (queue : List Event) (loop : EventLoop)
    (hqueue : loop.mEvents = queue) :
    purgeEventsOn cfg queue loop =
      { loop with
        mRunning := loop.mRunning && !queue.any Event.stopsLoop
        mEvents := []
        mCurrentApp := if queue.any Event.hasFreeCallback then none else loop.mCurrentApp
        mEventPool := { allocated := loop.mEventPool.allocated - queue.length }
        trace := loop.trace ++ queue.flatMap (freeEventCalls cfg loop) } := by
  induction queue generalizing loop with
  | nil =>
    cases loop
    simp_all [purgeEventsOn]
  | cons event rest ih =>
    unfold purgeEventsOn
    have hcalls : ∀ other : EventLoop, other.mNanoapps = loop.mNanoapps →
        freeEventCalls cfg other = freeEventCalls cfg loop :=
      fun other happs => funext (fun event => freeEventCalls_congr cfg other loop event happs)
    rw [ih _ (freeEvent_mEvents cfg _ event),
      hcalls (freeEvent cfg { loop with mEvents := rest } event) (by rw [freeEvent_eq]),
      freeEvent_eq, hcalls { loop with mEvents := rest } rfl]
    have hpool : loop.mEventPool.allocated - 1 - rest.length
        = loop.mEventPool.allocated - (rest.length + 1) := by omega
    simp only [List.any_cons, List.flatMap_cons, List.length_cons, MemoryPool.deallocate,
      List.append_assoc, Bool.not_or, Bool.and_assoc, hpool]
    by_cases hfree : event.hasFreeCallback = true <;> simp [hfree]

theorem unloadLastNanoapps_eq (cfg : Config) (remaining : Nat) (loop : EventLoop)
    (hlength : loop.mNanoapps.length = remaining) :
    unloadLastNanoapps cfg remaining loop =
      { loop with
        mNanoapps := []
        mCurrentApp := if loop.mNanoapps.isEmpty then loop.mCurrentApp else none
        trace := loop.trace
          ++ loop.mNanoapps.reverse.flatMap (fun app => unloadCalls cfg app true) } := by
  induction remaining generalizing loop with
  | zero =>
    have hnil : loop.mNanoapps = [] := List.length_eq_zero.mp hlength
    simp [unloadLastNanoapps, hnil]
    rw [← hnil]
  | succ remaining ih =>
    have hne : loop.mNanoapps ≠ [] := by
      intro hnil
      simp [hnil] at hlength
    have hsplit : loop.mNanoapps.dropLast ++ [loop.mNanoapps.getLast hne] = loop.mNanoapps :=
      List.dropLast_append_getLast hne
    have hget : loop.mNanoapps.get? (loop.mNanoapps.length - 1)
        = some (loop.mNanoapps.getLast hne) := by
      rw [List.get?_eq_getElem?, ← List.getLast?_eq_getElem?, List.getLast?_eq_getLast _ hne]
    have herase : loop.mNanoapps.eraseIdx (loop.mNanoapps.length - 1) = loop.mNanoapps.dropLast :=
      (List.dropLast_eq_eraseIdx (by omega)).symm
    unfold unloadLastNanoapps
    rw [unloadNanoappAtIndex_eq cfg loop _ true _ hget, herase]
    rw [ih _ (by simp only [List.length_dropLast]; omega)]
    have hreverse : loop.mNanoapps.reverse
        = loop.mNanoapps.getLast hne :: loop.mNanoapps.dropLast.reverse := by
      conv_lhs => rw [← hsplit]
      simp
    simp only [hreverse, List.flatMap_cons, List.append_assoc, List.isEmpty_iff, hne, if_false]
    congr 1
    split <;> rfl

/-! ### The dispatch loop -/

/-- One cycle of the dispatch loop of a running loop leaves the state `afterCycle`. -/
theorem dispatchLoopOn_cons (cfg : Config) (event : Event) (rest : List Event) (loop : EventLoop)
    (hrunning : loop.mRunning = true) :
    dispatchLoopOn cfg (event :: rest) loop =
      dispatchLoopOn cfg rest (afterCycle cfg loop event rest) := by
  conv_lhs => unfold dispatchLoopOn
  simp only [hrunning, if_true, dispatchCycleWith_def, distributeEvent_eq, EventLoop.record]
  rw [distributeEventCalls_congr cfg _ loop event (by rfl),
    eventTargets_congr cfg _ loop event (by rfl)]
  simp [hrunning, afterCycle]

theorem scanMatchedFromBack_split (matchFunc : Event → Bool) (maxNum : Nat)
    (youngestFirst : List Event) :
    ∃ younger older : List Event,
      youngestFirst = younger ++ older ∧
      (scanMatchedFromBack matchFunc maxNum youngestFirst).1 = younger.filter matchFunc ∧
      (scanMatchedFromBack matchFunc maxNum youngestFirst).2
        = younger.filter (fun event => !matchFunc event) ++ older := by
  induction youngestFirst generalizing maxNum with
  | nil =>
    refine ⟨[], [], rfl, ?_, ?_⟩ <;> cases maxNum <;> rfl
  | cons event rest ih =>
    cases maxNum with
    | zero => exact ⟨[], event :: rest, rfl, rfl, rfl⟩
    | succ maxNum =>
      by_cases hmatch : matchFunc event = true
      · obtain ⟨younger, older, hsplit, hremoved, hkept⟩ := ih maxNum
        refine ⟨event :: younger, older, by rw [hsplit]; rfl, ?_, ?_⟩
        · simp [scanMatchedFromBack, hmatch, hremoved]
        · simp [scanMatchedFromBack, hmatch, hkept]
      · obtain ⟨younger, older, hsplit, hremoved, hkept⟩ := ih (maxNum + 1)
        refine ⟨event :: younger, older, by rw [hsplit]; rfl, ?_, ?_⟩
        · simp [scanMatchedFromBack, hmatch, hremoved]
        · simp [scanMatchedFromBack, hmatch, hkept]

theorem scanMatchedFromBack_length (matchFunc : Event → Bool) (maxNum : Nat)
    (youngestFirst : List Event) :
    (scanMatchedFromBack matchFunc maxNum youngestFirst).1.length
      = min maxNum (youngestFirst.filter matchFunc).length := by
  induction youngestFirst generalizing maxNum with
  | nil => cases maxNum <;> simp [scanMatchedFromBack]
  | cons event rest ih =>
    cases maxNum with
    | zero => simp [scanMatchedFromBack]
    | succ maxNum =>
      by_cases hmatch : matchFunc event = true
      · simp only [scanMatchedFromBack, hmatch, if_true, List.length_cons, ih maxNum,
          List.filter_cons_of_pos]
        omega
      · simp [scanMatchedFromBack, hmatch, ih (maxNum + 1)]

theorem scanMatchedFromBack_total (matchFunc : Event → Bool) (maxNum : Nat)
    (youngestFirst : List Event) :
    (scanMatchedFromBack matchFunc maxNum youngestFirst).1.length
      + (scanMatchedFromBack matchFunc maxNum youngestFirst).2.length
      = youngestFirst.length := by
  induction youngestFirst generalizing maxNum with
  | nil => cases maxNum <;> simp [scanMatchedFromBack]
  | cons event rest ih =>
    cases maxNum with
    | zero => simp [scanMatchedFromBack]
    | succ maxNum =>
      by_cases hmatch : matchFunc event = true
      · have := ih maxNum
        simp [scanMatchedFromBack, hmatch]
        omega
      · have := ih (maxNum + 1)
        simp [scanMatchedFromBack, hmatch]
        omega

/-- What `removeMatchedFromBack` does to a queue: the queue splits into an older and a
younger part, the matching events of the younger part are removed (reported youngest
first), and everything else stays in place; the number removed is the smaller of
`maxNum` and the number of matching events queued. -/
theorem removeMatchedFromBack_split (matchFunc : Event → Bool) (maxNum : Nat)
    (queue : List Event) :
    ∃ older younger : List Event,
      queue = older ++ younger ∧
      (removeMatchedFromBack matchFunc maxNum queue).1 = (younger.filter matchFunc).reverse ∧
      (removeMatchedFromBack matchFunc maxNum queue).2
        = older ++ younger.filter (fun event => !matchFunc event) ∧
      (removeMatchedFromBack matchFunc maxNum queue).1.length
        = min maxNum (queue.filter matchFunc).length := by
  obtain ⟨younger, older, hsplit, hremoved, hkept⟩ :=
    scanMatchedFromBack_split matchFunc maxNum queue.reverse
  refine ⟨older.reverse, younger.reverse, ?_, ?_, ?_, ?_⟩
  · rw [← List.reverse_append, ← hsplit, List.reverse_reverse]
  · simp [removeMatchedFromBack, hremoved, List.filter_reverse]
  · simp [removeMatchedFromBack, hkept, List.filter_reverse]
  · simp [removeMatchedFromBack, scanMatchedFromBack_length, List.filter_reverse]

theorem removeMatchedFromBack_total (matchFunc : Event → Bool) (maxNum : Nat)
    (queue : List Event) :
    (removeMatchedFromBack matchFunc maxNum queue).1.length
      + (removeMatchedFromBack matchFunc maxNum queue).2.length = queue.length := by
  have := scanMatchedFromBack_total matchFunc maxNum queue.reverse
  simpa [removeMatchedFromBack] using this

theorem foldl_deallocateFromMemoryPool (removed : List Event) (loop : EventLoop) :
    removed.foldl deallocateFromMemoryPool loop =
      { loop with
        mEventPool := { allocated := loop.mEventPool.allocated - removed.length }
        trace := loop.trace ++ removed.map Action.deallocate } := by
  induction removed generalizing loop with
  | nil => simp
  | cons event rest ih =>
    rw [List.foldl_cons, ih]
    simp [deallocateFromMemoryPool, EventLoop.record, MemoryPool.deallocate]
    omega

/-- The eviction as a state update, when the dynamic pool is compiled in and at least one
removal is asked for. -/
theorem removeNonNanoappLowPriorityEventsFromBack_eq (cfg : Config) (loop : EventLoop)
    (removeNum : Nat) (hdynamic : cfg.staticEventLoop = false) (hnum : removeNum ≠ 0) :
    removeNonNanoappLowPriorityEventsFromBack cfg loop removeNum =
      (decide
          ((removeMatchedFromBack (isNonNanoappLowPriorityEvent cfg) removeNum
            loop.mEvents).1.length > 0),
        { loop with
          mEvents :=
            (removeMatchedFromBack (isNonNanoappLowPriorityEvent cfg) removeNum loop.mEvents).2
          mEventPool :=
            { allocated := loop.mEventPool.allocated
                - (removeMatchedFromBack (isNonNanoappLowPriorityEvent cfg) removeNum
                    loop.mEvents).1.length }
          mNumDroppedLowPriEvents :=
            if (removeMatchedFromBack (isNonNanoappLowPriorityEvent cfg) removeNum
                  loop.mEvents).1.length == 0
                || (removeMatchedFromBack (isNonNanoappLowPriorityEvent cfg) removeNum
                  loop.mEvents).1.length == cfg.kSizeMax then
              loop.mNumDroppedLowPriEvents
            else
              (loop.mNumDroppedLowPriEvents
                + (removeMatchedFromBack (isNonNanoappLowPriorityEvent cfg) removeNum
                    loop.mEvents).1.length) % kUint32Modulus
          trace := loop.trace
            ++ (removeMatchedFromBack (isNonNanoappLowPriorityEvent cfg) removeNum
                loop.mEvents).1.map Action.deallocate }) := by
  unfold removeNonNanoappLowPriorityEventsFromBack
  simp only [hdynamic, Bool.false_eq_true, if_false, beq_iff_eq, hnum,
    foldl_deallocateFromMemoryPool]
  split <;> rfl

/-- Nothing can be evicted from a queue without low priority events of the system. -/
theorem removeMatchedFromBack_of_none (matchFunc : Event → Bool) (maxNum : Nat)
    (queue : List Event) (hnone : ∀ event ∈ queue, matchFunc event = false) :
    removeMatchedFromBack matchFunc maxNum queue = ([], queue) := by
  obtain ⟨older, younger, hsplit, hremoved, hkept, _⟩ :=
    removeMatchedFromBack_split matchFunc maxNum queue
  have hyounger : ∀ event ∈ younger, matchFunc event = false := fun event hmem =>
    hnone event (by rw [hsplit]; exact List.mem_append_right older hmem)
  have hnomatch : younger.filter matchFunc = [] :=
    List.filter_eq_nil_iff.mpr (fun event hmem => by simp [hyounger event hmem])
  have hall : younger.filter (fun event => !matchFunc event) = younger :=
    List.filter_eq_self.mpr (fun event hmem => by simp [hyounger event hmem])
  rw [hnomatch] at hremoved
  rw [hall, ← hsplit] at hkept
  exact Prod.ext hremoved hkept

theorem hasNoSpaceForHighPriorityEvent_of_none (cfg : Config) (loop : EventLoop)
    (hfull : loop.mEventPool.full cfg = true)
    (hnone : ∀ event ∈ loop.mEvents, isNonNanoappLowPriorityEvent cfg event = false) :
    hasNoSpaceForHighPriorityEvent cfg loop = (true, loop) := by
  unfold hasNoSpaceForHighPriorityEvent
  rw [if_pos hfull]
  by_cases hstatic : cfg.staticEventLoop = true
  · simp [removeNonNanoappLowPriorityEventsFromBack, hstatic]
  · simp only [Bool.not_eq_true] at hstatic
    rw [removeNonNanoappLowPriorityEventsFromBack_eq cfg loop _ hstatic
      (by simp [targetLowPriorityEventRemove])]
    simp [removeMatchedFromBack_of_none _ _ _ hnone]

/-! ### `run` -/

theorem freeEventCalls_no_delivery (cfg : Config) (loop : EventLoop) (event : Event) :
    ∀ action ∈ freeEventCalls cfg loop event, action.isProcessEvent = false := by
  intro action hmem
  unfold freeEventCalls at hmem
  rw [List.mem_append] at hmem
  rcases hmem with hmem | hmem
  · split at hmem
    · rw [List.mem_singleton] at hmem
      subst hmem
      rfl
    · exact absurd hmem (List.not_mem_nil _)
  · rw [List.mem_singleton] at hmem
    subst hmem
    rfl

/-- What `run` does once its dispatch loop has ended in the state `stopped`: the events
left are freed in queue order, then the nanoapps are unloaded from the back of the
registry. -/
theorem run_of_finished (cfg : Config) (loop stopped : EventLoop)
    (hdispatch : dispatchLoop cfg loop = LoopOutcome.finished stopped) :
    run cfg loop =
      LoopOutcome.finished
        { stopped with
          mRunning := stopped.mRunning && !stopped.mEvents.any Event.stopsLoop
          mEvents := []
          mNanoapps := []
          mCurrentApp :=
            if stopped.mNanoapps.isEmpty then
              (if stopped.mEvents.any Event.hasFreeCallback then none else stopped.mCurrentApp)
            else none
          mEventPool := { allocated := stopped.mEventPool.allocated - stopped.mEvents.length }
          trace := stopped.trace
            ++ stopped.mEvents.flatMap (freeEventCalls cfg stopped)
            ++ stopped.mNanoapps.reverse.flatMap (fun app => unloadCalls cfg app true) } := by
  unfold run
  rw [hdispatch]
  simp only [purgeEvents, unloadAllNanoapps]
  rw [purgeEventsOn_eq cfg _ stopped rfl, unloadLastNanoapps_eq cfg _ _ rfl]

theorem run_of_blocked (cfg : Config) (loop waiting : EventLoop)
    (hdispatch : dispatchLoop cfg loop = LoopOutcome.blocked waiting) :
    run cfg loop = LoopOutcome.blocked waiting := by
  unfold run
  rw [hdispatch]

/-- The dispatch loop of a running loop pops the events in front of the first shutdown event
and that event, in queue order, with one full cycle for each; a loop that is not running pops
nothing. -/
theorem dispatchLoopOn_order (cfg : Config) (queue : List Event) (loop : EventLoop)
    (hqueue : loop.mEvents = queue) :
    ∃ remaining : List Event,
      queue = (if loop.mRunning then dispatchedEvents queue else []) ++ remaining ∧
      (dispatchLoopOn cfg queue loop).loop.mEvents = remaining ∧
      (dispatchLoopOn cfg queue loop).loop.trace =
        loop.trace
          ++ dispatchCalls cfg loop (if loop.mRunning then dispatchedEvents queue else [])
              remaining.length ∧
      ((dispatchLoopOn cfg queue loop).isFinished = false → remaining = []) := by
  induction queue generalizing loop with
  | nil =>
    refine ⟨[], by simp [dispatchedEvents], ?_, ?_, fun _ => rfl⟩
    all_goals
      unfold dispatchLoopOn
      split <;> simp [LoopOutcome.loop, hqueue, dispatchCalls, dispatchedEvents]
  | cons event rest ih =>
    by_cases hrunning : loop.mRunning = true
    · rw [dispatchLoopOn_cons cfg event rest loop hrunning]
      obtain ⟨remaining, hsplit, hevents, htrace, hblocked⟩ :=
        ih (afterCycle cfg loop event rest) rfl
      have hafter : (afterCycle cfg loop event rest).mRunning = !event.stopsLoop := rfl
      rw [hafter] at hsplit htrace
      have hdispatched : dispatchedEvents (event :: rest)
          = event :: (if (!event.stopsLoop) = true then dispatchedEvents rest else []) := by
        cases hstops : event.stopsLoop <;> simp [dispatchedEvents, hstops]
      refine ⟨remaining, ?_, hevents, ?_, hblocked⟩
      · rw [if_pos hrunning, hdispatched, List.cons_append, ← hsplit]
      · rw [htrace, if_pos hrunning, hdispatched,
          dispatchCalls_congr cfg _ loop _ remaining.length (by rfl)]
        have hlength : rest.length
            = (if (!event.stopsLoop) = true then dispatchedEvents rest else []).length
              + remaining.length := by
          conv_lhs => rw [hsplit]
          rw [List.length_append]
        simp [dispatchCalls, hlength, afterCycle]
    · refine ⟨event :: rest, by simp [hrunning], ?_, ?_, ?_⟩
      all_goals
        unfold dispatchLoopOn
        simp [hrunning, LoopOutcome.loop, LoopOutcome.isFinished, hqueue, dispatchCalls]

/-- With a free callback that only appends to the queue, `distributeEvent` only appends to
the queue. -/
theorem distributeEventWith_mEvents (invoke : Event → EventLoop → EventLoop) (cfg : Config)
    (happend : ∀ event state, ∃ posted, (invoke event state).mEvents = state.mEvents ++ posted)
    (loop : EventLoop) (event : Event) :
    ∃ posted, (distributeEventWith invoke cfg loop event).mEvents = loop.mEvents ++ posted := by
  have hlogged : ∀ state : EventLoop, state.mEvents = loop.mEvents →
      ∃ posted, (freeEventWith invoke cfg state event).mEvents = loop.mEvents ++ posted := by
    intro state hstate
    unfold freeEventWith
    by_cases hcallback : event.hasFreeCallback = true
    · obtain ⟨posted, hposted⟩ := happend event
        { state with mCurrentApp := lookupAppByInstanceId cfg state event.senderInstanceId }
      refine ⟨posted, ?_⟩
      simp only [hcallback, if_true, EventLoop.record]
      rw [hposted]
      exact congrArg (· ++ posted) hstate
    · refine ⟨[], ?_⟩
      simp only [hcallback, Bool.false_eq_true, if_false, EventLoop.record, List.append_nil]
      exact hstate
  unfold distributeEventWith
  simp only []
  split
  · exact hlogged _ (by simp [EventLoop.record, deliverToNanoapps_mEvents])
  · exact hlogged _ (by simp [deliverToNanoapps_mEvents])

/-- With a free callback that only appends to the queue, one cycle of the dispatch loop
leaves the events behind the popped one in the queue, followed by the events posted. -/
theorem dispatchCycleWith_mEvents (invoke : Event → EventLoop → EventLoop) (cfg : Config)
    (happend : ∀ event state, ∃ posted, (invoke event state).mEvents = state.mEvents ++ posted)
    (loop : EventLoop) (event : Event) (rest : List Event) :
    ∃ posted, (dispatchCycleWith invoke cfg loop event rest).mEvents = rest ++ posted := by
  unfold dispatchCycleWith
  simp only []
  obtain ⟨posted, hposted⟩ := distributeEventWith_mEvents invoke cfg happend
    (({ ({ loop with
          mEventPoolUsage :=
            loop.mEventPoolUsage.addValue (loop.mEvents.length % kUint32Modulus) } : EventLoop)
        with mEvents := rest } : EventLoop).record (Action.preEventLoopProcess (rest.length + 1)))
    event
  exact ⟨posted, hposted⟩

/-- With a free callback that only appends to the queue, the dispatch loop pops the events
in queue order: after any number of cycles, the events popped so far followed by the queue
are the queue of the entry state followed by the events posted since, the loop state is
the result of the cycles of the popped events, one after the other, and one event was popped
in every cycle unless the loop has ended or waits on an empty queue. -/
theorem dispatchCyclesWith_order (invoke : Event → EventLoop → EventLoop) (cfg : Config)
    (happend : ∀ event state, ∃ posted, (invoke event state).mEvents = state.mEvents ++ posted)
    (cycles : Nat) (loop : EventLoop) :
    ∃ (popped posted : List Event) (usage : StatsContainer),
      loop.mEvents ++ posted = popped ++ (dispatchCyclesWith invoke cfg cycles loop).mEvents ∧
      dispatchCyclesWith invoke cfg cycles loop =
        { popped.foldl
            (fun state event => dispatchCycleWith invoke cfg state event state.mEvents.tail)
            loop with
          mEventPoolUsage := usage } ∧
      (popped.length = cycles ∨ (dispatchCyclesWith invoke cfg cycles loop).mRunning = false
        ∨ (dispatchCyclesWith invoke cfg cycles loop).mEvents = []) := by
  induction cycles generalizing loop with
  | zero =>
    exact ⟨[], [], loop.mEventPoolUsage, by simp [dispatchCyclesWith], rfl, Or.inl rfl⟩
  | succ cycles ih =>
    by_cases hrunning : loop.mRunning = true
    · cases hqueue : loop.mEvents with
      | nil =>
        have hstep : dispatchCyclesWith invoke cfg (cycles + 1) loop
            = { loop with
                mEventPoolUsage :=
                  loop.mEventPoolUsage.addValue (loop.mEvents.length % kUint32Modulus) } := by
          conv_lhs => unfold dispatchCyclesWith
          simp only [hrunning, if_true, hqueue]
        refine ⟨[], [],
          loop.mEventPoolUsage.addValue (loop.mEvents.length % kUint32Modulus), ?_, ?_, ?_⟩
        · rw [hstep]
          simp [hqueue]
        · rw [hstep]
          rfl
        · rw [hstep]
          exact Or.inr (Or.inr hqueue)
      | cons event rest =>
        obtain ⟨first, hfirst⟩ := dispatchCycleWith_mEvents invoke cfg happend loop event rest
        obtain ⟨popped, posted, usage, hsplit, hstate, hprogress⟩ :=
          ih (dispatchCycleWith invoke cfg loop event rest)
        have hstep : dispatchCyclesWith invoke cfg (cycles + 1) loop
            = dispatchCyclesWith invoke cfg cycles
                (dispatchCycleWith invoke cfg loop event rest) := by
          conv_lhs => unfold dispatchCyclesWith
          simp only [hrunning, if_true, hqueue]
        refine ⟨event :: popped, first ++ posted, usage, ?_, ?_, ?_⟩
        · rw [hstep, List.cons_append, List.cons_append, ← hsplit, hfirst, List.append_assoc]
        · rw [hstep, hstate, List.foldl_cons, hqueue]
          rfl
        · rw [hstep, List.length_cons]
          rcases hprogress with hlength | hrest
          · exact Or.inl (by rw [hlength])
          · exact Or.inr hrest
    · have hstep : dispatchCyclesWith invoke cfg (cycles + 1) loop = loop := by
        conv_lhs => unfold dispatchCyclesWith
        simp only [hrunning, Bool.false_eq_true, if_false]
      refine ⟨[], [], loop.mEventPoolUsage, ?_, ?_, ?_⟩
      · rw [hstep]
        simp
      · rw [hstep]
        rfl
      · rw [hstep]
        exact Or.inr (Or.inl (by simpa using hrunning))

/-- With opaque callbacks, the dispatch loop that walks through the queue of the entry state
is the loop that pops the front of the queue in every cycle. -/
theorem dispatchLoopOn_eq_cycles (cfg : Config) (queue : List Event) (loop : EventLoop)
    (hqueue : loop.mEvents = queue) :
    (dispatchLoopOn cfg queue loop).loop
      = dispatchCyclesWith Event.invokeFreeCallback cfg (queue.length + 1) loop := by
  induction queue generalizing loop with
  | nil =>
    unfold dispatchLoopOn dispatchCyclesWith
    by_cases hrunning : loop.mRunning = true
    · simp [hrunning, hqueue, LoopOutcome.loop]
    · simp [hrunning, LoopOutcome.loop]
  | cons event rest ih =>
    by_cases hrunning : loop.mRunning = true
    · have hleft : dispatchLoopOn cfg (event :: rest) loop
          = dispatchLoopOn cfg rest
              (dispatchCycleWith Event.invokeFreeCallback cfg loop event rest) := by
        conv_lhs => unfold dispatchLoopOn
        simp only [hrunning, if_true]
      have hright : dispatchCyclesWith Event.invokeFreeCallback cfg (rest.length + 1 + 1) loop
          = dispatchCyclesWith Event.invokeFreeCallback cfg (rest.length + 1)
              (dispatchCycleWith Event.invokeFreeCallback cfg loop event rest) := by
        conv_lhs => unfold dispatchCyclesWith
        simp only [hrunning, if_true, hqueue]
      rw [hleft, List.length_cons, hright]
      apply ih
      rw [dispatchCycleWith_def]
      simp [EventLoop.record, distributeEvent_mEvents]
    · unfold dispatchLoopOn dispatchCyclesWith
      simp [hrunning, LoopOutcome.loop]

/-- C2, amended. `run` dispatches in queue order when no free callback takes events out of
the queue. For any code in place of the free callbacks that leaves the events of the queue in
place and at most appends to it, after any number of cycles of the dispatch loop the events
popped so far, followed by the queue, are the queue of the entry state followed by the events
posted since; the loop state is the result of the cycles of the popped events, one after
the other, each cycle with its `distributeEvent` from the deliveries to the return of the
event to the pool; and one event was popped in every cycle unless the loop has ended or
waits on an empty queue. The opaque callbacks and the lambda of `stop` leave the queue as it is,
and with them the dispatch loop of `run` is this loop. The events it handles are then the
front part `dispatched` of the queue: on a running loop the events in front of the first
shutdown event and that event, and none on a loop that is not running. The calls of the
dispatch loop are the calls of one full cycle per dispatched event (power notification,
deliveries, free callback, return to the pool, power notification), cycle after cycle in
queue order; the events behind stay queued in their order, so that nothing popped is queued
again; when the loop blocks everything was dispatched; and whatever `run` does after the
dispatch loop delivers no event. -/
theorem run_dispatches_in_queue_order (cfg : Config) (loop : EventLoop) :
    (∀ invoke : Event → EventLoop → EventLoop,
      (∀ event state, ∃ posted, (invoke event state).mEvents = state.mEvents ++ posted) →
      ∀ cycles : Nat, ∃ (popped posted : List Event) (usage : StatsContainer),
        loop.mEvents ++ posted
          = popped ++ (dispatchCyclesWith invoke cfg cycles loop).mEvents ∧
        dispatchCyclesWith invoke cfg cycles loop =
          { popped.foldl
              (fun state event => dispatchCycleWith invoke cfg state event state.mEvents.tail)
              loop with
            mEventPoolUsage := usage } ∧
        (popped.length = cycles ∨ (dispatchCyclesWith invoke cfg cycles loop).mRunning = false
          ∨ (dispatchCyclesWith invoke cfg cycles loop).mEvents = [])) ∧
    (∀ (event : Event) (state : EventLoop),
      (event.invokeFreeCallback state).mEvents = state.mEvents) ∧
    (dispatchLoop cfg loop).loop
      = dispatchCyclesWith Event.invokeFreeCallback cfg (loop.mEvents.length + 1) loop ∧
    ∃ (dispatched remaining : List Event) (shutdownCalls : List Action),
      dispatched = (if loop.mRunning then dispatchedEvents loop.mEvents else []) ∧
      loop.mEvents = dispatched ++ remaining ∧
      (dispatchLoop cfg loop).loop.mEvents = remaining ∧
      (dispatchLoop cfg loop).loop.trace =
        loop.trace ++ dispatchCalls cfg loop dispatched remaining.length ∧
      ((dispatchLoop cfg loop).isFinished = false → remaining = []) ∧
      (run cfg loop).loop.trace = (dispatchLoop cfg loop).loop.trace ++ shutdownCalls ∧
      (∀ action ∈ shutdownCalls, action.isProcessEvent = false) := by
  refine ⟨?_, ?_, dispatchLoopOn_eq_cycles cfg loop.mEvents loop rfl, ?_⟩
  · intro invoke happend cycles
    exact dispatchCyclesWith_order invoke cfg happend cycles loop
  · intro event state
    unfold Event.invokeFreeCallback
    split
    · exact invokeCallback_mEvents state _ _ _
    · rfl
  obtain ⟨remaining, hsplit, hevents, htrace, hblocked⟩ :=
    dispatchLoopOn_order cfg loop.mEvents loop rfl
  cases hdispatch : dispatchLoop cfg loop with
  | blocked waiting =>
    refine ⟨_, remaining, [], rfl, hsplit, ?_, ?_, ?_, ?_, ?_⟩
    · rw [← hdispatch]; exact hevents
    · rw [← hdispatch]; exact htrace
    · rw [← hdispatch]; exact hblocked
    · rw [run_of_blocked cfg loop waiting hdispatch]; simp
    · intro action hmem
      exact absurd hmem (List.not_mem_nil _)
  | finished stopped =>
    refine ⟨_, remaining,
      stopped.mEvents.flatMap (freeEventCalls cfg stopped)
        ++ stopped.mNanoapps.reverse.flatMap (fun app => unloadCalls cfg app true),
      rfl, hsplit, ?_, ?_, ?_, ?_, ?_⟩
    · rw [← hdispatch]; exact hevents
    · rw [← hdispatch]; exact htrace
    · rw [← hdispatch]; exact hblocked
    · rw [run_of_finished cfg loop stopped hdispatch]
      simp [LoopOutcome.loop]
    · intro action hmem
      rw [List.mem_append, List.mem_flatMap, List.mem_flatMap] at hmem
      rcases hmem with ⟨event, _, hcall⟩ | ⟨app, _, hcall⟩
      · exact freeEventCalls_no_delivery cfg stopped event action hcall
      · exact unloadCalls_no_delivery cfg app true action hcall

theorem run_dispatches_in_queue_order_witness :
    (dispatchLoop exampleConfig orderedLoop).loop.trace =
      dispatchCalls exampleConfig orderedLoop [broadcastEvent, unicastEvent, stopEvent] 1 ∧
    (dispatchLoop exampleConfig orderedLoop).loop.mEvents = [nanoappEvent] ∧
    ((dispatchLoop exampleConfig orderedLoop).loop.trace.filter Action.isProcessEvent) =
      [Action.processEvent exampleApp broadcastEvent, Action.processEvent secondApp broadcastEvent,
        Action.processEvent systemApp broadcastEvent,
        Action.processEvent secondApp unicastEvent] := by
  obtain ⟨_, _, _, dispatched, remaining, _, hdispatched, hsplit, hevents, htrace, _⟩ :=
    run_dispatches_in_queue_order exampleConfig orderedLoop
  have hfront : dispatched = [broadcastEvent, unicastEvent, stopEvent] := by
    rw [hdispatched]
    decide
  have hrest : remaining = [nanoappEvent] := by
    rw [hfront] at hsplit
    have hqueue : orderedLoop.mEvents
        = [broadcastEvent, unicastEvent, stopEvent] ++ [nanoappEvent] := by decide
    exact (List.append_cancel_left (hqueue.symm.trans hsplit)).symm
  rw [hfront, hrest] at htrace
  rw [hrest] at hevents
  refine ⟨htrace, hevents, ?_⟩
  rw [htrace]
  decide

/-- C2 as stated fails when a free callback calls back into the loop. The deferred callback
of a request to unload the nanoapp with instance id 2 calls `unloadNanoapp`, which flushes
the inbound queue. In the first cycle of the dispatch loop on the queue `[A, B]`, where `A`
is the request and `B` a broadcast event, the callback of `A` is followed by all the calls
of `distributeEvent(B)` (deliveries, free callback, return to the pool), by the stopped
notification and by the calls that unload the nanoapp, and only then `A` goes back to the
pool: `distributeEvent(B)` begins and ends inside `distributeEvent(A)`. When the cycle ends,
`B` has left the queue, which holds the stopped event alone. With an opaque callback the
call `distributeEvent(A)` makes the two calls for `A` and leaves `B` queued. -/
theorem unload_callback_dispatches_the_next_event_first :
    unloadRequestLoop.mEvents = [unloadRequestEvent, broadcastEvent] ∧
    (dispatchCyclesWith (invokeUnloadCallback exampleConfig examplePlatform) exampleConfig 1
        unloadRequestLoop).trace =
      [Action.preEventLoopProcess 2,
        Action.invokeCallback none
          (FreeCallback.systemEvent (SystemEventCallbackFunction.function 700) 0) 1001 2,
        Action.flushNanoappMessages secondApp]
        ++ distributeEventCalls exampleConfig unloadRequestLoop broadcastEvent
        ++ [Action.writeNanoappInfo 900 171 1 2]
        ++ unloadCalls exampleConfig secondApp true
        ++ [Action.deallocate unloadRequestEvent, Action.postEventLoopProcess 1] ∧
    (dispatchCyclesWith (invokeUnloadCallback exampleConfig examplePlatform) exampleConfig 1
        unloadRequestLoop).mEvents =
      [statusChangeEvent exampleConfig unloadRequestLoop 4 900] ∧
    (distributeEventWith (invokeUnloadCallback exampleConfig examplePlatform) exampleConfig
        { unloadRequestLoop with mEvents := [broadcastEvent] } unloadRequestEvent).trace =
      [Action.invokeCallback none
          (FreeCallback.systemEvent (SystemEventCallbackFunction.function 700) 0) 1001 2,
        Action.flushNanoappMessages secondApp]
        ++ distributeEventCalls exampleConfig unloadRequestLoop broadcastEvent
        ++ [Action.writeNanoappInfo 900 171 1 2]
        ++ unloadCalls exampleConfig secondApp true
        ++ [Action.deallocate unloadRequestEvent] ∧
    distributeEventCalls exampleConfig unloadRequestLoop broadcastEvent =
      [Action.processEvent exampleApp broadcastEvent,
        Action.processEvent secondApp broadcastEvent,
        Action.invokeCallback none (FreeCallback.eventComplete 500) 7 40,
        Action.deallocate broadcastEvent] ∧
    (distributeEvent exampleConfig { unloadRequestLoop with mEvents := [broadcastEvent] }
        unloadRequestEvent).trace =
      [Action.invokeCallback none
          (FreeCallback.systemEvent (SystemEventCallbackFunction.function 700) 0) 1001 2,
        Action.deallocate unloadRequestEvent] ∧
    (distributeEvent exampleConfig { unloadRequestLoop with mEvents := [broadcastEvent] }
        unloadRequestEvent).mEvents = [broadcastEvent] := by
  decide

/-- When `mRunning` is false, `run` returns: it skips the dispatch loop, and its two other
loops end. -/
theorem run_returns_when_not_running (cfg : Config) (loop : EventLoop)
    (hstopped : loop.mRunning = false) :
    (run cfg loop).isFinished = true := by
  have hdispatch : dispatchLoop cfg loop = LoopOutcome.finished loop := by
    unfold dispatchLoop
    cases loop.mEvents <;> simp [dispatchLoopOn, hstopped]
  rw [run_of_finished cfg loop loop hdispatch]
  rfl

/-- C4. Whenever `run` returns, the event queue and the registry are empty. -/
theorem run_returns_with_empty_queue_and_registry (cfg : Config) (loop final : EventLoop)
    (hreturn : run cfg loop = LoopOutcome.finished final) :
    final.mEvents = [] ∧ final.mNanoapps = [] := by
  cases hdispatch : dispatchLoop cfg loop with
  | blocked waiting =>
    rw [run_of_blocked cfg loop waiting hdispatch] at hreturn
    exact absurd hreturn (by simp)
  | finished stopped =>
    rw [run_of_finished cfg loop stopped hdispatch] at hreturn
    injection hreturn with hfinal
    rw [← hfinal]
    exact ⟨rfl, rfl⟩

/-! ### `stop` -/

/-- Witness for C4: a stopped loop with one event queued and one nanoapp loaded. -/
theorem run_returns_with_empty_queue_and_registry_witness :
    run exampleConfig stoppedLoop = LoopOutcome.finished (run exampleConfig stoppedLoop).loop ∧
    (run exampleConfig stoppedLoop).loop.mEvents = [] ∧
    (run exampleConfig stoppedLoop).loop.mNanoapps = [] :=
  ⟨by decide,
    run_returns_with_empty_queue_and_registry exampleConfig stoppedLoop
      (run exampleConfig stoppedLoop).loop (by decide)⟩

/-! ### Admission of high priority events -/

/-- C5. On a running loop whose pool is full and whose queue holds no low priority event
sent by the system, `postEventOrDie` and `postSystemEvent` both end in `FATAL_ERROR`,
with the loop as it was: nothing is enqueued. -/
theorem post_is_fatal_without_space (cfg : Config) (loop : EventLoop)
    (eventType eventData : Nat) (freeCallback : Option Nat)
    (targetInstanceId targetGroupMask : Nat)
    (callback : Option SystemEventCallbackFunction) (extraData : Nat)
    (hrunning : loop.mRunning = true)
    (hfull : loop.mEventPool.full cfg = true)
    (hnone : ∀ event ∈ loop.mEvents, isNonNanoappLowPriorityEvent cfg event = false) :
    postEventOrDie cfg loop eventType eventData freeCallback targetInstanceId targetGroupMask
        = Outcome.fatalError (loop.record (Action.fatalError eventType)) ∧
      postSystemEvent cfg loop eventType eventData callback extraData
        = Outcome.fatalError (loop.record (Action.fatalError eventType)) ∧
      (loop.record (Action.fatalError eventType)).mEvents = loop.mEvents := by
  refine ⟨?_, ?_, rfl⟩
  · unfold postEventOrDie
    simp [hrunning, hasNoSpaceForHighPriorityEvent_of_none cfg loop hfull hnone]
  · unfold postSystemEvent
    simp [hrunning, hasNoSpaceForHighPriorityEvent_of_none cfg loop hfull hnone]

/-- Witness for C5: a full pool, and a queue of high priority events and an event sent by a
nanoapp. -/
theorem post_is_fatal_without_space_witness :
    jammedLoop.mRunning = true ∧
    jammedLoop.mEventPool.full exampleConfig = true ∧
    (∀ event ∈ jammedLoop.mEvents, isNonNanoappLowPriorityEvent exampleConfig event = false) ∧
    postEventOrDie exampleConfig jammedLoop 9 43 (some 502) 1 65535
        = Outcome.fatalError (jammedLoop.record (Action.fatalError 9)) ∧
    postSystemEvent exampleConfig jammedLoop 9 43
        (some (SystemEventCallbackFunction.function 503)) 0
        = Outcome.fatalError (jammedLoop.record (Action.fatalError 9)) ∧
    (jammedLoop.record (Action.fatalError 9)).mEvents = jammedLoop.mEvents :=
  ⟨by decide, by decide, by decide,
    post_is_fatal_without_space exampleConfig jammedLoop 9 43 (some 502) 1 65535
      (some (SystemEventCallbackFunction.function 503)) 0 (by decide) (by decide) (by decide)⟩

/-- C6 as stated fails in a build with `CHRE_STATIC_EVENT_LOOP`: the loop is running, the
pool is full and a low priority event of the system is queued, yet posting a high
priority event ends in `FATAL_ERROR` with the queue as it was. -/
theorem static_loop_evicts_nothing :
    fullLoop.mRunning = true ∧
    fullLoop.mEventPool.full staticConfig = true ∧
    1 ≤ (fullLoop.mEvents.filter (isNonNanoappLowPriorityEvent staticConfig)).length ∧
    (postEventOrDie staticConfig fullLoop 9 43 (some 502) 1 65535).isFatal = true ∧
    (postEventOrDie staticConfig fullLoop 9 43 (some 502) 1 65535).loop.mEvents
      = fullLoop.mEvents := by
  decide

/-- C6, amended. On a running loop with the dynamic pool, a full pool and at least one low
priority event of the system queued, `postEventOrDie` does not fail. The queue splits into an
older and a younger part such that the low priority system events of the younger part
are the ones removed, and they number `min 4 k` for `k` such events queued; their slots
are returned to the pool, youngest first; every other event keeps its place; and the new
high priority event is appended at the tail. The pool and the queue are taken within
their bounds: at most `kMaxEventCount` events allocated, the queued events among them,
and at most `kMaxQueueSize` events queued. -/
theorem postEventOrDie_evicts_from_tail (cfg : Config) (loop : EventLoop)
    (eventType eventData : Nat) (freeCallback : Option Nat)
    (targetInstanceId targetGroupMask : Nat)
    (hrunning : loop.mRunning = true)
    (hdynamic : cfg.staticEventLoop = false)
    (hfull : loop.mEventPool.full cfg = true)
    (hpool : loop.mEventPool.allocated ≤ cfg.kMaxEventCount)
    (hqueued : loop.mEvents.length ≤ loop.mEventPool.allocated)
    (hcapacity : loop.mEvents.length ≤ cfg.kMaxQueueSize)
    (hsome : 1 ≤ (loop.mEvents.filter (isNonNanoappLowPriorityEvent cfg)).length) :
    ∃ (older younger : List Event) (posted : EventLoop),
      loop.mEvents = older ++ younger ∧
      (younger.filter (isNonNanoappLowPriorityEvent cfg)).length
        = min 4 (loop.mEvents.filter (isNonNanoappLowPriorityEvent cfg)).length ∧
      postEventOrDie cfg loop eventType eventData freeCallback targetInstanceId targetGroupMask
        = Outcome.done () posted ∧
      posted.mEvents =
        older ++ younger.filter (fun event => !isNonNanoappLowPriorityEvent cfg event)
          ++ [{ eventType := eventType
                receivedTimeMillis := loop.timeMillis
                eventData := eventData
                freeCallback := freeCallback.map FreeCallback.eventComplete
                isLowPriority := false
                senderInstanceId := cfg.kSystemInstanceId
                targetInstanceId := targetInstanceId
                targetAppGroupMask := targetGroupMask }] ∧
      posted.mEventPool.allocated + min 4 (loop.mEvents.filter (isNonNanoappLowPriorityEvent cfg)).length
        = loop.mEventPool.allocated + 1 ∧
      posted.trace =
        loop.trace
          ++ ((younger.filter (isNonNanoappLowPriorityEvent cfg)).reverse).map Action.deallocate := by
  obtain ⟨older, younger, hsplit, hremoved, hkept, hcount⟩ :=
    removeMatchedFromBack_split (isNonNanoappLowPriorityEvent cfg) targetLowPriorityEventRemove
      loop.mEvents
  have htotal := removeMatchedFromBack_total (isNonNanoappLowPriorityEvent cfg)
    targetLowPriorityEventRemove loop.mEvents
  have hfour : targetLowPriorityEventRemove = 4 := rfl
  rw [hfour] at hcount htotal hremoved hkept
  have hfullLe : cfg.kMaxEventCount ≤ loop.mEventPool.allocated := by
    simpa [MemoryPool.full] using hfull
  have hfilter : (loop.mEvents.filter (isNonNanoappLowPriorityEvent cfg)).length
      ≤ loop.mEvents.length := List.length_filter_le _ _
  have hpositive : 0 < (removeMatchedFromBack (isNonNanoappLowPriorityEvent cfg) 4
      loop.mEvents).1.length := by
    rw [hcount]
    omega
  have hyounger : (younger.filter (isNonNanoappLowPriorityEvent cfg)).length
      = min 4 (loop.mEvents.filter (isNonNanoappLowPriorityEvent cfg)).length := by
    rw [← hcount, hremoved, List.length_reverse]
  have hadmit : hasNoSpaceForHighPriorityEvent cfg loop =
      (false,
        { loop with
          mEvents := (removeMatchedFromBack (isNonNanoappLowPriorityEvent cfg) 4 loop.mEvents).2
          mEventPool :=
            { allocated := loop.mEventPool.allocated
                - (removeMatchedFromBack (isNonNanoappLowPriorityEvent cfg) 4
                    loop.mEvents).1.length }
          mNumDroppedLowPriEvents :=
            if (removeMatchedFromBack (isNonNanoappLowPriorityEvent cfg) 4
                  loop.mEvents).1.length == 0
                || (removeMatchedFromBack (isNonNanoappLowPriorityEvent cfg) 4
                  loop.mEvents).1.length == cfg.kSizeMax then
              loop.mNumDroppedLowPriEvents
            else
              (loop.mNumDroppedLowPriEvents
                + (removeMatchedFromBack (isNonNanoappLowPriorityEvent cfg) 4
                    loop.mEvents).1.length) % kUint32Modulus
          trace := loop.trace
            ++ (removeMatchedFromBack (isNonNanoappLowPriorityEvent cfg) 4
                loop.mEvents).1.map Action.deallocate }) := by
    unfold hasNoSpaceForHighPriorityEvent
    rw [if_pos hfull, removeNonNanoappLowPriorityEventsFromBack_eq cfg loop _ hdynamic
      (by simp [targetLowPriorityEventRemove]), hfour]
    simp [hpositive]
  have hroom : ¬ cfg.kMaxEventCount ≤ loop.mEventPool.allocated
      - (removeMatchedFromBack (isNonNanoappLowPriorityEvent cfg) 4 loop.mEvents).1.length := by
    omega
  have hpush : (removeMatchedFromBack (isNonNanoappLowPriorityEvent cfg) 4 loop.mEvents).2.length
      < cfg.kMaxQueueSize := by
    omega
  have hpost : ∃ posted : EventLoop,
      postEventOrDie cfg loop eventType eventData freeCallback targetInstanceId targetGroupMask
        = Outcome.done () posted ∧
      posted.mEvents =
        (removeMatchedFromBack (isNonNanoappLowPriorityEvent cfg) 4 loop.mEvents).2
          ++ [{ eventType := eventType
                receivedTimeMillis := loop.timeMillis
                eventData := eventData
                freeCallback := freeCallback.map FreeCallback.eventComplete
                isLowPriority := false
                senderInstanceId := cfg.kSystemInstanceId
                targetInstanceId := targetInstanceId
                targetAppGroupMask := targetGroupMask }] ∧
      posted.mEventPool.allocated =
        loop.mEventPool.allocated
          - (removeMatchedFromBack (isNonNanoappLowPriorityEvent cfg) 4 loop.mEvents).1.length
          + 1 ∧
      posted.trace = loop.trace
        ++ (removeMatchedFromBack (isNonNanoappLowPriorityEvent cfg) 4
            loop.mEvents).1.map Action.deallocate := by
    unfold postEventOrDie
    rw [if_pos hrunning, hadmit]
    simp only [Bool.false_eq_true, if_false, allocateAndPostEvent, MemoryPool.allocate,
      MemoryPool.full, decide_eq_true_eq, hroom, pushEvent, hpush, if_true, Bool.not_true]
    exact ⟨_, rfl, rfl, rfl, rfl⟩
  obtain ⟨posted, hdone, hevents, hallocated, htrace⟩ := hpost
  refine ⟨older, younger, posted, hsplit, hyounger, hdone, ?_, ?_, ?_⟩
  · rw [hevents, hkept]
  · rw [hallocated, hcount]
    rw [hcount] at htotal hpositive
    omega
  · rw [htrace, hremoved]

/-- Witness for C6, amended: a full pool of three events, the youngest of which is a low
priority event of the system. -/
theorem postEventOrDie_evicts_from_tail_witness :
    fullLoop.mRunning = true ∧
    exampleConfig.staticEventLoop = false ∧
    fullLoop.mEventPool.full exampleConfig = true ∧
    1 ≤ (fullLoop.mEvents.filter (isNonNanoappLowPriorityEvent exampleConfig)).length ∧
    ∃ (older younger : List Event) (posted : EventLoop),
      fullLoop.mEvents = older ++ younger ∧
      (younger.filter (isNonNanoappLowPriorityEvent exampleConfig)).length
        = min 4 (fullLoop.mEvents.filter (isNonNanoappLowPriorityEvent exampleConfig)).length ∧
      postEventOrDie exampleConfig fullLoop 9 43 (some 502) 1 65535 = Outcome.done () posted ∧
      posted.mEvents =
        older ++ younger.filter (fun event => !isNonNanoappLowPriorityEvent exampleConfig event)
          ++ [{ eventType := 9
                receivedTimeMillis := fullLoop.timeMillis
                eventData := 43
                freeCallback := (some 502).map FreeCallback.eventComplete
                isLowPriority := false
                senderInstanceId := exampleConfig.kSystemInstanceId
                targetInstanceId := 1
                targetAppGroupMask := 65535 }] ∧
      posted.mEventPool.allocated
          + min 4 (fullLoop.mEvents.filter (isNonNanoappLowPriorityEvent exampleConfig)).length
        = fullLoop.mEventPool.allocated + 1 ∧
      posted.trace =
        fullLoop.trace
          ++ ((younger.filter (isNonNanoappLowPriorityEvent exampleConfig)).reverse).map
              Action.deallocate :=
  ⟨by decide, by decide, by decide, by decide,
    postEventOrDie_evicts_from_tail exampleConfig fullLoop 9 43 (some 502) 1 65535 (by decide)
      (by decide) (by decide) (by decide) (by decide) (by decide) (by decide)⟩

/-- C7, the code at a failing input. The pool is full and the youngest queued event is a low
priority event of the system that has a free callback. Posting a high priority event
succeeds and evicts that event: it is gone from the queue and its slot went back to the
pool, and this return is the only call made, so its free callback was not called. -/
theorem eviction_skips_the_free_callback :
    lowPriorityEvent.hasFreeCallback = true ∧
    lowPriorityEvent ∈ fullLoop.mEvents ∧
    (postEventOrDie exampleConfig fullLoop 9 43 (some 502) 1 65535).isFatal = false ∧
    lowPriorityEvent ∉ (postEventOrDie exampleConfig fullLoop 9 43 (some 502) 1 65535).loop.mEvents ∧
    (postEventOrDie exampleConfig fullLoop 9 43 (some 502) 1 65535).loop.trace
      = fullLoop.trace ++ [Action.deallocate lowPriorityEvent] := by
  decide

/-- C8. The eviction removes no event that is high priority or was sent by a nanoapp: the
queue it leaves is the queue of before with some events taken out, and the events that
are high priority or whose sender is not the system instance are the same before and
after, in the same order. -/
theorem eviction_keeps_protected_events (cfg : Config) (loop : EventLoop) (removeNum : Nat) :
    List.Sublist (removeNonNanoappLowPriorityEventsFromBack cfg loop removeNum).2.mEvents
        loop.mEvents ∧
      (removeNonNanoappLowPriorityEventsFromBack cfg loop removeNum).2.mEvents.filter
          (fun event => !event.isLowPriority || event.senderInstanceId != cfg.kSystemInstanceId)
        = loop.mEvents.filter
          (fun event => !event.isLowPriority || event.senderInstanceId != cfg.kSystemInstanceId) := by
  have hpredicate : (fun event : Event =>
        !event.isLowPriority || event.senderInstanceId != cfg.kSystemInstanceId)
      = (fun event => !isNonNanoappLowPriorityEvent cfg event) := by
    funext event
    simp [isNonNanoappLowPriorityEvent, bne]
  rw [hpredicate]
  by_cases hstatic : cfg.staticEventLoop = true
  · simp [removeNonNanoappLowPriorityEventsFromBack, hstatic]
  · by_cases hnum : removeNum = 0
    · simp [removeNonNanoappLowPriorityEventsFromBack, hnum, hstatic]
    · simp only [Bool.not_eq_true] at hstatic
      rw [removeNonNanoappLowPriorityEventsFromBack_eq cfg loop removeNum hstatic hnum]
      obtain ⟨older, younger, hsplit, _, hkept, _⟩ :=
        removeMatchedFromBack_split (isNonNanoappLowPriorityEvent cfg) removeNum loop.mEvents
      simp only [hkept]
      constructor
      · rw [hsplit]
        exact List.Sublist.append (List.Sublist.refl older) (List.filter_sublist younger)
      · rw [hsplit, List.filter_append, List.filter_append, List.filter_filter]
        simp

/-! ### Low priority events -/

/-- C9. `postLowPriorityEventOrFree` returns true exactly when the loop is running, the pool
has a free slot and the queue has room; then the event is allocated and appended at the
tail, and no call is made. When it returns false the queue is as before and the only
call made is the free callback, once, with the event type and data, when it is not
null: nothing is evicted and `FATAL_ERROR` is not reached. -/
theorem postLowPriorityEventOrFree_posts_or_frees (cfg : Config) (loop : EventLoop)
    (eventType eventData : Nat) (freeCallback : Option Nat)
    (senderInstanceId targetInstanceId targetGroupMask : Nat) :
    ((postLowPriorityEventOrFree cfg loop eventType eventData freeCallback senderInstanceId
          targetInstanceId targetGroupMask).1 = true
        ↔ loop.mRunning = true ∧ loop.mEventPool.full cfg = false
          ∧ loop.mEvents.length < cfg.kMaxQueueSize) ∧
    ((postLowPriorityEventOrFree cfg loop eventType eventData freeCallback senderInstanceId
          targetInstanceId targetGroupMask).1 = true →
      (postLowPriorityEventOrFree cfg loop eventType eventData freeCallback senderInstanceId
          targetInstanceId targetGroupMask).2.mEvents
        = loop.mEvents
          ++ [{ eventType := eventType
                receivedTimeMillis := loop.timeMillis
                eventData := eventData
                freeCallback := freeCallback.map FreeCallback.eventComplete
                isLowPriority := true
                senderInstanceId := senderInstanceId
                targetInstanceId := targetInstanceId
                targetAppGroupMask := targetGroupMask }] ∧
      (postLowPriorityEventOrFree cfg loop eventType eventData freeCallback senderInstanceId
          targetInstanceId targetGroupMask).2.mEventPool.allocated
        = loop.mEventPool.allocated + 1 ∧
      (postLowPriorityEventOrFree cfg loop eventType eventData freeCallback senderInstanceId
          targetInstanceId targetGroupMask).2.trace = loop.trace) ∧
    ((postLowPriorityEventOrFree cfg loop eventType eventData freeCallback senderInstanceId
          targetInstanceId targetGroupMask).1 = false →
      (postLowPriorityEventOrFree cfg loop eventType eventData freeCallback senderInstanceId
          targetInstanceId targetGroupMask).2.mEvents = loop.mEvents ∧
      (postLowPriorityEventOrFree cfg loop eventType eventData freeCallback senderInstanceId
          targetInstanceId targetGroupMask).2.trace
        = loop.trace
          ++ (match freeCallback with
              | some address =>
                [Action.invokeCallback loop.mCurrentApp (FreeCallback.eventComplete address)
                  eventType eventData]
              | none => [])) := by
  unfold postLowPriorityEventOrFree allocateAndPostEvent MemoryPool.allocate pushEvent
  by_cases hrunning : loop.mRunning = true
  · by_cases hfull : loop.mEventPool.full cfg = true
    · cases freeCallback <;> simp [hrunning, hfull, invokeCallback_eq]
    · by_cases hroom : loop.mEvents.length < cfg.kMaxQueueSize
      · cases freeCallback <;> simp [hrunning, hfull, hroom]
      · cases freeCallback <;> simp [hrunning, hfull, hroom, invokeCallback_eq]
  · cases freeCallback <;> simp [hrunning, invokeCallback_eq]

/-- C10 as stated fails: on a stopped loop `postLowPriorityEventOrFree` returns false and
leaves the counter of dropped low priority events as it is. -/
theorem drop_on_stopped_loop_is_not_counted :
    (postLowPriorityEventOrFree exampleConfig stoppedLoop 9 43 (some 502) 1 65535 65535).1
      = false ∧
    (postLowPriorityEventOrFree exampleConfig stoppedLoop 9 43 (some 502) 1 65535
        65535).2.mNumDroppedLowPriEvents
      = stoppedLoop.mNumDroppedLowPriEvents := by
  decide

/-- C10, amended. A call of `postLowPriorityEventOrFree` that admits the event leaves the
counter of dropped low priority events unchanged; a call on a running loop that does not
admit it adds one to the counter, a `uint32_t`; a call on a loop that is not running
leaves it unchanged. -/
theorem postLowPriorityEventOrFree_counts_drops (cfg : Config) (loop : EventLoop)
    (eventType eventData : Nat) (freeCallback : Option Nat)
    (senderInstanceId targetInstanceId targetGroupMask : Nat) :
    (postLowPriorityEventOrFree cfg loop eventType eventData freeCallback senderInstanceId
        targetInstanceId targetGroupMask).2.mNumDroppedLowPriEvents
      = if (postLowPriorityEventOrFree cfg loop eventType eventData freeCallback
            senderInstanceId targetInstanceId targetGroupMask).1 then
          loop.mNumDroppedLowPriEvents
        else if loop.mRunning then
          (loop.mNumDroppedLowPriEvents + 1) % kUint32Modulus
        else
          loop.mNumDroppedLowPriEvents := by
  unfold postLowPriorityEventOrFree allocateAndPostEvent MemoryPool.allocate pushEvent
  by_cases hrunning : loop.mRunning = true
  · by_cases hfull : loop.mEventPool.full cfg = true
    · cases freeCallback <;> simp [hrunning, hfull, invokeCallback_eq]
    · by_cases hroom : loop.mEvents.length < cfg.kMaxQueueSize
      · cases freeCallback <;> simp [hrunning, hfull, hroom]
      · cases freeCallback <;> simp [hrunning, hfull, hroom, invokeCallback_eq]
  · cases freeCallback <;> simp [hrunning, invokeCallback_eq]

/-! ### Loading a nanoapp -/

/-- C12. `startNanoapp` with a null handle, or with a nanoapp whose target API version is below
`CHRE_FIRST_SUPPORTED_API_VERSION`, returns false and leaves the whole loop as it was:
registry, queue, pool and `mCurrentApp` are unchanged and no call is made. -/
theorem startNanoapp_rejects_invalid_argument (cfg : Config) (loop : EventLoop)
    (platform : Platform) (nanoapp : Option Nanoapp)
    (hinvalid : nanoapp = none
      ∨ ∃ app, nanoapp = some app ∧ app.targetApiVersion < cfg.firstSupportedApiVersion) :
    startNanoapp cfg loop platform nanoapp = Outcome.done false loop := by
  rcases hinvalid with hnull | ⟨app, hsome, hversion⟩
  · rw [hnull]
    rfl
  · rw [hsome]
    simp [startNanoapp_def, hversion]

/-- Witness for C12: a null handle, and a nanoapp built for API version 0 where version 1 is
the first supported one. -/
theorem startNanoapp_rejects_invalid_argument_witness :
    outdatedApp.targetApiVersion < exampleConfig.firstSupportedApiVersion ∧
    startNanoapp exampleConfig busyLoop examplePlatform none = Outcome.done false busyLoop ∧
    startNanoapp exampleConfig busyLoop examplePlatform (some outdatedApp)
      = Outcome.done false busyLoop :=
  ⟨by decide,
    startNanoapp_rejects_invalid_argument exampleConfig busyLoop examplePlatform none
      (Or.inl rfl),
    startNanoapp_rejects_invalid_argument exampleConfig busyLoop examplePlatform
      (some outdatedApp) (Or.inr ⟨outdatedApp, rfl, by decide⟩)⟩

/-- C11. `startNanoapp` with a nanoapp whose app id is the app id of a loaded nanoapp returns
false. The loop is as before but for the calls of the lock guard of the lookup, which
locks and unlocks `mNanoappsLock` when the caller is not the loop thread: the registry
and the queue are unchanged, the start hook is not called and no event is posted. -/
theorem startNanoapp_rejects_duplicate_app_id (cfg : Config) (loop : EventLoop)
    (platform : Platform) (app : Nanoapp)
    (hduplicate : ∃ loaded ∈ loop.mNanoapps, loaded.appId = app.appId) :
    ∃ lockCalls : List Action,
      startNanoapp cfg loop platform (some app)
        = Outcome.done false { loop with trace := loop.trace ++ lockCalls } ∧
      (lockCalls = [] ∨ lockCalls = [Action.lockNanoapps, Action.unlockNanoapps]) := by
  obtain ⟨loaded, hmem, hid⟩ := hduplicate
  have hfound : (loop.mNanoapps.find? (fun other => other.appId == app.appId)).isSome = true := by
    rw [List.find?_isSome]
    exact ⟨loaded, hmem, by simp [hid]⟩
  by_cases hversion : app.targetApiVersion < cfg.firstSupportedApiVersion
  · exact ⟨[], by simp [startNanoapp_def, hversion], Or.inl rfl⟩
  · cases hthread : platform.inEventLoopThread with
    | true =>
      refine ⟨[], ?_, Or.inl rfl⟩
      simp [startNanoapp_def, hversion, findNanoappInstanceIdByAppId, conditionalLock,
        conditionalUnlock, hthread, hfound]
    | false =>
      refine ⟨[Action.lockNanoapps, Action.unlockNanoapps], ?_, Or.inr rfl⟩
      simp [startNanoapp_def, hversion, findNanoappInstanceIdByAppId, conditionalLock,
        conditionalUnlock, hthread, hfound, EventLoop.record]

/-- Witness for C11: a nanoapp with the app id of the loaded nanoapp. -/
theorem startNanoapp_rejects_duplicate_app_id_witness :
    (∃ loaded ∈ busyLoop.mNanoapps, loaded.appId = duplicateApp.appId) ∧
    ∃ lockCalls : List Action,
      startNanoapp exampleConfig busyLoop examplePlatform (some duplicateApp)
        = Outcome.done false { busyLoop with trace := busyLoop.trace ++ lockCalls } ∧
      (lockCalls = [] ∨ lockCalls = [Action.lockNanoapps, Action.unlockNanoapps]) :=
  ⟨⟨exampleApp, by decide, by decide⟩,
    startNanoapp_rejects_duplicate_app_id exampleConfig busyLoop examplePlatform duplicateApp
      ⟨exampleApp, by decide, by decide⟩⟩

/-! ### Unloading a nanoapp -/

theorem findNanoappIndex_eq_none (instanceId : Nat) (apps : List Nanoapp) :
    findNanoappIndex instanceId apps = none ↔ ∀ app ∈ apps, app.instanceId ≠ instanceId := by
  induction apps with
  | nil => simp [findNanoappIndex]
  | cons app rest ih =>
    unfold findNanoappIndex
    by_cases hid : instanceId = app.instanceId
    · simp [hid]
    · have hne : app.instanceId ≠ instanceId := fun h => hid h.symm
      simp [hid, hne, ih]

/-- The nanoapp `unloadNanoapp` selects is the first one of the registry with the instance
id. -/
theorem findNanoappIndex_find (instanceId : Nat) (apps : List Nanoapp) :
    (findNanoappIndex instanceId apps).map (fun found => found.2)
      = apps.find? (fun app => app.instanceId == instanceId) := by
  induction apps with
  | nil => rfl
  | cons app rest ih =>
    unfold findNanoappIndex
    by_cases hid : instanceId = app.instanceId
    · simp [hid]
    · have hne : app.instanceId ≠ instanceId := fun h => hid h.symm
      simp [hid, hne, ← ih, Option.map_map, Function.comp_def]

/-- What `findNanoappIndex` finds: the nanoapp at the index has the instance id, and no
nanoapp before it has. -/
theorem findNanoappIndex_some (instanceId : Nat) (apps : List Nanoapp) (index : Nat)
    (app : Nanoapp) (hfound : findNanoappIndex instanceId apps = some (index, app)) :
    apps.get? index = some app ∧ app.instanceId = instanceId ∧
      ∀ other ∈ apps.take index, other.instanceId ≠ instanceId := by
  induction apps generalizing index with
  | nil => simp [findNanoappIndex] at hfound
  | cons first rest ih =>
    unfold findNanoappIndex at hfound
    by_cases hid : instanceId = first.instanceId
    · simp only [hid, beq_self_eq_true, if_true, Option.some.injEq, Prod.mk.injEq] at hfound
      obtain ⟨hindex, happ⟩ := hfound
      subst hindex happ
      simp [hid]
    · have hne : first.instanceId ≠ instanceId := fun h => hid h.symm
      simp only [beq_iff_eq, hid, if_false, Option.map_eq_some', Prod.mk.injEq] at hfound
      obtain ⟨⟨earlier, found⟩, hrest, hindex, happ⟩ := hfound
      simp only at hindex happ
      subst hindex happ
      obtain ⟨hget, hsame, hbefore⟩ := ih earlier hrest
      refine ⟨by simpa using hget, hsame, ?_⟩
      intro other hmem
      rw [List.take_succ_cons, List.mem_cons] at hmem
      rcases hmem with hfirst | hmem
      · rw [hfirst]; exact hne
      · exact hbefore other hmem

/-- C15. `unloadNanoapp` returns false and leaves the whole loop as it was (registry, queue,
`mStoppingNanoapp` and `mCurrentApp` unchanged, no call made) when no loaded nanoapp has
the instance id, and when the nanoapp with the instance id is a system nanoapp and
`allowSystemNanoappUnload` is false. -/
theorem unloadNanoapp_rejects (cfg : Config) (loop : EventLoop) (platform : Platform)
    (instanceId : Nat) (allowSystemNanoappUnload nanoappStarted : Bool)
    (hreject : (∀ app ∈ loop.mNanoapps, app.instanceId ≠ instanceId)
      ∨ (∃ app, loop.mNanoapps.find? (fun app => app.instanceId == instanceId) = some app
          ∧ app.isSystemNanoapp = true ∧ allowSystemNanoappUnload = false)) :
    unloadNanoapp cfg loop platform instanceId allowSystemNanoappUnload nanoappStarted
      = Outcome.done false loop := by
  rcases hreject with habsent | ⟨app, hfind, hsystem, hallow⟩
  · simp only [unloadNanoapp_def]
    rw [(findNanoappIndex_eq_none instanceId loop.mNanoapps).mpr habsent]
  · rw [← findNanoappIndex_find] at hfind
    rw [Option.map_eq_some'] at hfind
    obtain ⟨⟨index, found⟩, hfound, happ⟩ := hfind
    simp only at happ
    subst happ
    simp only [unloadNanoapp_def]
    rw [hfound]
    simp [hsystem, hallow]

/-- Witness for C15: an instance id that no loaded nanoapp has, and the instance id of a
system nanoapp without the permission to unload system nanoapps. -/
theorem unloadNanoapp_rejects_witness :
    (∀ app ∈ crowdedLoop.mNanoapps, app.instanceId ≠ 9) ∧
    crowdedLoop.mNanoapps.find? (fun app => app.instanceId == 3) = some systemApp ∧
    systemApp.isSystemNanoapp = true ∧
    unloadNanoapp exampleConfig crowdedLoop examplePlatform 9 true true
      = Outcome.done false crowdedLoop ∧
    unloadNanoapp exampleConfig crowdedLoop examplePlatform 3 false true
      = Outcome.done false crowdedLoop :=
  ⟨by decide, by decide, by decide,
    unloadNanoapp_rejects exampleConfig crowdedLoop examplePlatform 9 true true
      (Or.inl (by decide)),
    unloadNanoapp_rejects exampleConfig crowdedLoop examplePlatform 3 false true
      (Or.inr ⟨systemApp, by decide, by decide, rfl⟩)⟩

/-- One cycle of `flushInboundEventQueue` as the source writes it. -/
theorem flushInboundEventQueue_step (cfg : Config) (loop : EventLoop) :
    flushInboundEventQueue cfg loop =
      match loop.mEvents with
      | [] => loop
      | event :: rest =>
        flushInboundEventQueue cfg (distributeEvent cfg { loop with mEvents := rest } event) := by
  unfold flushInboundEventQueue
  cases hq : loop.mEvents with
  | nil => simp [flushInboundEventQueueOn]
  | cons event rest => simp only [flushInboundEventQueueOn, distributeEvent_mEvents]

theorem flushInboundEventQueueOn_eq (cfg : Config) (queue : List Event) (loop : EventLoop)
    (hqueue : loop.mEvents = queue) :
    flushInboundEventQueueOn cfg queue loop =
      { loop with
        mRunning := loop.mRunning && !queue.any Event.stopsLoop
        mEvents := []
        mCurrentApp :=
          if queue.any
              (fun event => event.hasFreeCallback || !(eventTargets cfg loop event).isEmpty) then
            none
          else loop.mCurrentApp
        mEventPool := { allocated := loop.mEventPool.allocated - queue.length }
        trace := loop.trace ++ queue.flatMap (distributeEventCalls cfg loop) } := by
  induction queue generalizing loop with
  | nil =>
    cases loop
    simp_all [flushInboundEventQueueOn]
  | cons event rest ih =>
    unfold flushInboundEventQueueOn
    have hcalls : ∀ other : EventLoop, other.mNanoapps = loop.mNanoapps →
        distributeEventCalls cfg other = distributeEventCalls cfg loop :=
      fun other happs =>
        funext (fun event => distributeEventCalls_congr cfg other loop event happs)
    have htargets : ∀ other : EventLoop, other.mNanoapps = loop.mNanoapps →
        eventTargets cfg other = eventTargets cfg loop :=
      fun other happs => funext (fun event => eventTargets_congr cfg other loop event happs)
    rw [ih _ (distributeEvent_mEvents cfg _ event),
      hcalls (distributeEvent cfg { loop with mEvents := rest } event)
        (by rw [distributeEvent_eq]),
      htargets (distributeEvent cfg { loop with mEvents := rest } event)
        (by rw [distributeEvent_eq]),
      distributeEvent_eq, hcalls { loop with mEvents := rest } rfl,
      htargets { loop with mEvents := rest } rfl]
    have hpool : loop.mEventPool.allocated - 1 - rest.length
        = loop.mEventPool.allocated - (rest.length + 1) := by omega
    simp only [List.any_cons, List.flatMap_cons, List.length_cons, MemoryPool.deallocate,
      List.append_assoc, Bool.not_or, Bool.and_assoc, hpool]
    by_cases hfree : (event.hasFreeCallback || !(eventTargets cfg loop event).isEmpty) = true
    · simp [hfree]
    · simp only [Bool.not_eq_true] at hfree
      simp [hfree]

theorem distributeEventCalls_no_teardown (cfg : Config) (loop : EventLoop) (event : Event) :
    ∀ action ∈ distributeEventCalls cfg loop event, action.isTeardown = false := by
  intro action hmem
  unfold distributeEventCalls at hmem
  rw [List.mem_append] at hmem
  rcases hmem with hmem | hmem
  · rcases deliveryCalls_shape cfg loop event action hmem with ⟨app, happ⟩ | hlog
    · rw [happ]; rfl
    · rw [hlog]; rfl
  · unfold freeEventCalls at hmem
    rw [List.mem_append] at hmem
    rcases hmem with hmem | hmem
    · split at hmem
      · rw [List.mem_singleton] at hmem
        rw [hmem]; rfl
      · exact absurd hmem (List.not_mem_nil _)
    · rw [List.mem_singleton] at hmem
      rw [hmem]; rfl

/-- The admission check changes the queue, the pool and the counter of dropped events only,
and the only calls it makes return evicted events to the pool. -/
theorem hasNoSpaceForHighPriorityEvent_frame (cfg : Config) (loop : EventLoop) :
    ∃ (queue : List Event) (pool : MemoryPool) (dropped : Nat) (removed : List Event),
      (hasNoSpaceForHighPriorityEvent cfg loop).2 =
        { loop with
          mEvents := queue
          mEventPool := pool
          mNumDroppedLowPriEvents := dropped
          trace := loop.trace ++ removed.map Action.deallocate } := by
  unfold hasNoSpaceForHighPriorityEvent
  by_cases hfull : loop.mEventPool.full cfg = true
  · rw [if_pos hfull]
    by_cases hstatic : cfg.staticEventLoop = true
    · refine ⟨loop.mEvents, loop.mEventPool, loop.mNumDroppedLowPriEvents, [], ?_⟩
      simp [removeNonNanoappLowPriorityEventsFromBack, hstatic]
    · simp only [Bool.not_eq_true] at hstatic
      rw [removeNonNanoappLowPriorityEventsFromBack_eq cfg loop _ hstatic
        (by simp [targetLowPriorityEventRemove])]
      exact ⟨_, _, _, _, rfl⟩
  · rw [if_neg hfull]
    exact ⟨loop.mEvents, loop.mEventPool, loop.mNumDroppedLowPriEvents, [], by simp⟩

/-- What `postEventOrDie` can change, with either outcome: the queue, the pool and the counter
of dropped events; and what it can call. -/
theorem postEventOrDie_frame (cfg : Config) (loop : EventLoop) (eventType eventData : Nat)
    (freeCallback : Option Nat) (targetInstanceId targetGroupMask : Nat) :
    ∃ (queue : List Event) (pool : MemoryPool) (dropped : Nat) (calls : List Action),
      (postEventOrDie cfg loop eventType eventData freeCallback targetInstanceId
          targetGroupMask).loop =
        { loop with
          mEvents := queue
          mEventPool := pool
          mNumDroppedLowPriEvents := dropped
          trace := loop.trace ++ calls } ∧
      ∀ action ∈ calls, action.isPostCall = true := by
  unfold postEventOrDie
  by_cases hrunning : loop.mRunning = true
  · rw [if_pos hrunning]
    obtain ⟨queue, pool, dropped, removed, hadmit⟩ := hasNoSpaceForHighPriorityEvent_frame cfg loop
    generalize hasNoSpaceForHighPriorityEvent cfg loop = noSpace at hadmit
    obtain ⟨full, admitted⟩ := noSpace
    simp only at hadmit
    subst hadmit
    have hremoved : ∀ action ∈ removed.map Action.deallocate, action.isPostCall = true := by
      intro action hmem
      rw [List.mem_map] at hmem
      obtain ⟨event, _, hevent⟩ := hmem
      rw [← hevent]; rfl
    have hfatal : ∀ action ∈ removed.map Action.deallocate ++ [Action.fatalError eventType],
        action.isPostCall = true := by
      intro action hmem
      rw [List.mem_append, List.mem_singleton] at hmem
      rcases hmem with hmem | hmem
      · exact hremoved action hmem
      · rw [hmem]; rfl
    cases full with
    | true =>
      refine ⟨queue, pool, dropped, removed.map Action.deallocate ++ [Action.fatalError eventType],
        ?_, hfatal⟩
      simp [Outcome.loop, EventLoop.record]
    | false =>
      simp only [Bool.false_eq_true, if_false, allocateAndPostEvent]
      cases hallocate : MemoryPool.allocate cfg pool with
      | none =>
        refine ⟨queue, pool, dropped,
          removed.map Action.deallocate ++ [Action.fatalError eventType], ?_, hfatal⟩
        simp [Outcome.loop, EventLoop.record]
      | some allocated =>
        simp only []
        cases hpush : pushEvent cfg queue
            { eventType := eventType
              receivedTimeMillis := loop.timeMillis
              eventData := eventData
              freeCallback := freeCallback.map FreeCallback.eventComplete
              isLowPriority := false
              senderInstanceId := cfg.kSystemInstanceId
              targetInstanceId := targetInstanceId
              targetAppGroupMask := targetGroupMask } with
        | none =>
          refine ⟨queue, allocated, dropped,
            removed.map Action.deallocate ++ [Action.fatalError eventType], ?_, hfatal⟩
          simp [Outcome.loop, EventLoop.record]
        | some pushed =>
          refine ⟨pushed, allocated, dropped, removed.map Action.deallocate, ?_, hremoved⟩
          simp [Outcome.loop]
  · rw [if_neg hrunning]
    cases freeCallback with
    | none =>
      refine ⟨loop.mEvents, loop.mEventPool, loop.mNumDroppedLowPriEvents, [], ?_, ?_⟩
      · simp [Outcome.loop]
      · intro action hmem
        exact absurd hmem (List.not_mem_nil _)
    | some address =>
      refine ⟨loop.mEvents, loop.mEventPool, loop.mNumDroppedLowPriEvents,
        [Action.invokeCallback loop.mCurrentApp (FreeCallback.eventComplete address) eventType
          eventData], ?_, ?_⟩
      · simp [Outcome.loop, invokeCallback_eq, FreeCallback.stopsLoop]
      · intro action hmem
        rw [List.mem_singleton] at hmem
        rw [hmem]; rfl

theorem Action.isTeardown_of_isPostCall (action : Action) (hpost : action.isPostCall = true) :
    action.isTeardown = false := by
  cases action <;> first | rfl | simp [Action.isPostCall] at hpost

/-- What `notifyAppStatusChange` can change, with either outcome: the queue, the pool and the
counter of dropped events; and it takes no nanoapp down. -/
theorem notifyAppStatusChange_frame (cfg : Config) (loop : EventLoop) (info : Option Nat)
    (eventType : Nat) (nanoapp : Nanoapp) :
    ∃ (queue : List Event) (pool : MemoryPool) (dropped : Nat) (calls : List Action),
      (notifyAppStatusChange cfg loop info eventType nanoapp).loop =
        { loop with
          mEvents := queue
          mEventPool := pool
          mNumDroppedLowPriEvents := dropped
          trace := loop.trace ++ calls } ∧
      ∀ action ∈ calls, action.isTeardown = false := by
  unfold notifyAppStatusChange
  cases info with
  | none =>
    refine ⟨loop.mEvents, loop.mEventPool, loop.mNumDroppedLowPriEvents, [], ?_, ?_⟩
    · simp [Outcome.loop]
    · intro action hmem
      exact absurd hmem (List.not_mem_nil _)
  | some address =>
    obtain ⟨queue, pool, dropped, calls, hposted, hcalls⟩ :=
      postEventOrDie_frame cfg
        (loop.record
          (Action.writeNanoappInfo address nanoapp.appId nanoapp.appVersion nanoapp.instanceId))
        eventType address (some cfg.freeEventDataCallback) cfg.kBroadcastInstanceId
        cfg.kDefaultTargetGroupMask
    refine ⟨queue, pool, dropped,
      Action.writeNanoappInfo address nanoapp.appId nanoapp.appVersion nanoapp.instanceId
        :: calls, ?_, ?_⟩
    · simp only []
      rw [hposted]
      simp [EventLoop.record]
    · intro action hmem
      rw [List.mem_cons] at hmem
      rcases hmem with hmem | hmem
      · rw [hmem]; rfl
      · exact Action.isTeardown_of_isPostCall action (hcalls action hmem)

/-- A successful `unloadNanoapp`: the nanoapp found by the search is flushed, the queue is
drained and the stop is announced when the nanoapp had started, and the nanoapp is taken
down and erased. -/
theorem unloadNanoapp_done (cfg : Config) (loop unloaded : EventLoop) (platform : Platform)
    (instanceId : Nat) (allowSystemNanoappUnload nanoappStarted : Bool)
    (hdone : unloadNanoapp cfg loop platform instanceId allowSystemNanoappUnload nanoappStarted
      = Outcome.done true unloaded) :
    ∃ (index : Nat) (app : Nanoapp) (middle : List Action),
      findNanoappIndex instanceId loop.mNanoapps = some (index, app) ∧
      unloaded.mNanoapps = loop.mNanoapps.eraseIdx index ∧
      unloaded.mStoppingNanoapp = none ∧
      unloaded.mCurrentApp = none ∧
      unloaded.trace =
        loop.trace ++ [Action.flushNanoappMessages app] ++ middle
          ++ unloadCalls cfg app nanoappStarted ∧
      (∀ action ∈ middle, action.isTeardown = false) ∧
      (nanoappStarted = false → middle = [] ∧ unloaded.mEvents = loop.mEvents
        ∧ unloaded.mEventPool = loop.mEventPool) := by
  simp only [unloadNanoapp_def] at hdone
  cases hfound : findNanoappIndex instanceId loop.mNanoapps with
  | none =>
    rw [hfound] at hdone
    simp at hdone
  | some found =>
    obtain ⟨index, app⟩ := found
    rw [hfound] at hdone
    simp only at hdone
    obtain ⟨hget, _, _⟩ := findNanoappIndex_some instanceId loop.mNanoapps index app hfound
    split at hdone
    · simp at hdone
    · cases nanoappStarted with
      | false =>
        simp only [Bool.false_eq_true, if_false] at hdone
        injection hdone with _ hloop
        rw [unloadNanoappAtIndex_eq cfg _ index false app (by simpa [EventLoop.record] using hget)]
          at hloop
        refine ⟨index, app, [], rfl, ?_, ?_, ?_, ?_, ?_, ?_⟩
        · rw [← hloop]; rfl
        · rw [← hloop]
        · rw [← hloop]
        · rw [← hloop]; simp [EventLoop.record]
        · intro action hmem
          exact absurd hmem (List.not_mem_nil _)
        · intro _
          refine ⟨rfl, ?_, ?_⟩
          · rw [← hloop]; rfl
          · rw [← hloop]; rfl
      | true =>
        simp only [if_true] at hdone
        obtain ⟨queue, pool, dropped, calls, hnotified, hcalls⟩ :=
          notifyAppStatusChange_frame cfg
            (flushInboundEventQueue cfg
              { loop.record (Action.flushNanoappMessages app) with
                mStoppingNanoapp := some app })
            platform.nanoappInfo cfg.kEventNanoappStopped app
        generalize notifyAppStatusChange cfg
            (flushInboundEventQueue cfg
              { loop.record (Action.flushNanoappMessages app) with
                mStoppingNanoapp := some app })
            platform.nanoappInfo cfg.kEventNanoappStopped app = notified at hdone hnotified
        cases notified with
        | fatalError failed => simp at hdone
        | done value ready =>
          simp only [Outcome.loop] at hnotified
          simp only at hdone
          injection hdone with _ hloop
          have hflush := flushInboundEventQueueOn_eq cfg loop.mEvents
            { loop.record (Action.flushNanoappMessages app) with mStoppingNanoapp := some app }
            rfl
          have hready : ready.mNanoapps.get? index = some app := by
            rw [hnotified]
            simp only [flushInboundEventQueue, EventLoop.record]
            simp only [EventLoop.record] at hflush
            rw [hflush]
            exact hget
          rw [unloadNanoappAtIndex_eq cfg ready index true app hready] at hloop
          refine ⟨index, app,
            loop.mEvents.flatMap
                (distributeEventCalls cfg
                  { loop.record (Action.flushNanoappMessages app) with
                    mStoppingNanoapp := some app })
              ++ calls, rfl, ?_, ?_, ?_, ?_, ?_, ?_⟩
          · rw [← hloop, hnotified]
            simp only [flushInboundEventQueue, EventLoop.record]
            simp only [EventLoop.record] at hflush
            rw [hflush]
          · rw [← hloop]
          · rw [← hloop]
          · rw [← hloop, hnotified]
            simp only [flushInboundEventQueue, EventLoop.record]
            simp only [EventLoop.record] at hflush
            rw [hflush]
            simp [EventLoop.record]
          · intro action hmem
            rw [List.mem_append, List.mem_flatMap] at hmem
            rcases hmem with ⟨event, _, hcall⟩ | hmem
            · exact distributeEventCalls_no_teardown cfg _ event action hcall
            · exact hcalls action hmem
          · intro hfalse
            exact absurd hfalse (by simp)

theorem eraseIdx_findNanoappIndex (instanceId : Nat) (apps : List Nanoapp) (index : Nat)
    (app : Nanoapp) (hunique : (apps.map (fun loaded => loaded.instanceId)).Nodup)
    (hfound : findNanoappIndex instanceId apps = some (index, app)) :
    apps.eraseIdx index = apps.filter (fun loaded => loaded.instanceId != instanceId) := by
  induction apps generalizing index with
  | nil => simp [findNanoappIndex] at hfound
  | cons first rest ih =>
    rw [List.map_cons, List.nodup_cons] at hunique
    obtain ⟨hfirst, hrest⟩ := hunique
    unfold findNanoappIndex at hfound
    by_cases hid : instanceId = first.instanceId
    · simp only [hid, beq_self_eq_true, if_true, Option.some.injEq, Prod.mk.injEq] at hfound
      obtain ⟨hindex, _⟩ := hfound
      subst hindex
      have hothers : ∀ loaded ∈ rest, (loaded.instanceId != instanceId) = true := by
        intro loaded hmem
        have hne : loaded.instanceId ≠ first.instanceId := by
          intro heq
          exact hfirst (List.mem_map.mpr ⟨loaded, hmem, heq⟩)
        simp [hid, hne]
      simp only [List.eraseIdx_cons_zero]
      rw [List.filter_cons_of_neg (by simp [hid]), List.filter_eq_self.mpr hothers]
    · have hne : first.instanceId ≠ instanceId := fun h => hid h.symm
      simp only [beq_iff_eq, hid, if_false, Option.map_eq_some', Prod.mk.injEq] at hfound
      obtain ⟨⟨earlier, found⟩, hfoundRest, hindex, happ⟩ := hfound
      simp only at hindex happ
      subst hindex happ
      rw [List.eraseIdx_cons_succ, ih earlier hrest hfoundRest,
        List.filter_cons_of_pos (by simp [hne])]

/-- C16. When `unloadNanoapp` returns true on a registry with unique instance ids, no nanoapp
of the registry has the instance id any more, and the registry is the registry of before
without that nanoapp: every other nanoapp is still loaded, in the same order. -/
theorem unloadNanoapp_removes_only_the_nanoapp (cfg : Config) (loop unloaded : EventLoop)
    (platform : Platform) (instanceId : Nat) (allowSystemNanoappUnload nanoappStarted : Bool)
    (hunique : (loop.mNanoapps.map (fun app => app.instanceId)).Nodup)
    (hdone : unloadNanoapp cfg loop platform instanceId allowSystemNanoappUnload nanoappStarted
      = Outcome.done true unloaded) :
    (∀ app ∈ unloaded.mNanoapps, app.instanceId ≠ instanceId) ∧
      unloaded.mNanoapps
        = loop.mNanoapps.filter (fun app => app.instanceId != instanceId) := by
  obtain ⟨index, app, _, hfound, hregistry, _⟩ :=
    unloadNanoapp_done cfg loop unloaded platform instanceId allowSystemNanoappUnload
      nanoappStarted hdone
  have hfilter := eraseIdx_findNanoappIndex instanceId loop.mNanoapps index app hunique hfound
  rw [hregistry, hfilter]
  refine ⟨?_, rfl⟩
  intro loaded hmem
  have := (List.mem_filter.mp hmem).2
  simpa using this

/-- Witness for C16: the second of three nanoapps is unloaded. -/
theorem unloadNanoapp_removes_only_the_nanoapp_witness :
    (crowdedLoop.mNanoapps.map (fun app => app.instanceId)).Nodup ∧
    unloadNanoapp exampleConfig crowdedLoop examplePlatform 2 false true
      = Outcome.done true
          (unloadNanoapp exampleConfig crowdedLoop examplePlatform 2 false true).loop ∧
    (∀ app ∈ (unloadNanoapp exampleConfig crowdedLoop examplePlatform 2 false true).loop.mNanoapps,
      app.instanceId ≠ 2) ∧
    (unloadNanoapp exampleConfig crowdedLoop examplePlatform 2 false true).loop.mNanoapps
      = crowdedLoop.mNanoapps.filter (fun app => app.instanceId != 2) :=
  ⟨by decide, by decide,
    unloadNanoapp_removes_only_the_nanoapp exampleConfig crowdedLoop
      (unloadNanoapp exampleConfig crowdedLoop examplePlatform 2 false true).loop examplePlatform
      2 false true (by decide) (by decide)⟩

theorem releaseCalls_count_release (enabled : Bool) (domain resource : Resource) (count : Nat)
    (app other : Nanoapp) :
    (releaseCalls enabled domain count app).count (Action.releaseResources resource other)
      = if enabled = true ∧ domain = resource ∧ app = other then 1 else 0 := by
  unfold releaseCalls
  cases enabled with
  | false => simp
  | true =>
    by_cases hsame : domain = resource ∧ app = other
    · obtain ⟨hdomain, happ⟩ := hsame
      subst hdomain happ
      by_cases hcount : count > 0 <;> simp [hcount, List.count_cons]
    · have hne : (Action.releaseResources domain app == Action.releaseResources resource other)
          = false := by
        rw [beq_eq_false_iff_ne]
        intro heq
        injection heq with hdomain happ
        exact hsame ⟨hdomain, happ⟩
      by_cases hcount : count > 0 <;> simp [hcount, List.count_cons, hne, hsame]

theorem releaseCalls_count_end (enabled : Bool) (domain : Resource) (count : Nat)
    (app other : Nanoapp) :
    (releaseCalls enabled domain count app).count (Action.nanoappEnd other) = 0 := by
  unfold releaseCalls
  cases enabled with
  | false => simp
  | true => by_cases hcount : count > 0 <;> simp [hcount, List.count_cons]

/-- The release operations among the calls of `unloadNanoappAtIndex`: one for each domain that
is compiled in, for the nanoapp that is unloaded, whatever the counts they return. -/
theorem unloadCalls_count_release (cfg : Config) (app other : Nanoapp) (nanoappStarted : Bool)
    (resource : Resource) :
    (unloadCalls cfg app nanoappStarted).count (Action.releaseResources resource other)
      = if other = app ∧ resource.isEnabled cfg = true then 1 else 0 := by
  unfold unloadCalls
  simp only [List.count_append, releaseCalls_count_release]
  have hstart : (if nanoappStarted = true then [Action.nanoappEnd app] else []).count
      (Action.releaseResources resource other) = 0 := by
    cases nanoappStarted <;> simp [List.count_cons]
  rw [hstart]
  by_cases happ : app = other
  · subst happ
    cases resource <;> simp [Resource.isEnabled, List.count_cons]
  · have hother : ¬ other = app := fun h => happ h.symm
    simp [happ, hother, List.count_cons]

/-- The end hook among the calls of `unloadNanoappAtIndex`. -/
theorem unloadCalls_count_end (cfg : Config) (app other : Nanoapp) (nanoappStarted : Bool) :
    (unloadCalls cfg app nanoappStarted).count (Action.nanoappEnd other)
      = if other = app ∧ nanoappStarted = true then 1 else 0 := by
  unfold unloadCalls
  simp only [List.count_append, releaseCalls_count_end]
  by_cases happ : app = other
  · subst happ
    cases nanoappStarted <;> simp [List.count_cons]
  · have hother : ¬ other = app := fun h => happ h.symm
    have hne : (Action.nanoappEnd app == Action.nanoappEnd other) = false := by
      rw [beq_eq_false_iff_ne]
      intro heq
      injection heq with heq
      exact happ heq
    cases nanoappStarted <;> simp [List.count_cons, hother, hne]

/-- Every call of `unloadNanoappAtIndex` on a loaded nanoapp, as `run` makes them at shutdown,
calls the release operation of each domain that is compiled in once, calls the end hook
once when `nanoappStarted` is true and not otherwise, and erases the nanoapp. -/
theorem unloadNanoappAtIndex_teardown (cfg : Config) (loop : EventLoop) (index : Nat)
    (nanoappStarted : Bool) (app : Nanoapp) (happ : loop.mNanoapps.get? index = some app) :
    (unloadNanoappAtIndex cfg loop index nanoappStarted).mNanoapps
        = loop.mNanoapps.eraseIdx index ∧
      (∀ (resource : Resource) (other : Nanoapp),
        ((unloadNanoappAtIndex cfg loop index nanoappStarted).trace.drop loop.trace.length).count
            (Action.releaseResources resource other)
          = if other = app ∧ resource.isEnabled cfg = true then 1 else 0) ∧
      (∀ other : Nanoapp,
        ((unloadNanoappAtIndex cfg loop index nanoappStarted).trace.drop loop.trace.length).count
            (Action.nanoappEnd other)
          = if other = app ∧ nanoappStarted = true then 1 else 0) := by
  rw [unloadNanoappAtIndex_eq cfg loop index nanoappStarted app happ]
  refine ⟨rfl, ?_, ?_⟩
  · intro resource other
    simp only [List.drop_left]
    exact unloadCalls_count_release cfg app other nanoappStarted resource
  · intro other
    simp only [List.drop_left]
    exact unloadCalls_count_end cfg app other nanoappStarted

theorem findNanoappIndex_append_new (apps : List Nanoapp) (app : Nanoapp)
    (hid : ∀ loaded ∈ apps, loaded.instanceId ≠ app.instanceId) :
    findNanoappIndex app.instanceId (apps ++ [app]) = some (apps.length, app) := by
  induction apps with
  | nil => simp [findNanoappIndex]
  | cons first rest ih =>
    have hfirst : ¬ app.instanceId = first.instanceId :=
      fun h => hid first (List.mem_cons_self _ _) h.symm
    have hrest := ih (fun loaded hmem => hid loaded (List.mem_cons_of_mem _ hmem))
    simp [findNanoappIndex, hfirst, hrest]

/-- The unload of a nanoapp that had not started, with the permission to unload system
nanoapps. -/
theorem unloadNanoapp_not_started (cfg : Config) (loop : EventLoop) (platform : Platform)
    (instanceId index : Nat) (app : Nanoapp)
    (hfound : findNanoappIndex instanceId loop.mNanoapps = some (index, app)) :
    unloadNanoapp cfg loop platform instanceId true false =
      Outcome.done true
        { loop with
          mNanoapps := loop.mNanoapps.eraseIdx index
          mCurrentApp := none
          mStoppingNanoapp := none
          trace := loop.trace ++ ([Action.flushNanoappMessages app] ++ unloadCalls cfg app false) } := by
  obtain ⟨hget, _, _⟩ := findNanoappIndex_some instanceId loop.mNanoapps index app hfound
  simp only [unloadNanoapp_def]
  rw [hfound]
  simp only [Bool.not_true, Bool.false_and, Bool.false_eq_true, if_false]
  rw [unloadNanoappAtIndex_eq cfg _ index false app (by simpa [EventLoop.record] using hget)]
  simp [EventLoop.record]

/-- C13 as stated fails when the instance id of the new nanoapp is that of a loaded nanoapp.
`failingReusedIdApp` passes the load checks of `idleLoop` and its start hook returns false;
`unloadNanoapp`, which searches the registry by instance id, then unloads `exampleApp`, the
older nanoapp with that instance id: its host messages are flushed and its resources are
released, and the registry is left with the nanoapp that did not start in place of the one
that was loaded. -/
theorem failed_start_unloads_the_older_nanoapp :
    ¬ failingReusedIdApp.targetApiVersion < exampleConfig.firstSupportedApiVersion ∧
    (∀ loaded ∈ idleLoop.mNanoapps, loaded.appId ≠ failingReusedIdApp.appId) ∧
    failingReusedIdApp.startResult = false ∧
    idleLoop.mNanoapps = [exampleApp] ∧
    startNanoapp exampleConfig idleLoop examplePlatform (some failingReusedIdApp) =
      Outcome.done false
        { idleLoop with
          mNanoapps := [failingReusedIdApp]
          trace :=
            [Action.lockNanoapps, Action.unlockNanoapps, Action.nanoappStart failingReusedIdApp,
              Action.flushNanoappMessages exampleApp]
            ++ unloadCalls exampleConfig exampleApp false } := by
  decide

/-- C13, amended. When a nanoapp passes the load checks (version supported, app id not
loaded, room in the registry), no loaded nanoapp has its instance id, and its start hook
returns false, `startNanoapp` returns false and the
loop is as before but for the calls made: the registry, the queue and the pool are
unchanged, so the nanoapp is not loaded and no status-change event is posted. The calls
are the lock guards, the start hook, the flush of the host messages of the nanoapp and
the calls of `unloadNanoappAtIndex` with `nanoappStarted` false: each release operation
that is compiled in once, and no end hook. -/
theorem startNanoapp_unloads_after_failed_start (cfg : Config) (loop : EventLoop)
    (platform : Platform) (app : Nanoapp)
    (hversion : ¬ app.targetApiVersion < cfg.firstSupportedApiVersion)
    (hnew : ∀ loaded ∈ loop.mNanoapps, loaded.appId ≠ app.appId)
    (hpush : platform.pushBackSucceeds = true)
    (hstart : app.startResult = false)
    (hid : ∀ loaded ∈ loop.mNanoapps, loaded.instanceId ≠ app.instanceId) :
    startNanoapp cfg loop platform (some app) =
        Outcome.done false
          { loop with
            mCurrentApp := none
            mStoppingNanoapp := none
            trace := loop.trace
              ++ ((if platform.inEventLoopThread then []
                    else [Action.lockNanoapps, Action.unlockNanoapps])
                ++ [Action.lockNanoapps, Action.unlockNanoapps, Action.nanoappStart app,
                    Action.flushNanoappMessages app]
                ++ unloadCalls cfg app false) } ∧
      (∀ other : Nanoapp, (unloadCalls cfg app false).count (Action.nanoappEnd other) = 0) ∧
      (∀ resource : Resource,
        (unloadCalls cfg app false).count (Action.releaseResources resource app)
          = if resource.isEnabled cfg = true then 1 else 0) := by
  refine ⟨?_, ?_, ?_⟩
  · have hfind : loop.mNanoapps.find? (fun other => other.appId == app.appId) = none := by
      rw [List.find?_eq_none]
      intro loaded hmem
      simp [hnew loaded hmem]
    have hindex := findNanoappIndex_append_new loop.mNanoapps app hid
    have herase : (loop.mNanoapps ++ [app]).eraseIdx loop.mNanoapps.length = loop.mNanoapps := by
      rw [List.eraseIdx_append_of_length_le (Nat.le_refl _)]
      simp
    simp only [startNanoapp_def]
    simp only [hversion, if_false, findNanoappInstanceIdByAppId, conditionalLock,
      conditionalUnlock]
    cases hthread : platform.inEventLoopThread with
    | true =>
      simp only [Bool.not_true, Bool.false_eq_true, if_false, hfind, Option.map_none',
        Option.isSome_none, hpush, hstart, EventLoop.record, if_true]
      rw [unloadNanoapp_not_started cfg _ platform app.instanceId loop.mNanoapps.length app
        hindex]
      simp [herase]
    | false =>
      simp only [Bool.not_false, if_true, EventLoop.record, hfind, Option.map_none',
        Option.isSome_none, Bool.false_eq_true, if_false, hpush, hstart, Bool.not_true]
      rw [unloadNanoapp_not_started cfg _ platform app.instanceId loop.mNanoapps.length app
        hindex]
      simp [herase]
  · intro other
    rw [unloadCalls_count_end]
    simp
  · intro resource
    rw [unloadCalls_count_release]
    simp

/-- Witness for C13: a second nanoapp whose start hook returns false. -/
theorem startNanoapp_unloads_after_failed_start_witness :
    ¬ failingApp.targetApiVersion < exampleConfig.firstSupportedApiVersion ∧
    (∀ loaded ∈ busyLoop.mNanoapps, loaded.appId ≠ failingApp.appId) ∧
    failingApp.startResult = false ∧
    (∀ loaded ∈ busyLoop.mNanoapps, loaded.instanceId ≠ failingApp.instanceId) ∧
    startNanoapp exampleConfig busyLoop examplePlatform (some failingApp) =
        Outcome.done false
          { busyLoop with
            mCurrentApp := none
            mStoppingNanoapp := none
            trace := busyLoop.trace
              ++ ((if examplePlatform.inEventLoopThread then []
                    else [Action.lockNanoapps, Action.unlockNanoapps])
                ++ [Action.lockNanoapps, Action.unlockNanoapps, Action.nanoappStart failingApp,
                    Action.flushNanoappMessages failingApp]
                ++ unloadCalls exampleConfig failingApp false) } ∧
      (∀ other : Nanoapp,
        (unloadCalls exampleConfig failingApp false).count (Action.nanoappEnd other) = 0) ∧
      (∀ resource : Resource,
        (unloadCalls exampleConfig failingApp false).count
            (Action.releaseResources resource failingApp)
          = if resource.isEnabled exampleConfig = true then 1 else 0) :=
  ⟨by decide, by decide, by decide, by decide,
    startNanoapp_unloads_after_failed_start exampleConfig busyLoop examplePlatform failingApp
      (by decide) (by decide) (by decide) (by decide) (by decide)⟩

/-! ### A start hook that succeeds -/

/-- A successful `postEventOrDie` on a running loop appends the event behind the queue that
the admission leaves; the only calls are the returns of the evicted events to the pool. -/
theorem postEventOrDie_done (cfg : Config) (loop posted : EventLoop) (eventType eventData : Nat)
    (freeCallback : Option Nat) (targetInstanceId targetGroupMask : Nat)
    (hrunning : loop.mRunning = true)
    (hdone : postEventOrDie cfg loop eventType eventData freeCallback targetInstanceId
      targetGroupMask = Outcome.done () posted) :
    posted.mEvents = queueAfterEviction cfg loop
        ++ [{ eventType := eventType
              receivedTimeMillis := loop.timeMillis
              eventData := eventData
              freeCallback := freeCallback.map FreeCallback.eventComplete
              isLowPriority := false
              senderInstanceId := cfg.kSystemInstanceId
              targetInstanceId := targetInstanceId
              targetAppGroupMask := targetGroupMask }] ∧
      posted.trace = loop.trace ++ (evictedEvents cfg loop).map Action.deallocate ∧
      posted.mNanoapps = loop.mNanoapps := by
  unfold postEventOrDie at hdone
  rw [if_pos hrunning] at hdone
  have hadmit : (hasNoSpaceForHighPriorityEvent cfg loop).2.mEvents = queueAfterEviction cfg loop
      ∧ (hasNoSpaceForHighPriorityEvent cfg loop).2.trace
          = loop.trace ++ (evictedEvents cfg loop).map Action.deallocate
      ∧ (hasNoSpaceForHighPriorityEvent cfg loop).2.mNanoapps = loop.mNanoapps
      ∧ (hasNoSpaceForHighPriorityEvent cfg loop).2.timeMillis = loop.timeMillis
      ∨ (hasNoSpaceForHighPriorityEvent cfg loop).1 = true := by
    unfold hasNoSpaceForHighPriorityEvent queueAfterEviction evictedEvents
    by_cases hfull : loop.mEventPool.full cfg = true
    · by_cases hstatic : cfg.staticEventLoop = true
      · right
        simp [hfull, removeNonNanoappLowPriorityEventsFromBack, hstatic]
      · left
        simp only [Bool.not_eq_true] at hstatic
        simp only [hfull, if_true]
        rw [removeNonNanoappLowPriorityEventsFromBack_eq cfg loop _ hstatic
          (by simp [targetLowPriorityEventRemove])]
        exact ⟨rfl, rfl, rfl, rfl⟩
    · left
      simp only [Bool.not_eq_true] at hfull
      rw [hfull]
      simp
  generalize hasNoSpaceForHighPriorityEvent cfg loop = noSpace at hdone hadmit
  obtain ⟨full, admitted⟩ := noSpace
  simp only [] at hdone hadmit
  rcases hadmit with ⟨hevents, htrace, happs, htime⟩ | hfatal
  · cases full with
    | true => simp at hdone
    | false =>
      simp only [Bool.false_eq_true, if_false, allocateAndPostEvent] at hdone
      cases hallocate : MemoryPool.allocate cfg admitted.mEventPool with
      | none =>
        rw [hallocate] at hdone
        simp at hdone
      | some pool =>
        rw [hallocate] at hdone
        simp only [pushEvent] at hdone
        by_cases hroom : admitted.mEvents.length < cfg.kMaxQueueSize
        · simp only [hroom, if_true, Bool.not_true, Bool.false_eq_true, if_false] at hdone
          injection hdone with _ hposted
          rw [← hposted]
          exact ⟨by simp only [hevents, htime], htrace, happs⟩
        · simp [hroom] at hdone
  · rw [hfatal] at hdone
    simp at hdone

/-- What `notifyAppStatusChange` does when it returns. -/
theorem notifyAppStatusChange_done (cfg : Config) (loop notified : EventLoop)
    (info : Option Nat) (eventType : Nat) (nanoapp : Nanoapp)
    (hcurrent : loop.mCurrentApp = none)
    (hdone : notifyAppStatusChange cfg loop info eventType nanoapp = Outcome.done () notified) :
    notified.mNanoapps = loop.mNanoapps ∧
      notified.mEvents = statusChangeQueue cfg loop info eventType ∧
      notified.trace = loop.trace ++ statusChangeCalls cfg loop info eventType nanoapp := by
  unfold notifyAppStatusChange at hdone
  unfold statusChangeQueue statusChangeCalls
  cases info with
  | none =>
    simp only at hdone
    injection hdone with _ hloop
    rw [← hloop]
    simp
  | some address =>
    simp only at hdone
    by_cases hrunning : loop.mRunning = true
    · obtain ⟨hevents, htrace, happs⟩ :=
        postEventOrDie_done cfg _ notified eventType address (some cfg.freeEventDataCallback)
          cfg.kBroadcastInstanceId cfg.kDefaultTargetGroupMask (by exact hrunning) hdone
      refine ⟨happs, ?_, ?_⟩
      · simp only [hrunning, if_true]
        rw [hevents]
        rfl
      · simp only [hrunning, if_true]
        rw [htrace]
        simp [EventLoop.record, evictedEvents]
    · unfold postEventOrDie at hdone
      simp only [EventLoop.record, hrunning, Bool.false_eq_true, if_false] at hdone
      injection hdone with _ hloop
      rw [← hloop, invokeCallback_eq]
      simp [hrunning, hcurrent]

/-- C14 as stated fails: `startNanoapp` returns true with the nanoapp loaded and yet no
started event in the queue, when the loop is not running (the payload goes to the free
callback instead), and when `memoryAlloc` has no memory for the payload. -/
theorem started_event_is_not_always_posted :
    startNanoapp exampleConfig stoppedLoop examplePlatform (some secondApp)
      = Outcome.done true
          (startNanoapp exampleConfig stoppedLoop examplePlatform (some secondApp)).loop ∧
    (startNanoapp exampleConfig stoppedLoop examplePlatform (some secondApp)).loop.mNanoapps
      = [exampleApp, secondApp] ∧
    (startNanoapp exampleConfig stoppedLoop examplePlatform (some secondApp)).loop.mEvents
      = stoppedLoop.mEvents ∧
    startNanoapp exampleConfig busyLoop exhaustedPlatform (some secondApp)
      = Outcome.done true
          (startNanoapp exampleConfig busyLoop exhaustedPlatform (some secondApp)).loop ∧
    (startNanoapp exampleConfig busyLoop exhaustedPlatform (some secondApp)).loop.mNanoapps
      = [exampleApp, secondApp] ∧
    (startNanoapp exampleConfig busyLoop exhaustedPlatform (some secondApp)).loop.mEvents
      = busyLoop.mEvents := by
  decide

/-- C14, amended. When `startNanoapp` returns true, the nanoapp is the last entry of the
registry. The queue and the calls are those of one `notifyAppStatusChange` for
`CHRE_EVENT_NANOAPP_STARTED`, after the lock guards and the start hook: when there is
memory for the payload and the loop is running, exactly one event is appended to the
queue, of type `CHRE_EVENT_NANOAPP_STARTED`, high priority, sent by the system instance
to the broadcast target, with the payload that was filled with the app id, the version
and the instance id of the nanoapp; otherwise no event is posted. -/
theorem startNanoapp_loads_and_announces (cfg : Config) (loop started : EventLoop)
    (platform : Platform) (app : Nanoapp)
    (hstart : startNanoapp cfg loop platform (some app) = Outcome.done true started) :
    started.mNanoapps = loop.mNanoapps ++ [app] ∧
      started.mEvents
        = statusChangeQueue cfg loop platform.nanoappInfo cfg.kEventNanoappStarted ∧
      started.trace =
        loop.trace
          ++ ((if platform.inEventLoopThread then []
                else [Action.lockNanoapps, Action.unlockNanoapps])
            ++ [Action.lockNanoapps, Action.unlockNanoapps, Action.nanoappStart app]
            ++ statusChangeCalls cfg loop platform.nanoappInfo cfg.kEventNanoappStarted app) ∧
      (∀ address : Nat, platform.nanoappInfo = some address → loop.mRunning = true →
        started.mEvents =
          queueAfterEviction cfg loop
            ++ [{ eventType := cfg.kEventNanoappStarted
                  receivedTimeMillis := loop.timeMillis
                  eventData := address
                  freeCallback := some (FreeCallback.eventComplete cfg.freeEventDataCallback)
                  isLowPriority := false
                  senderInstanceId := cfg.kSystemInstanceId
                  targetInstanceId := cfg.kBroadcastInstanceId
                  targetAppGroupMask := cfg.kDefaultTargetGroupMask }] ∧
        Action.writeNanoappInfo address app.appId app.appVersion app.instanceId
          ∈ started.trace.drop loop.trace.length) := by
  have hmain : started.mNanoapps = loop.mNanoapps ++ [app] ∧
      started.mEvents
        = statusChangeQueue cfg loop platform.nanoappInfo cfg.kEventNanoappStarted ∧
      started.trace =
        loop.trace
          ++ ((if platform.inEventLoopThread then []
                else [Action.lockNanoapps, Action.unlockNanoapps])
            ++ [Action.lockNanoapps, Action.unlockNanoapps, Action.nanoappStart app]
            ++ statusChangeCalls cfg loop platform.nanoappInfo cfg.kEventNanoappStarted app) := by
    simp only [startNanoapp_def] at hstart
    by_cases hversion : app.targetApiVersion < cfg.firstSupportedApiVersion
    · simp [hversion] at hstart
    · rw [if_neg hversion] at hstart
      by_cases hfound : (findNanoappInstanceIdByAppId loop platform.inEventLoopThread
          app.appId).1.isSome = true
      · simp [hfound] at hstart
      · rw [if_neg hfound] at hstart
        by_cases hpush : platform.pushBackSucceeds = true
        · simp only [hpush, Bool.not_true, Bool.false_eq_true, if_false] at hstart
          by_cases hresult : app.startResult = true
          · simp only [hresult, Bool.not_true, Bool.false_eq_true, if_false] at hstart
            split at hstart
            · rename_i value notified hnotified
              injection hstart with _ hloop
              obtain ⟨happs, hevents, htrace⟩ :=
                notifyAppStatusChange_done cfg _ notified platform.nanoappInfo
                  cfg.kEventNanoappStarted app rfl hnotified
              rw [← hloop]
              refine ⟨?_, ?_, ?_⟩
              · rw [happs]
                simp [EventLoop.record, findNanoappInstanceIdByAppId, conditionalLock,
                  conditionalUnlock]
                cases platform.inEventLoopThread <;> simp [EventLoop.record]
              · rw [hevents]
                simp only [statusChangeQueue, queueAfterEviction, statusChangeEvent,
                  EventLoop.record, findNanoappInstanceIdByAppId, conditionalLock,
                  conditionalUnlock]
                cases platform.inEventLoopThread <;> simp [EventLoop.record]
              · rw [htrace]
                simp only [statusChangeCalls, evictedEvents, EventLoop.record,
                  findNanoappInstanceIdByAppId, conditionalLock, conditionalUnlock]
                cases platform.inEventLoopThread <;> simp [EventLoop.record]
            · simp at hstart
          · simp only [Bool.not_eq_true] at hresult
            simp only [hresult, Bool.not_false, if_true] at hstart
            split at hstart <;> simp at hstart
        · simp [hpush] at hstart
  obtain ⟨happs, hevents, htrace⟩ := hmain
  refine ⟨happs, hevents, htrace, ?_⟩
  intro address hinfo hrunning
  constructor
  · rw [hevents, hinfo]
    simp [statusChangeQueue, hrunning, statusChangeEvent]
  · rw [htrace, hinfo, List.drop_left]
    simp [statusChangeCalls]

/-- Witness for C14, amended: a second nanoapp is started on a running loop. -/
theorem startNanoapp_loads_and_announces_witness :
    startNanoapp exampleConfig busyLoop examplePlatform (some secondApp)
      = Outcome.done true
          (startNanoapp exampleConfig busyLoop examplePlatform (some secondApp)).loop ∧
    (startNanoapp exampleConfig busyLoop examplePlatform (some secondApp)).loop.mNanoapps
      = busyLoop.mNanoapps ++ [secondApp] ∧
    (startNanoapp exampleConfig busyLoop examplePlatform (some secondApp)).loop.mEvents
      = statusChangeQueue exampleConfig busyLoop examplePlatform.nanoappInfo
          exampleConfig.kEventNanoappStarted ∧
    (startNanoapp exampleConfig busyLoop examplePlatform (some secondApp)).loop.trace =
      busyLoop.trace
        ++ ((if examplePlatform.inEventLoopThread then []
              else [Action.lockNanoapps, Action.unlockNanoapps])
          ++ [Action.lockNanoapps, Action.unlockNanoapps, Action.nanoappStart secondApp]
          ++ statusChangeCalls exampleConfig busyLoop examplePlatform.nanoappInfo
              exampleConfig.kEventNanoappStarted secondApp) ∧
    (∀ address : Nat, examplePlatform.nanoappInfo = some address → busyLoop.mRunning = true →
      (startNanoapp exampleConfig busyLoop examplePlatform (some secondApp)).loop.mEvents =
        queueAfterEviction exampleConfig busyLoop
          ++ [{ eventType := exampleConfig.kEventNanoappStarted
                receivedTimeMillis := busyLoop.timeMillis
                eventData := address
                freeCallback :=
                  some (FreeCallback.eventComplete exampleConfig.freeEventDataCallback)
                isLowPriority := false
                senderInstanceId := exampleConfig.kSystemInstanceId
                targetInstanceId := exampleConfig.kBroadcastInstanceId
                targetAppGroupMask := exampleConfig.kDefaultTargetGroupMask }] ∧
      Action.writeNanoappInfo address secondApp.appId secondApp.appVersion secondApp.instanceId
        ∈ (startNanoapp exampleConfig busyLoop examplePlatform (some secondApp)).loop.trace.drop
            busyLoop.trace.length) :=
  ⟨by decide,
    startNanoapp_loads_and_announces exampleConfig busyLoop
      (startNanoapp exampleConfig busyLoop examplePlatform (some secondApp)).loop examplePlatform
      secondApp (by decide)⟩

/-! ### The targets of an event -/

theorem filter_instanceId_eq_find (apps : List Nanoapp) (instanceId : Nat)
    (hunique : (apps.map (fun app => app.instanceId)).Nodup) :
    apps.filter (fun app => instanceId == app.instanceId)
      = (apps.find? (fun app => app.instanceId == instanceId)).toList := by
  induction apps with
  | nil => rfl
  | cons first rest ih =>
    rw [List.map_cons, List.nodup_cons] at hunique
    obtain ⟨hfirst, hrest⟩ := hunique
    by_cases hid : instanceId = first.instanceId
    · have hothers : ∀ app ∈ rest, ¬ ((instanceId == app.instanceId) = true) := by
        intro app hmem heq
        rw [beq_iff_eq] at heq
        exact hfirst (List.mem_map.mpr ⟨app, hmem, by rw [← heq, hid]⟩)
      simp only [hid, beq_self_eq_true, List.filter_cons_of_pos, List.find?_cons_of_pos,
        Option.toList_some]
      rw [← hid, List.filter_eq_nil_iff.mpr hothers]
    · have hne : ¬ first.instanceId = instanceId := fun h => hid h.symm
      rw [List.filter_cons_of_neg (by simpa using hid),
        List.find?_cons_of_neg _ (by simpa using hne)]
      exact ih hrest

/-- C19 as stated fails when a loaded nanoapp has the broadcast id as its instance id:
`broadcastIdApp` registered for no event, its `isRegisteredForBroadcastEvent` rejects the
broadcast event, and `distributeEvent` calls its event handler all the same, through the
comparison of the target with the instance id. -/
theorem broadcast_reaches_nanoapp_with_broadcast_id :
    broadcastEvent.targetInstanceId = exampleConfig.kBroadcastInstanceId ∧
    broadcastIdApp.isRegisteredForBroadcastEvent broadcastEvent = false ∧
    (distributeEvent exampleConfig { idleLoop with mNanoapps := [exampleApp, broadcastIdApp] }
        broadcastEvent).trace =
      [Action.processEvent exampleApp broadcastEvent,
        Action.processEvent broadcastIdApp broadcastEvent,
        Action.invokeCallback none (FreeCallback.eventComplete 500) 7 40,
        Action.deallocate broadcastEvent] := by
  decide

/-- C19, amended. In a registry where no nanoapp has the reserved broadcast id as its
instance id, an event for the broadcast target is handed by `distributeEvent` to the loaded
nanoapps whose `isRegisteredForBroadcastEvent` accepts it, once for each entry of the
registry that accepts it and in registry order, and to no other nanoapp: these
`processEvent` calls are followed by the calls of `freeEvent` only, none of which is a
delivery. -/
theorem distributeEvent_broadcast (cfg : Config) (loop : EventLoop) (event : Event)
    (htarget : event.targetInstanceId = cfg.kBroadcastInstanceId)
    (hids : ∀ app ∈ loop.mNanoapps, app.instanceId ≠ cfg.kBroadcastInstanceId) :
    (distributeEvent cfg loop event).trace =
        loop.trace
          ++ (loop.mNanoapps.filter (fun app => app.isRegisteredForBroadcastEvent event)).map
              (fun app => Action.processEvent app event)
          ++ freeEventCalls cfg loop event ∧
      ∀ action ∈ freeEventCalls cfg loop event, action.isProcessEvent = false := by
  refine ⟨?_, freeEventCalls_no_delivery cfg loop event⟩
  have htargets : eventTargets cfg loop event
      = loop.mNanoapps.filter (fun app => app.isRegisteredForBroadcastEvent event) := by
    unfold eventTargets
    apply List.filter_congr
    intro app hmem
    have hne : ¬ cfg.kBroadcastInstanceId = app.instanceId := fun h => hids app hmem h.symm
    simp [isEventTarget, htarget, hne]
  rw [distributeEvent_eq]
  simp only [distributeEventCalls, deliveryCalls, htargets, htarget]
  simp

/-- Witness for C19: a broadcast event of type 7 in a loop where one nanoapp registered for
that type. -/
theorem distributeEvent_broadcast_witness :
    broadcastEvent.targetInstanceId = exampleConfig.kBroadcastInstanceId ∧
    (∀ app ∈ crowdedLoop.mNanoapps, app.instanceId ≠ exampleConfig.kBroadcastInstanceId) ∧
    (distributeEvent exampleConfig crowdedLoop broadcastEvent).trace =
        crowdedLoop.trace
          ++ (crowdedLoop.mNanoapps.filter
                (fun app => app.isRegisteredForBroadcastEvent broadcastEvent)).map
              (fun app => Action.processEvent app broadcastEvent)
          ++ freeEventCalls exampleConfig crowdedLoop broadcastEvent ∧
      ∀ action ∈ freeEventCalls exampleConfig crowdedLoop broadcastEvent,
        action.isProcessEvent = false :=
  ⟨by decide, by decide,
    distributeEvent_broadcast exampleConfig crowdedLoop broadcastEvent (by decide) (by decide)⟩

/-- C20 as stated fails when two loaded nanoapps have the target instance id:
`distributeEvent` calls the event handler of both, in registry order. -/
theorem unicast_reaches_every_nanoapp_with_the_id :
    unicastEvent.targetInstanceId = 2 ∧ secondApp.instanceId = 2 ∧
    secondIdApp.instanceId = 2 ∧ secondApp ≠ secondIdApp ∧
    (distributeEvent exampleConfig
        { idleLoop with mNanoapps := [exampleApp, secondApp, secondIdApp] }
        unicastEvent).trace =
      [Action.processEvent secondApp unicastEvent,
        Action.processEvent secondIdApp unicastEvent,
        Action.invokeCallback none (FreeCallback.eventComplete 500) 9 40,
        Action.deallocate unicastEvent] := by
  decide

/-- C20, amended. In a registry whose instance ids are unique, an event for an instance id
other than the broadcast id is handed by
`distributeEvent` to the loaded nanoapp with that instance id, once, and to no other
nanoapp; when no loaded nanoapp has the id, no `processEvent` call is made. The
deliveries are followed by the dropped-event warning, if any, and by the calls of
`freeEvent`, none of which is a delivery. -/
theorem distributeEvent_unicast (cfg : Config) (loop : EventLoop) (event : Event)
    (htarget : event.targetInstanceId ≠ cfg.kBroadcastInstanceId)
    (hunique : (loop.mNanoapps.map (fun app => app.instanceId)).Nodup) :
    (distributeEvent cfg loop event).trace =
        loop.trace
          ++ ((loop.mNanoapps.find?
                (fun app => app.instanceId == event.targetInstanceId)).toList.map
              (fun app => Action.processEvent app event)
            ++ (if (loop.mNanoapps.find?
                      (fun app => app.instanceId == event.targetInstanceId)).isNone
                    && event.targetInstanceId != cfg.kSystemInstanceId then
                  [Action.logDroppedEvent event]
                else [])
            ++ freeEventCalls cfg loop event) ∧
      ∀ action ∈ freeEventCalls cfg loop event, action.isProcessEvent = false := by
  refine ⟨?_, freeEventCalls_no_delivery cfg loop event⟩
  have htargets : eventTargets cfg loop event
      = (loop.mNanoapps.find? (fun app => app.instanceId == event.targetInstanceId)).toList := by
    rw [← filter_instanceId_eq_find loop.mNanoapps event.targetInstanceId hunique]
    unfold eventTargets
    apply List.filter_congr
    intro app _
    simp [isEventTarget, htarget]
  rw [distributeEvent_eq]
  simp only [distributeEventCalls, deliveryCalls, htargets]
  cases loop.mNanoapps.find? (fun app => app.instanceId == event.targetInstanceId) <;>
    simp [htarget]

/-- Witness for C20: an event for the nanoapp with instance id 2. -/
theorem distributeEvent_unicast_witness :
    unicastEvent.targetInstanceId ≠ exampleConfig.kBroadcastInstanceId ∧
    (crowdedLoop.mNanoapps.map (fun app => app.instanceId)).Nodup ∧
    crowdedLoop.mNanoapps.find? (fun app => app.instanceId == unicastEvent.targetInstanceId)
      = some secondApp ∧
    (distributeEvent exampleConfig crowdedLoop unicastEvent).trace =
        crowdedLoop.trace
          ++ ((crowdedLoop.mNanoapps.find?
                (fun app => app.instanceId == unicastEvent.targetInstanceId)).toList.map
              (fun app => Action.processEvent app unicastEvent)
            ++ (if (crowdedLoop.mNanoapps.find?
                      (fun app => app.instanceId == unicastEvent.targetInstanceId)).isNone
                    && unicastEvent.targetInstanceId != exampleConfig.kSystemInstanceId then
                  [Action.logDroppedEvent unicastEvent]
                else [])
            ++ freeEventCalls exampleConfig crowdedLoop unicastEvent) ∧
      ∀ action ∈ freeEventCalls exampleConfig crowdedLoop unicastEvent,
        action.isProcessEvent = false :=
  ⟨by decide, by decide, by decide,
    distributeEvent_unicast exampleConfig crowdedLoop unicastEvent (by decide) (by decide)⟩

/-! ### The context of a free callback -/

/-- C21. When `freeEvent` frees an event that has a free callback, the callback is called
once, with `mCurrentApp` set to what `lookupAppByInstanceId` finds for the sender of the event,
and the event is then returned to the pool. That context is null when the sender is the
system instance and when no loaded nanoapp has the instance id of the sender; otherwise it
is a loaded nanoapp whose instance id is the sender of the event (the first one of the
registry).
`freeEvent` leaves `mCurrentApp` null. -/
theorem freeEvent_runs_callback_as_sender (cfg : Config) (loop : EventLoop) (event : Event)
    (callback : FreeCallback) (hcallback : event.freeCallback = some callback) :
    (freeEvent cfg loop event).trace =
        loop.trace
          ++ [Action.invokeCallback (lookupAppByInstanceId cfg loop event.senderInstanceId)
                callback event.eventType event.eventData,
              Action.deallocate event] ∧
      (event.senderInstanceId = cfg.kSystemInstanceId →
        lookupAppByInstanceId cfg loop event.senderInstanceId = none) ∧
      ((∀ app ∈ loop.mNanoapps, app.instanceId ≠ event.senderInstanceId) →
        lookupAppByInstanceId cfg loop event.senderInstanceId = none) ∧
      (event.senderInstanceId ≠ cfg.kSystemInstanceId →
        (∃ app ∈ loop.mNanoapps, app.instanceId = event.senderInstanceId) →
        ∃ sender ∈ loop.mNanoapps, sender.instanceId = event.senderInstanceId ∧
          lookupAppByInstanceId cfg loop event.senderInstanceId = some sender) ∧
      (∀ sender, lookupAppByInstanceId cfg loop event.senderInstanceId = some sender →
        sender ∈ loop.mNanoapps ∧ sender.instanceId = event.senderInstanceId ∧
          event.senderInstanceId ≠ cfg.kSystemInstanceId) ∧
      (freeEvent cfg loop event).mCurrentApp = none := by
  refine ⟨?_, ?_, ?_, ?_, ?_, ?_⟩
  · rw [freeEvent_eq]
    simp [freeEventCalls, hcallback]
  · intro hsystem
    simp [lookupAppByInstanceId, hsystem]
  · intro hnone
    unfold lookupAppByInstanceId
    split
    · rw [List.find?_eq_none]
      intro app hmem
      simpa using hnone app hmem
    · rfl
  · rintro hsender ⟨app, hmem, hid⟩
    unfold lookupAppByInstanceId
    rw [if_pos hsender]
    cases hfind : loop.mNanoapps.find? (fun app => app.instanceId == event.senderInstanceId) with
    | none =>
      rw [List.find?_eq_none] at hfind
      exact absurd hid (by simpa using hfind app hmem)
    | some sender =>
      exact ⟨sender, List.mem_of_find?_eq_some hfind,
        by simpa using List.find?_some hfind, rfl⟩
  · intro sender hfound
    unfold lookupAppByInstanceId at hfound
    split at hfound
    · next hsender =>
      exact ⟨List.mem_of_find?_eq_some hfound, by simpa using List.find?_some hfound, hsender⟩
    · simp at hfound
  · rw [freeEvent_eq]
    simp [Event.hasFreeCallback, hcallback]

theorem freeEvent_runs_callback_as_sender_witness :
    senderCallbackEvent.freeCallback = some (FreeCallback.eventComplete 502) ∧
    (freeEvent exampleConfig idleLoop senderCallbackEvent).trace =
      [Action.invokeCallback (some exampleApp) (FreeCallback.eventComplete 502) 8 42,
        Action.deallocate senderCallbackEvent] :=
  ⟨by decide, by
    have h := (freeEvent_runs_callback_as_sender exampleConfig idleLoop senderCallbackEvent
      (FreeCallback.eventComplete 502) (by decide)).1
    rw [h]
    decide⟩

/-! ### `stop` on a stopped loop -/

/-- C25. `stop` on a loop whose running flag is false returns with the loop as it was: the
fatal-error path is not reached, the flag stays false, and the queue, the pool and the
registry are unchanged; nothing is posted and no call is made. -/
theorem stop_on_stopped_loop_is_a_no_op (cfg : Config) (loop : EventLoop)
    (hstopped : loop.mRunning = false) :
    stop cfg loop = Outcome.done () loop ∧
      (stop cfg loop).isFatal = false ∧
      (stop cfg loop).loop.mRunning = false ∧
      (stop cfg loop).loop.mEvents = loop.mEvents ∧
      (stop cfg loop).loop.mEventPool = loop.mEventPool ∧
      (stop cfg loop).loop.mNanoapps = loop.mNanoapps ∧
      (stop cfg loop).loop.trace = loop.trace := by
  have hstop : stop cfg loop = Outcome.done () loop := by
    simp [stop, postSystemEvent, hstopped]
  rw [hstop]
  exact ⟨rfl, rfl, hstopped, rfl, rfl, rfl, rfl⟩

theorem stop_on_stopped_loop_is_a_no_op_witness :
    stoppedLoop.mRunning = false ∧
    stop exampleConfig stoppedLoop = Outcome.done () stoppedLoop :=
  ⟨by decide, (stop_on_stopped_loop_is_a_no_op exampleConfig stoppedLoop (by decide)).1⟩

/-! ### Events that reach no nanoapp -/

theorem deliveryCalls_processEvent_free (cfg : Config) (loop : EventLoop) (event : Event) :
    (∀ action ∈ deliveryCalls cfg loop event, action.isProcessEvent = false)
      ↔ eventTargets cfg loop event = [] := by
  unfold deliveryCalls
  constructor
  · intro hnone
    cases htargets : eventTargets cfg loop event with
    | nil => rfl
    | cons app rest =>
      have := hnone (Action.processEvent app event) (by simp [htargets])
      simp [Action.isProcessEvent] at this
  · intro hempty action hmem
    rw [hempty] at hmem
    simp only [List.map_nil, List.isEmpty_nil, Bool.true_and, List.nil_append] at hmem
    split at hmem
    · simp only [List.mem_singleton] at hmem
      rw [hmem]; rfl
    · simp at hmem

/-- C27. Among the calls `distributeEvent` makes for an event, the dropped-event warning for
that event occurs exactly when none of the calls is a delivery to a nanoapp and the target of
the event is neither the broadcast id nor the system id; no warning is logged for another
event. When the warning is logged, the calls are the warning followed by the calls of
`freeEvent`: the free callback once when the event has one, and the return of the event to
the pool. No call is the fatal error, and the pool gets the event back in every case. -/
theorem distributeEvent_logs_undelivered_unicast (cfg : Config) (loop : EventLoop)
    (event : Event) :
    ∃ calls : List Action,
      (distributeEvent cfg loop event).trace = loop.trace ++ calls ∧
      (Action.logDroppedEvent event ∈ calls ↔
        ((∀ action ∈ calls, action.isProcessEvent = false) ∧
          event.targetInstanceId ≠ cfg.kBroadcastInstanceId ∧
          event.targetInstanceId ≠ cfg.kSystemInstanceId)) ∧
      (∀ dropped, Action.logDroppedEvent dropped ∈ calls → dropped = event) ∧
      (Action.logDroppedEvent event ∈ calls →
        calls = [Action.logDroppedEvent event] ++ freeEventCalls cfg loop event) ∧
      (∀ callback, event.freeCallback = some callback →
        freeEventCalls cfg loop event =
          [Action.invokeCallback (lookupAppByInstanceId cfg loop event.senderInstanceId)
              callback event.eventType event.eventData,
            Action.deallocate event]) ∧
      (event.freeCallback = none → freeEventCalls cfg loop event = [Action.deallocate event]) ∧
      (∀ eventType, Action.fatalError eventType ∉ calls) ∧
      (distributeEvent cfg loop event).mEventPool = loop.mEventPool.deallocate := by
  have hfree : ∀ action ∈ freeEventCalls cfg loop event,
      action.isProcessEvent = false ∧ (∀ dropped, action ≠ Action.logDroppedEvent dropped)
        ∧ ∀ eventType, action ≠ Action.fatalError eventType := by
    intro action hmem
    unfold freeEventCalls at hmem
    cases hcb : event.freeCallback <;> simp [hcb] at hmem
    · subst hmem; simp [Action.isProcessEvent]
    · rcases hmem with hmem | hmem <;> subst hmem <;> simp [Action.isProcessEvent]
  refine ⟨distributeEventCalls cfg loop event, by rw [distributeEvent_eq], ?_, ?_, ?_, ?_, ?_,
    ?_, by rw [distributeEvent_eq]⟩
  · have hsplit : (∀ action ∈ distributeEventCalls cfg loop event, action.isProcessEvent = false)
        ↔ eventTargets cfg loop event = [] := by
      rw [← deliveryCalls_processEvent_free]
      unfold distributeEventCalls
      constructor
      · intro h action hmem
        exact h action (List.mem_append_left _ hmem)
      · intro h action hmem
        rcases List.mem_append.1 hmem with hmem | hmem
        · exact h action hmem
        · exact (hfree action hmem).1
    rw [hsplit]
    unfold distributeEventCalls deliveryCalls
    constructor
    · intro hmem
      rcases List.mem_append.1 hmem with hmem | hmem
      · rcases List.mem_append.1 hmem with hmem | hmem
        · simp at hmem
        · split at hmem
          · next hcond =>
            simp only [Bool.and_eq_true, List.isEmpty_iff, bne_iff_ne, ne_eq] at hcond
            exact ⟨hcond.1.1, hcond.1.2, hcond.2⟩
          · simp at hmem
      · exact absurd rfl ((hfree _ hmem).2.1 event)
    · rintro ⟨hempty, hbroadcast, hsystem⟩
      simp [hempty, hbroadcast, hsystem]
  · intro dropped hmem
    unfold distributeEventCalls deliveryCalls at hmem
    rcases List.mem_append.1 hmem with hmem | hmem
    · rcases List.mem_append.1 hmem with hmem | hmem
      · simp at hmem
      · split at hmem
        · simpa using hmem
        · simp at hmem
    · exact absurd rfl ((hfree _ hmem).2.1 dropped)
  · intro hmem
    unfold distributeEventCalls deliveryCalls at hmem ⊢
    rcases List.mem_append.1 hmem with hmem | hmem
    · rcases List.mem_append.1 hmem with hmem | hmem
      · simp at hmem
      · split at hmem
        · next hcond =>
          simp only [Bool.and_eq_true, List.isEmpty_iff] at hcond
          simp [hcond.1.1, hcond.1.2, hcond.2]
        · simp at hmem
    · exact absurd rfl ((hfree _ hmem).2.1 event)
  · intro callback hcb
    simp [freeEventCalls, hcb]
  · intro hcb
    simp [freeEventCalls, hcb]
  · intro eventType hmem
    unfold distributeEventCalls deliveryCalls at hmem
    rcases List.mem_append.1 hmem with hmem | hmem
    · rcases List.mem_append.1 hmem with hmem | hmem
      · simp at hmem
      · split at hmem <;> simp at hmem
    · exact absurd rfl ((hfree _ hmem).2.2 eventType)

/-- C28 as stated fails: a registry that holds a nanoapp whose instance id is that of the
system gets the events sent to the system instance, since `distributeEvent` compares the
target with the instance id of every nanoapp. -/
theorem system_target_reaches_nanoapp_with_system_id :
    systemTargetEvent.targetInstanceId = exampleConfig.kSystemInstanceId ∧
    (distributeEvent exampleConfig { idleLoop with mNanoapps := [systemIdApp] }
        systemTargetEvent).trace =
      [Action.processEvent systemIdApp systemTargetEvent,
        Action.invokeCallback none (FreeCallback.eventComplete 500) 9 40,
        Action.deallocate systemTargetEvent] := by
  decide

/-- C28, amended. In a registry where no nanoapp has the system instance id as its instance
id, an event whose target is `kSystemInstanceId` (which differs from the broadcast id) is
handed to no nanoapp by `distributeEvent`: the calls are those of `freeEvent` alone, none of
which is a delivery. -/
theorem distributeEvent_system_target (cfg : Config) (loop : EventLoop) (event : Event)
    (hconstants : cfg.kSystemInstanceId ≠ cfg.kBroadcastInstanceId)
    (htarget : event.targetInstanceId = cfg.kSystemInstanceId)
    (hids : ∀ app ∈ loop.mNanoapps, app.instanceId ≠ cfg.kSystemInstanceId) :
    (distributeEvent cfg loop event).trace = loop.trace ++ freeEventCalls cfg loop event ∧
      (∀ action ∈ freeEventCalls cfg loop event, action.isProcessEvent = false) ∧
      ∀ app, Action.processEvent app event ∉
        (distributeEvent cfg loop event).trace.drop loop.trace.length := by
  have htargets : eventTargets cfg loop event = [] := by
    unfold eventTargets
    rw [List.filter_eq_nil_iff]
    intro app hmem
    have hid := hids app hmem
    simp [isEventTarget, htarget, hconstants, Ne.symm hid]
  have htrace : (distributeEvent cfg loop event).trace
      = loop.trace ++ freeEventCalls cfg loop event := by
    rw [distributeEvent_eq]
    simp [distributeEventCalls, deliveryCalls, htargets, htarget]
  refine ⟨htrace, freeEventCalls_no_delivery cfg loop event, ?_⟩
  intro app hmem
  rw [htrace, List.drop_left] at hmem
  have := freeEventCalls_no_delivery cfg loop event _ hmem
  simp [Action.isProcessEvent] at this

theorem distributeEvent_system_target_witness :
    exampleConfig.kSystemInstanceId ≠ exampleConfig.kBroadcastInstanceId ∧
    systemTargetEvent.targetInstanceId = exampleConfig.kSystemInstanceId ∧
    (∀ app ∈ crowdedLoop.mNanoapps, app.instanceId ≠ exampleConfig.kSystemInstanceId) ∧
    (distributeEvent exampleConfig crowdedLoop systemTargetEvent).trace =
      crowdedLoop.trace ++ freeEventCalls exampleConfig crowdedLoop systemTargetEvent :=
  ⟨by decide, by decide, by decide,
    (distributeEvent_system_target exampleConfig crowdedLoop systemTargetEvent (by decide)
      (by decide) (by decide)).1⟩

/-! ### `run` and the running flag -/

/-- C29 as stated fails: `run` on a loop whose running flag is false, with a broadcast event
queued for a registered nanoapp, does not enter the dispatch loop. The flag stays false, the
event is freed without being delivered, no power notification is made, and the nanoapp is
unloaded. -/
theorem run_skips_dispatch_when_not_running_example :
    stoppedLoop.mRunning = false ∧
    stoppedLoop.mEvents = [broadcastEvent] ∧
    isEventTarget exampleConfig broadcastEvent exampleApp = true ∧
    dispatchLoop exampleConfig stoppedLoop = LoopOutcome.finished stoppedLoop ∧
    (run exampleConfig stoppedLoop).isFinished = true ∧
    (run exampleConfig stoppedLoop).loop.mRunning = false ∧
    (run exampleConfig stoppedLoop).loop.trace =
      [Action.invokeCallback none (FreeCallback.eventComplete 500) 7 40,
        Action.deallocate broadcastEvent]
        ++ unloadCalls exampleConfig exampleApp true ∧
    Action.processEvent exampleApp broadcastEvent ∉ (run exampleConfig stoppedLoop).loop.trace ∧
    Action.preEventLoopProcess 1 ∉ (run exampleConfig stoppedLoop).loop.trace := by
  decide

/-- C29, amended. `run` does not set the running flag. Entered with the flag false, it skips
the dispatch loop: it purges the queue and unloads the nanoapps, the flag stays false and no
event is delivered. Entered with the flag true and an event queued, it runs one cycle of the
dispatch loop body for the event at the front, after which the flag is false exactly when
the free callback of that event was the lambda of `stop`, and goes on from there. -/
theorem run_leaves_the_running_flag (cfg : Config) (loop : EventLoop) :
    (loop.mRunning = false →
      dispatchLoop cfg loop = LoopOutcome.finished loop ∧
      run cfg loop = LoopOutcome.finished (unloadAllNanoapps cfg (purgeEvents cfg loop)) ∧
      (run cfg loop).loop.mRunning = false ∧
      (run cfg loop).loop.trace =
        loop.trace
          ++ loop.mEvents.flatMap (freeEventCalls cfg loop)
          ++ loop.mNanoapps.reverse.flatMap (fun app => unloadCalls cfg app true) ∧
      ∀ action ∈ (run cfg loop).loop.trace.drop loop.trace.length,
        action.isProcessEvent = false) ∧
    (loop.mRunning = true →
      ∀ event rest, loop.mEvents = event :: rest →
        dispatchLoop cfg loop = dispatchLoop cfg (afterCycle cfg loop event rest) ∧
        (afterCycle cfg loop event rest).mRunning = !event.stopsLoop ∧
        (afterCycle cfg loop event rest).trace =
          loop.trace
            ++ ([Action.preEventLoopProcess (rest.length + 1)]
              ++ distributeEventCalls cfg loop event
              ++ [Action.postEventLoopProcess rest.length])) := by
  constructor
  · intro hstopped
    have hdispatch : dispatchLoop cfg loop = LoopOutcome.finished loop := by
      unfold dispatchLoop
      cases loop.mEvents <;> simp [dispatchLoopOn, hstopped]
    have hrun := run_of_finished cfg loop loop hdispatch
    refine ⟨hdispatch, ?_, ?_, ?_, ?_⟩
    · unfold run
      rw [hdispatch]
    · rw [hrun]
      simp [LoopOutcome.loop, hstopped]
    · rw [hrun]
      rfl
    · rw [hrun]
      simp only [LoopOutcome.loop, List.append_assoc, List.drop_left]
      intro action hmem
      rcases List.mem_append.1 hmem with hmem | hmem
      · obtain ⟨event, _, hcall⟩ := List.mem_flatMap.1 hmem
        exact freeEventCalls_no_delivery cfg loop event action hcall
      · obtain ⟨app, _, hcall⟩ := List.mem_flatMap.1 hmem
        exact unloadCalls_no_delivery cfg app true action hcall
  · intro hrunning event rest hqueue
    refine ⟨?_, rfl, rfl⟩
    unfold dispatchLoop
    rw [hqueue, dispatchLoopOn_cons cfg event rest loop hrunning]
    rfl


theorem run_leaves_the_running_flag_witness :
    stoppedLoop.mRunning = false ∧
    dispatchLoop exampleConfig stoppedLoop = LoopOutcome.finished stoppedLoop ∧
    busyLoop.mRunning = true ∧
    busyLoop.mEvents = [broadcastEvent] ∧
    dispatchLoop exampleConfig busyLoop =
      dispatchLoop exampleConfig (afterCycle exampleConfig busyLoop broadcastEvent []) :=
  ⟨by decide, ((run_leaves_the_running_flag exampleConfig stoppedLoop).1 (by decide)).1,
    by decide, by decide,
    ((run_leaves_the_running_flag exampleConfig busyLoop).2 (by decide) broadcastEvent []
      (by decide)).1⟩

/-- C24 as stated fails: on a running loop where no nanoapp is executing and no nanoapp is
being unloaded, both pointers are null and the guard returns true. -/
theorem guard_is_true_without_any_nanoapp :
    idleLoop.mRunning = true ∧
    idleLoop.mCurrentApp = none ∧
    idleLoop.mStoppingNanoapp = none ∧
    currentNanoappIsStopping idleLoop = true := by
  decide

/-- C24, amended. While the loop is running, `currentNanoappIsStopping` returns true exactly
when `mCurrentApp` equals `mStoppingNanoapp`. With a nanoapp executing, it is true when that
nanoapp is the one being unloaded and false otherwise, also when no nanoapp is being
unloaded. With no nanoapp executing, it is true when no nanoapp is being unloaded and false
while one is. -/
theorem currentNanoappIsStopping_while_running (loop : EventLoop)
    (hrunning : loop.mRunning = true) :
    (currentNanoappIsStopping loop = true ↔ loop.mCurrentApp = loop.mStoppingNanoapp) ∧
    (∀ app, loop.mCurrentApp = some app → loop.mStoppingNanoapp = some app →
      currentNanoappIsStopping loop = true) ∧
    (∀ app, loop.mCurrentApp = some app → loop.mStoppingNanoapp ≠ some app →
      currentNanoappIsStopping loop = false) ∧
    (loop.mCurrentApp = none → loop.mStoppingNanoapp = none →
      currentNanoappIsStopping loop = true) ∧
    (loop.mCurrentApp = none → loop.mStoppingNanoapp ≠ none →
      currentNanoappIsStopping loop = false) := by
  have hguard : currentNanoappIsStopping loop = decide (loop.mCurrentApp = loop.mStoppingNanoapp) := by
    simp [currentNanoappIsStopping, hrunning]
  rw [hguard]
  refine ⟨by simp, ?_, ?_, ?_, ?_⟩
  · intro app hcurrent hstopping
    simp [hcurrent, hstopping]
  · intro app hcurrent hstopping
    rw [hcurrent]
    simpa using fun h => hstopping h.symm
  · intro hcurrent hstopping
    simp [hcurrent, hstopping]
  · intro hcurrent hstopping
    rw [hcurrent]
    simpa using fun h => hstopping h.symm

theorem currentNanoappIsStopping_while_running_witness :
    unloadingLoop.mRunning = true ∧
    unloadingLoop.mCurrentApp = some exampleApp ∧
    unloadingLoop.mStoppingNanoapp = some exampleApp ∧
    currentNanoappIsStopping unloadingLoop = true :=
  ⟨by decide, by decide, by decide,
    (currentNanoappIsStopping_while_running unloadingLoop (by decide)).2.1 exampleApp
      (by decide) (by decide)⟩

/-! ### What loading and unloading return -/

theorem findNanoappInstanceIdByAppId_eq (loop : EventLoop) (inEventLoopThread : Bool)
    (appId : Nat) :
    findNanoappInstanceIdByAppId loop inEventLoopThread appId =
      ((loop.mNanoapps.find? (fun app => app.appId == appId)).map (fun app => app.instanceId),
        { loop with
          trace := loop.trace
            ++ (if inEventLoopThread then [] else [Action.lockNanoapps, Action.unlockNanoapps]) }) := by
  cases inEventLoopThread <;>
    simp [findNanoappInstanceIdByAppId, conditionalLock, conditionalUnlock, EventLoop.record]

/-- The fields `notifyAppStatusChange` leaves as they are. -/
theorem notifyAppStatusChange_keeps (cfg : Config) (loop notified : EventLoop)
    (info : Option Nat) (eventType : Nat) (nanoapp : Nanoapp)
    (hdone : notifyAppStatusChange cfg loop info eventType nanoapp = Outcome.done () notified) :
    notified.mNanoapps = loop.mNanoapps ∧ notified.mCurrentApp = loop.mCurrentApp ∧
      notified.mStoppingNanoapp = loop.mStoppingNanoapp := by
  obtain ⟨queue, pool, dropped, calls, hframe, _⟩ :=
    notifyAppStatusChange_frame cfg loop info eventType nanoapp
  rw [hdone] at hframe
  simp only [Outcome.loop] at hframe
  rw [hframe]
  exact ⟨rfl, rfl, rfl⟩

/-- What `unloadNanoapp` leaves when it returns: the loop as it was when it refuses, and both
context pointers null when it unloads. -/
theorem unloadNanoapp_returns (cfg : Config) (loop result : EventLoop) (platform : Platform)
    (instanceId : Nat) (allowSystemNanoappUnload nanoappStarted value : Bool)
    (hdone : unloadNanoapp cfg loop platform instanceId allowSystemNanoappUnload nanoappStarted
      = Outcome.done value result) :
    (value = false ∧ result = loop) ∨
      (value = true ∧ result.mCurrentApp = none ∧ result.mStoppingNanoapp = none) := by
  cases value with
  | true =>
    obtain ⟨_, _, _, _, _, hstopping, hcurrent, _⟩ :=
      unloadNanoapp_done cfg loop result platform instanceId allowSystemNanoappUnload
        nanoappStarted hdone
    exact Or.inr ⟨rfl, hcurrent, hstopping⟩
  | false =>
    left
    refine ⟨rfl, ?_⟩
    simp only [unloadNanoapp_def] at hdone
    split at hdone
    · injection hdone with _ hloop
      exact hloop.symm
    · split at hdone
      · injection hdone with _ hloop
        exact hloop.symm
      · revert hdone
        cases nanoappStarted
        · simp
        · simp only [if_true]
          split <;> simp

/-- What `startNanoapp` leaves when it returns: the current-app pointer is null or as it was,
the stopping pointer is null or as it was, and the nanoapp is at the end of the registry when
the result is true. -/
theorem startNanoapp_returns (cfg : Config) (loop result : EventLoop) (platform : Platform)
    (app : Nanoapp) (value : Bool)
    (hdone : startNanoapp cfg loop platform (some app) = Outcome.done value result) :
    (result.mCurrentApp = none ∨ result.mCurrentApp = loop.mCurrentApp) ∧
      (result.mStoppingNanoapp = none ∨ result.mStoppingNanoapp = loop.mStoppingNanoapp) ∧
      (value = true → result.mNanoapps = loop.mNanoapps ++ [app] ∧ result.mCurrentApp = none
        ∧ result.mStoppingNanoapp = loop.mStoppingNanoapp) := by
  simp only [startNanoapp_def] at hdone
  simp only [findNanoappInstanceIdByAppId_eq] at hdone
  split at hdone
  · injection hdone with hvalue hloop
    subst hvalue hloop
    simp
  · split at hdone
    · injection hdone with hvalue hloop
      subst hvalue hloop
      simp
    · split at hdone
      · injection hdone with hvalue hloop
        subst hvalue hloop
        simp [EventLoop.record]
      · split at hdone
        · split at hdone
          · next flag unloaded hunload =>
            injection hdone with hvalue hloop
            subst hvalue hloop
            rcases unloadNanoapp_returns cfg _ _ platform _ _ _ _ hunload with
              ⟨_, hsame⟩ | ⟨_, hcurrent, hstopping⟩
            · rw [hsame]
              simp [EventLoop.record]
            · simp [hcurrent, hstopping]
          · simp at hdone
        · split at hdone
          · next notified hnotify =>
            injection hdone with hvalue hloop
            subst hvalue hloop
            obtain ⟨happs, hcurrent, hstopping⟩ :=
              notifyAppStatusChange_keeps cfg _ _ _ _ _ hnotify
            rw [happs, hcurrent, hstopping]
            simp [EventLoop.record]
          · simp at hdone


theorem logDanglingResources_keeps (loop : EventLoop) (resource : Resource) (count : Nat) :
    (logDanglingResources loop resource count).mCurrentApp = loop.mCurrentApp ∧
      (logDanglingResources loop resource count).mNanoapps = loop.mNanoapps ∧
      (logDanglingResources loop resource count).mStoppingNanoapp = loop.mStoppingNanoapp := by
  unfold logDanglingResources
  split
  · split <;> simp [EventLoop.record]
  · simp

/-- A cleanup block calls the release operation in the state it is given. -/
theorem releaseDomainWith_context (release other : EventLoop → EventLoop)
    (enabled : Bool) (resource : Resource) (count : Nat) (state : EventLoop) (app : Nanoapp)
    (registry : List Nanoapp) (stopping : Option Nanoapp)
    (hkeep : ∀ state,
      (release state).mCurrentApp = state.mCurrentApp ∧
      (release state).mNanoapps = state.mNanoapps ∧
      (release state).mStoppingNanoapp = state.mStoppingNanoapp)
    (hagree : ∀ state, state.mCurrentApp = some app → state.mNanoapps = registry →
      state.mStoppingNanoapp = stopping → release state = other state)
    (hcurrent : state.mCurrentApp = some app) (hregistry : state.mNanoapps = registry)
    (hstopping : state.mStoppingNanoapp = stopping) :
    releaseDomainWith release enabled resource count state
        = releaseDomainWith other enabled resource count state ∧
      (releaseDomainWith release enabled resource count state).mCurrentApp = some app ∧
      (releaseDomainWith release enabled resource count state).mNanoapps = registry ∧
      (releaseDomainWith release enabled resource count state).mStoppingNanoapp = stopping := by
  unfold releaseDomainWith
  cases enabled with
  | false => exact ⟨rfl, hcurrent, hregistry, hstopping⟩
  | true =>
    simp only [if_true]
    obtain ⟨h1, h2, h3⟩ := logDanglingResources_keeps (release state) resource count
    obtain ⟨k1, k2, k3⟩ := hkeep state
    refine ⟨by rw [hagree state hcurrent hregistry hstopping], ?_, ?_, ?_⟩
    · rw [h1, k1, hcurrent]
    · rw [h2, k2, hregistry]
    · rw [h3, k3, hstopping]

/-- The event handler is run in the state `deliverNextEvent` was entered in, with the nanoapp
as current app. -/
theorem deliverNextEventWith_context (handler other : EventLoop → EventLoop) (loop : EventLoop)
    (app : Nanoapp)
    (hagree : ∀ state, state.mCurrentApp = some app → state.mNanoapps = loop.mNanoapps →
      state.mStoppingNanoapp = loop.mStoppingNanoapp → handler state = other state) :
    deliverNextEventWith handler loop app = deliverNextEventWith other loop app := by
  unfold deliverNextEventWith
  simp only []
  rw [hagree { loop with mCurrentApp := some app } rfl rfl rfl]

/-- The start hook is run with the nanoapp as current app and as last entry of the registry. -/
theorem startNanoappWith_context (hook other : Nanoapp → EventLoop → Bool × EventLoop)
    (cfg : Config) (loop : EventLoop) (platform : Platform) (app : Nanoapp)
    (hagree : ∀ state, state.mCurrentApp = some app →
      state.mNanoapps = loop.mNanoapps ++ [app] →
      state.mStoppingNanoapp = loop.mStoppingNanoapp → hook app state = other app state) :
    startNanoappWith hook cfg loop platform (some app)
      = startNanoappWith other cfg loop platform (some app) := by
  unfold startNanoappWith
  simp only [findNanoappInstanceIdByAppId_eq]
  rw [hagree _ (by rfl) (by simp [EventLoop.record]) (by simp [EventLoop.record])]

/-- The end hook and the release operations are run with the nanoapp as current app and
still in the registry. -/
theorem unloadNanoappAtIndexWith_context (endHook otherEnd : Nanoapp → EventLoop → EventLoop)
    (release other : Resource → Nanoapp → EventLoop → EventLoop) (cfg : Config)
    (loop : EventLoop) (index : Nat) (nanoappStarted : Bool) (app : Nanoapp)
    (happ : loop.mNanoapps.get? index = some app)
    (hkeepEnd : ∀ state,
      (endHook app state).mCurrentApp = state.mCurrentApp ∧
      (endHook app state).mNanoapps = state.mNanoapps ∧
      (endHook app state).mStoppingNanoapp = state.mStoppingNanoapp)
    (hkeep : ∀ resource state,
      (release resource app state).mCurrentApp = state.mCurrentApp ∧
      (release resource app state).mNanoapps = state.mNanoapps ∧
      (release resource app state).mStoppingNanoapp = state.mStoppingNanoapp)
    (hagreeEnd : ∀ state, state.mCurrentApp = some app → state.mNanoapps = loop.mNanoapps →
      state.mStoppingNanoapp = loop.mStoppingNanoapp → endHook app state = otherEnd app state)
    (hagree : ∀ resource state, state.mCurrentApp = some app →
      state.mNanoapps = loop.mNanoapps → state.mStoppingNanoapp = loop.mStoppingNanoapp →
      release resource app state = other resource app state) :
    unloadNanoappAtIndexWith endHook release cfg loop index nanoappStarted
      = unloadNanoappAtIndexWith otherEnd other cfg loop index nanoappStarted := by
  unfold unloadNanoappAtIndexWith
  rw [happ]
  simp only []
  have hended : (if nanoappStarted = true then
        endHook app { loop.record Action.lockNanoapps with mCurrentApp := some app }
      else { loop.record Action.lockNanoapps with mCurrentApp := some app })
      = (if nanoappStarted = true then
        otherEnd app { loop.record Action.lockNanoapps with mCurrentApp := some app }
      else { loop.record Action.lockNanoapps with mCurrentApp := some app }) ∧
      (if nanoappStarted = true then
        endHook app { loop.record Action.lockNanoapps with mCurrentApp := some app }
      else { loop.record Action.lockNanoapps with mCurrentApp := some app }).mCurrentApp
        = some app ∧
      (if nanoappStarted = true then
        endHook app { loop.record Action.lockNanoapps with mCurrentApp := some app }
      else { loop.record Action.lockNanoapps with mCurrentApp := some app }).mNanoapps
        = loop.mNanoapps ∧
      (if nanoappStarted = true then
        endHook app { loop.record Action.lockNanoapps with mCurrentApp := some app }
      else { loop.record Action.lockNanoapps with mCurrentApp := some app }).mStoppingNanoapp
        = loop.mStoppingNanoapp := by
    cases nanoappStarted with
    | false => exact ⟨rfl, rfl, rfl, rfl⟩
    | true =>
      simp only [if_true]
      obtain ⟨k1, k2, k3⟩ :=
        hkeepEnd { loop.record Action.lockNanoapps with mCurrentApp := some app }
      exact ⟨hagreeEnd _ rfl rfl rfl, by rw [k1], by rw [k2]; rfl, by rw [k3]; rfl⟩
  obtain ⟨e0, c0, r0, s0⟩ := hended
  obtain ⟨e1, c1, r1, s1⟩ := releaseDomainWith_context (release Resource.wifiSubscriptions app)
    (other Resource.wifiSubscriptions app) cfg.wifiSupportEnabled
    Resource.wifiSubscriptions app.dangling.wifiSubscriptions _ app _ _
    (hkeep Resource.wifiSubscriptions) (hagree Resource.wifiSubscriptions) c0 r0 s0
  obtain ⟨e2, c2, r2, s2⟩ := releaseDomainWith_context (release Resource.gnssSubscriptions app)
    (other Resource.gnssSubscriptions app) cfg.gnssSupportEnabled
    Resource.gnssSubscriptions app.dangling.gnssSubscriptions _ app _ _
    (hkeep Resource.gnssSubscriptions) (hagree Resource.gnssSubscriptions) c1 r1 s1
  obtain ⟨e3, c3, r3, s3⟩ := releaseDomainWith_context (release Resource.sensorSubscriptions app)
    (other Resource.sensorSubscriptions app) cfg.sensorsSupportEnabled
    Resource.sensorSubscriptions app.dangling.sensorSubscriptions _ app _ _
    (hkeep Resource.sensorSubscriptions) (hagree Resource.sensorSubscriptions) c2 r2 s2
  obtain ⟨e4, c4, r4, s4⟩ := releaseDomainWith_context (release Resource.audioRequests app)
    (other Resource.audioRequests app) cfg.audioSupportEnabled
    Resource.audioRequests app.dangling.audioRequests _ app _ _
    (hkeep Resource.audioRequests) (hagree Resource.audioRequests) c3 r3 s3
  obtain ⟨e5, c5, r5, s5⟩ := releaseDomainWith_context (release Resource.bleScan app)
    (other Resource.bleScan app) cfg.bleSupportEnabled
    Resource.bleScan app.dangling.bleScans _ app _ _
    (hkeep Resource.bleScan) (hagree Resource.bleScan) c4 r4 s4
  obtain ⟨e6, c6, r6, s6⟩ := releaseDomainWith_context (release Resource.timers app)
    (other Resource.timers app) true
    Resource.timers app.dangling.timers _ app _ _
    (hkeep Resource.timers) (hagree Resource.timers) c5 r5 s5
  obtain ⟨e7, _, _, _⟩ := releaseDomainWith_context (release Resource.heapBlocks app)
    (other Resource.heapBlocks app) true
    Resource.heapBlocks app.dangling.heapBlocks _ app _ _
    (hkeep Resource.heapBlocks) (hagree Resource.heapBlocks) c6 r6 s6
  rw [e7, e6, e5, e4, e3, e2, e1, e0]

theorem deliverEventSync_mCurrentApp (cfg : Config) (loop : EventLoop)
    (nanoappInstanceId eventType eventData : Nat) :
    (deliverEventSync cfg loop nanoappInstanceId eventType eventData).2.mCurrentApp = none ∨
      (deliverEventSync cfg loop nanoappInstanceId eventType eventData).2 = loop := by
  unfold deliverEventSync
  simp only []
  split
  · exact Or.inl rfl
  · exact Or.inr rfl

/-- C22 as stated fails when the pointer is not null at the call: a call that runs no code of
a nanoapp returns with the pointer as it was. With `exampleApp` as current app, `startNanoapp`
of a null nanoapp, `unloadNanoapp` of a system nanoapp that may not be unloaded,
`distributeEvent` of an event without target and without free callback, and
`deliverEventSync` to an instance id that is not loaded all return with `exampleApp` still
current. -/
theorem refused_calls_leave_the_current_app :
    startNanoapp exampleConfig { crowdedLoop with mCurrentApp := some exampleApp }
        examplePlatform none
      = Outcome.done false { crowdedLoop with mCurrentApp := some exampleApp } ∧
    unloadNanoapp exampleConfig { crowdedLoop with mCurrentApp := some exampleApp }
        examplePlatform 3 false true
      = Outcome.done false { crowdedLoop with mCurrentApp := some exampleApp } ∧
    (distributeEvent exampleConfig { crowdedLoop with mCurrentApp := some exampleApp }
      nanoappEvent).mCurrentApp = some exampleApp ∧
    deliverEventSync exampleConfig { crowdedLoop with mCurrentApp := some exampleApp } 9 9 40
      = (false, { crowdedLoop with mCurrentApp := some exampleApp }) := by
  decide

/-- C22, amended. The current-app pointer around nanoapp code, on a loop entered with the
pointer null. `deliverNextEvent`, `startNanoapp` and `unloadNanoappAtIndex` are the functions
that take the nanoapp code as a parameter, at the code that leaves its call in the trace, and
those run the event handler, the start hook, the end hook and the release operations only in
states where `mCurrentApp` is the nanoapp, the nanoapp is in the registry and the stopping
pointer is as on entry: replacing the code by one that agrees with it on such states changes
nothing (the end hook and the release operations are taken not to write these three fields).
`deliverNextEvent` and `unloadNanoappAtIndex` leave the pointer null, the latter with the
nanoapp erased. When `startNanoapp` or `unloadNanoapp` returns, with either result, and after
`distributeEvent` and `deliverEventSync`, the pointer is null. -/
theorem current_app_is_set_for_nanoapp_code (cfg : Config) (loop : EventLoop)
    (platform : Platform) (app : Nanoapp) (event : Event) (index instanceId : Nat)
    (allowSystemNanoappUnload nanoappStarted : Bool) (eventType eventData : Nat)
    (hentry : loop.mCurrentApp = none) :
    (deliverNextEvent loop app event =
        deliverNextEventWith (fun state => state.record (Action.processEvent app event))
          loop app ∧
      (∀ handler other : EventLoop → EventLoop,
        (∀ state, state.mCurrentApp = some app → state.mNanoapps = loop.mNanoapps →
          state.mStoppingNanoapp = loop.mStoppingNanoapp → handler state = other state) →
        deliverNextEventWith handler loop app = deliverNextEventWith other loop app) ∧
      ∀ handler : EventLoop → EventLoop,
        (deliverNextEventWith handler loop app).mCurrentApp = none) ∧
    (startNanoapp cfg loop platform (some app) =
        startNanoappWith
          (fun newNanoapp state =>
            (newNanoapp.startResult, state.record (Action.nanoappStart newNanoapp)))
          cfg loop platform (some app) ∧
      ∀ hook other : Nanoapp → EventLoop → Bool × EventLoop,
        (∀ state, state.mCurrentApp = some app → state.mNanoapps = loop.mNanoapps ++ [app] →
          state.mStoppingNanoapp = loop.mStoppingNanoapp → hook app state = other app state) →
        startNanoappWith hook cfg loop platform (some app)
          = startNanoappWith other cfg loop platform (some app)) ∧
    (loop.mNanoapps.get? index = some app →
      unloadNanoappAtIndex cfg loop index nanoappStarted =
        unloadNanoappAtIndexWith
          (fun nanoapp state => state.record (Action.nanoappEnd nanoapp))
          (fun resource nanoapp state =>
            state.record (Action.releaseResources resource nanoapp))
          cfg loop index nanoappStarted ∧
      (∀ (endHook otherEnd : Nanoapp → EventLoop → EventLoop)
          (release other : Resource → Nanoapp → EventLoop → EventLoop),
        (∀ state, (endHook app state).mCurrentApp = state.mCurrentApp ∧
          (endHook app state).mNanoapps = state.mNanoapps ∧
          (endHook app state).mStoppingNanoapp = state.mStoppingNanoapp) →
        (∀ resource state, (release resource app state).mCurrentApp = state.mCurrentApp ∧
          (release resource app state).mNanoapps = state.mNanoapps ∧
          (release resource app state).mStoppingNanoapp = state.mStoppingNanoapp) →
        (∀ state, state.mCurrentApp = some app → state.mNanoapps = loop.mNanoapps →
          state.mStoppingNanoapp = loop.mStoppingNanoapp →
          endHook app state = otherEnd app state) →
        (∀ resource state, state.mCurrentApp = some app → state.mNanoapps = loop.mNanoapps →
          state.mStoppingNanoapp = loop.mStoppingNanoapp →
          release resource app state = other resource app state) →
        unloadNanoappAtIndexWith endHook release cfg loop index nanoappStarted
          = unloadNanoappAtIndexWith otherEnd other cfg loop index nanoappStarted) ∧
      (unloadNanoappAtIndex cfg loop index nanoappStarted).mCurrentApp = none ∧
      (unloadNanoappAtIndex cfg loop index nanoappStarted).mNanoapps
        = loop.mNanoapps.eraseIdx index) ∧
    (∀ value result, startNanoapp cfg loop platform (some app) = Outcome.done value result →
      result.mCurrentApp = none) ∧
    (∀ value result,
      unloadNanoapp cfg loop platform instanceId allowSystemNanoappUnload nanoappStarted
        = Outcome.done value result →
      result.mCurrentApp = none) ∧
    (distributeEvent cfg loop event).mCurrentApp = none ∧
    (deliverEventSync cfg loop instanceId eventType eventData).2.mCurrentApp = none := by
  refine ⟨⟨rfl, ?_, fun _ => rfl⟩, ⟨rfl, ?_⟩, ?_, ?_, ?_, ?_, ?_⟩
  · intro handler other hagree
    exact deliverNextEventWith_context handler other loop app hagree
  · intro hook other hagree
    exact startNanoappWith_context hook other cfg loop platform app hagree
  · intro happ
    refine ⟨rfl, ?_, ?_, ?_⟩
    · intro endHook otherEnd release other hkeepEnd hkeep hagreeEnd hagree
      exact unloadNanoappAtIndexWith_context endHook otherEnd release other cfg loop index
        nanoappStarted app happ hkeepEnd hkeep hagreeEnd hagree
    · rw [unloadNanoappAtIndex_eq cfg loop index nanoappStarted app happ]
    · rw [unloadNanoappAtIndex_eq cfg loop index nanoappStarted app happ]
  · intro value result hdone
    obtain ⟨hcurrent, _, _⟩ := startNanoapp_returns cfg loop result platform app value hdone
    rcases hcurrent with hcurrent | hcurrent
    · exact hcurrent
    · rw [hcurrent, hentry]
  · intro value result hdone
    rcases unloadNanoapp_returns cfg loop result platform instanceId allowSystemNanoappUnload
      nanoappStarted value hdone with ⟨_, hsame⟩ | ⟨_, hcurrent, _⟩
    · rw [hsame, hentry]
    · exact hcurrent
  · rw [distributeEvent_eq]
    simp [hentry]
  · rcases deliverEventSync_mCurrentApp cfg loop instanceId eventType eventData with h | h
    · exact h
    · rw [h, hentry]

theorem current_app_is_set_for_nanoapp_code_witness :
    crowdedLoop.mCurrentApp = none ∧
    (startNanoapp exampleConfig crowdedLoop examplePlatform (some failingApp)).loop.mCurrentApp
      = none ∧
    (unloadNanoapp exampleConfig crowdedLoop examplePlatform 2 false true).loop.mCurrentApp
      = none ∧
    (distributeEvent exampleConfig crowdedLoop unicastEvent).mCurrentApp = none ∧
    (deliverEventSync exampleConfig crowdedLoop 2 9 40).2.mCurrentApp = none :=
  ⟨by decide, by decide, by decide,
    (current_app_is_set_for_nanoapp_code exampleConfig crowdedLoop examplePlatform secondApp
      unicastEvent 1 2 false true 9 40 (by decide)).2.2.2.2.2⟩

/-! ### The stopping pointer -/

/-- C33. For 16-bit timestamps `now` and `received`, the latency `deliverNextEvent` computes is
`(now - received) mod 2^16`, a value below 65536: the difference itself when the clock has
not wrapped, and the difference plus 65536 when `now` is below `received`. -/
theorem dispatchLatency_wraps_once (now received : Nat) (hnow : now < 65536)
    (hreceived : received < 65536) :
    (dispatchLatency now received : Int) = ((now : Int) - (received : Int)) % 65536 ∧
      dispatchLatency now received < 65536 ∧
      (received ≤ now → dispatchLatency now received = now - received) ∧
      (now < received → dispatchLatency now received = now + 65536 - received) := by
  have hvalue : dispatchLatency now received
      = if now < received then now + 65536 - received else now - received := by
    unfold dispatchLatency kUint32Modulus
    simp only []
    rw [Nat.mod_eq_of_lt (by omega : now < 2 ^ 32),
      Nat.mod_eq_of_lt (by omega : received < 2 ^ 32)]
    split
    · rw [Nat.mod_eq_of_lt (by omega : now + (65535 + 1) < 2 ^ 32)]
      omega
    · omega
  refine ⟨?_, ?_, ?_, ?_⟩
  · rw [hvalue]
    split <;> omega
  · rw [hvalue]
    split <;> omega
  · intro h
    rw [hvalue, if_neg (by omega)]
  · intro h
    rw [hvalue, if_pos h]

theorem dispatchLatency_wraps_once_witness :
    (100 : Nat) < 65536 ∧ (65500 : Nat) < 65536 ∧ dispatchLatency 100 65500 = 136 :=
  ⟨by decide, by decide,
    ((dispatchLatency_wraps_once 100 65500 (by decide) (by decide)).2.2.2 (by decide)).trans
      (by decide)⟩

/-! ### `StatsContainer` -/

theorem StatsContainer_getMax_foldl (values : List Nat) (stats : StatsContainer) :
    (values.foldl StatsContainer.addValue stats).getMax = values.foldl max stats.getMax := by
  induction values generalizing stats with
  | nil => rfl
  | cons value rest ih =>
    simp only [List.foldl_cons]
    rw [ih]
    congr 1
    simp only [StatsContainer.addValue, StatsContainer.getMax]
    split <;> omega

theorem SignedStatsContainer_getMax_foldl (values : List Int) (stats : SignedStatsContainer) :
    (values.foldl SignedStatsContainer.addValue stats).getMax
      = values.foldl max stats.getMax := by
  induction values generalizing stats with
  | nil => rfl
  | cons value rest ih =>
    simp only [List.foldl_cons]
    rw [ih]
    congr 1
    simp only [SignedStatsContainer.addValue, SignedStatsContainer.getMax]
    split <;> omega

theorem foldl_max_ge {α : Type} [LinearOrder α] (values : List α) (start : α) :
    start ≤ values.foldl max start ∧ ∀ value ∈ values, value ≤ values.foldl max start := by
  induction values generalizing start with
  | nil => simp
  | cons first rest ih =>
    simp only [List.foldl_cons, List.mem_cons, forall_eq_or_imp]
    obtain ⟨hstart, hrest⟩ := ih (max start first)
    exact ⟨le_trans (le_max_left _ _) hstart, le_trans (le_max_right _ _) hstart, hrest⟩

theorem foldl_max_mem {α : Type} [LinearOrder α] (values : List α) (start : α) :
    values.foldl max start = start ∨ values.foldl max start ∈ values := by
  induction values generalizing start with
  | nil => simp
  | cons first rest ih =>
    simp only [List.foldl_cons, List.mem_cons]
    rcases ih (max start first) with h | h
    · rcases max_choice start first with hmax | hmax
      · left; rw [h, hmax]
      · right; left; rw [h, hmax]
    · exact Or.inr (Or.inr h)

/-- C34. `getMax` is not the maximum of the values added when the element type is signed:
after the values -5 and -3, `getMax` returns 0, the initial `mMax`, which is none of the
values and not their maximum -3. Before any value is added it returns 0 as well. -/
theorem signed_max_of_negative_values_is_zero :
    ((SignedStatsContainer.fresh.addValue (-5)).addValue (-3)).getMax = 0 ∧
    (0 : Int) ∉ [(-5 : Int), -3] ∧
    ([(-5 : Int), -3].foldl max (-5)) = -3 ∧
    StatsContainer.fresh.getMax = 0 := by
  decide

/-- What `getMax` returns: the maximum of 0, the initial `mMax`, and the values passed
to `addValue` so far. It is at least every value added. For an unsigned element type (the
`uint32_t` of `mEventPoolUsage`) it is one of the values as soon as one was added; for a
signed element type it is never negative, and it is one of the values when one of them is
not negative. `addValue` never lowers what `getMax` returns. -/
theorem getMax_is_max_with_zero (values : List Nat) (signedValues : List Int)
    (stats : StatsContainer) (signedStats : SignedStatsContainer) (value : Nat)
    (signedValue : Int) :
    (values.foldl StatsContainer.addValue StatsContainer.fresh).getMax = values.foldl max 0 ∧
    (∀ added ∈ values,
      added ≤ (values.foldl StatsContainer.addValue StatsContainer.fresh).getMax) ∧
    (values ≠ [] →
      (values.foldl StatsContainer.addValue StatsContainer.fresh).getMax ∈ values) ∧
    (signedValues.foldl SignedStatsContainer.addValue SignedStatsContainer.fresh).getMax
      = signedValues.foldl max 0 ∧
    (∀ added ∈ signedValues,
      added ≤ (signedValues.foldl SignedStatsContainer.addValue
        SignedStatsContainer.fresh).getMax) ∧
    0 ≤ (signedValues.foldl SignedStatsContainer.addValue SignedStatsContainer.fresh).getMax ∧
    ((∃ added ∈ signedValues, 0 ≤ added) →
      (signedValues.foldl SignedStatsContainer.addValue SignedStatsContainer.fresh).getMax
        ∈ signedValues) ∧
    stats.getMax ≤ (stats.addValue value).getMax ∧
    value ≤ (stats.addValue value).getMax ∧
    signedStats.getMax ≤ (signedStats.addValue signedValue).getMax ∧
    signedValue ≤ (signedStats.addValue signedValue).getMax := by
  refine ⟨StatsContainer_getMax_foldl values _, ?_, ?_,
    SignedStatsContainer_getMax_foldl signedValues _, ?_, ?_, ?_, ?_, ?_, ?_, ?_⟩
  · rw [StatsContainer_getMax_foldl]
    exact (foldl_max_ge values _).2
  · intro hne
    rw [StatsContainer_getMax_foldl]
    rcases foldl_max_mem values StatsContainer.fresh.getMax with h | h
    · cases values with
      | nil => exact absurd rfl hne
      | cons first rest =>
        have hle := (foldl_max_ge (first :: rest) StatsContainer.fresh.getMax).2 first
          (List.mem_cons_self _ _)
        rw [h] at hle ⊢
        have hzero : first = 0 := by
          have : StatsContainer.fresh.getMax = 0 := rfl
          omega
        rw [show StatsContainer.fresh.getMax = 0 from rfl, ← hzero]
        exact List.mem_cons_self _ _
    · exact h
  · rw [SignedStatsContainer_getMax_foldl]
    exact (foldl_max_ge signedValues _).2
  · rw [SignedStatsContainer_getMax_foldl]
    exact (foldl_max_ge signedValues _).1
  · rintro ⟨added, hmem, hpos⟩
    rw [SignedStatsContainer_getMax_foldl]
    rcases foldl_max_mem signedValues SignedStatsContainer.fresh.getMax with h | h
    · have hle := (foldl_max_ge signedValues SignedStatsContainer.fresh.getMax).2 added hmem
      rw [h] at hle ⊢
      have hfresh : SignedStatsContainer.fresh.getMax = 0 := rfl
      have hzero : added = 0 := by omega
      rw [hfresh, ← hzero]
      exact hmem
    · exact h
  · simp only [StatsContainer.addValue, StatsContainer.getMax]
    split <;> omega
  · simp only [StatsContainer.addValue, StatsContainer.getMax]
    split <;> omega
  · simp only [SignedStatsContainer.addValue, SignedStatsContainer.getMax]
    split <;> omega
  · simp only [SignedStatsContainer.addValue, SignedStatsContainer.getMax]
    split <;> omega


theorem getMax_is_max_with_zero_witness :
    ([3, 9, 4] : List Nat) ≠ [] ∧
    (([3, 9, 4] : List Nat).foldl StatsContainer.addValue StatsContainer.fresh).getMax
      ∈ ([3, 9, 4] : List Nat) ∧
    (([3, 9, 4] : List Nat).foldl StatsContainer.addValue StatsContainer.fresh).getMax = 9 :=
  ⟨by decide,
    (getMax_is_max_with_zero [3, 9, 4] [-5, -3] StatsContainer.fresh
      SignedStatsContainer.fresh 1 1).2.2.1 (by decide),
    by decide⟩

/-! ### Posting on a loop that is not running -/

/-- C36. On a loop whose running flag is false the three posting functions leave the queue,
the pool and the dropped counter as they are. `postEventOrDie` and
`postLowPriorityEventOrFree` call a free callback that is not null once and make no other
call; `postSystemEvent` makes no call at all; `postSystemEvent` and
`postLowPriorityEventOrFree` return false and `postEventOrDie` does not fail. -/
theorem posts_on_stopped_loop (cfg : Config) (loop : EventLoop) (eventType eventData : Nat)
    (freeCallback : Option Nat) (callback : Option SystemEventCallbackFunction)
    (extraData senderInstanceId targetInstanceId targetGroupMask : Nat)
    (hstopped : loop.mRunning = false) :
    postEventOrDie cfg loop eventType eventData freeCallback targetInstanceId targetGroupMask
      = Outcome.done ()
          { loop with
            trace := loop.trace
              ++ (match freeCallback with
                  | some address =>
                    [Action.invokeCallback loop.mCurrentApp (FreeCallback.eventComplete address)
                      eventType eventData]
                  | none => []) } ∧
    postSystemEvent cfg loop eventType eventData callback extraData = Outcome.done false loop ∧
    postLowPriorityEventOrFree cfg loop eventType eventData freeCallback senderInstanceId
        targetInstanceId targetGroupMask
      = (false,
          { loop with
            trace := loop.trace
              ++ (match freeCallback with
                  | some address =>
                    [Action.invokeCallback loop.mCurrentApp (FreeCallback.eventComplete address)
                      eventType eventData]
                  | none => []) }) := by
  refine ⟨?_, ?_, ?_⟩
  · cases freeCallback <;> cases loop <;>
      simp_all [postEventOrDie, invokeCallback_eq, FreeCallback.stopsLoop]
  · simp [postSystemEvent, hstopped]
  · cases freeCallback <;> cases loop <;>
      simp_all [postLowPriorityEventOrFree, invokeCallback_eq, FreeCallback.stopsLoop]

theorem posts_on_stopped_loop_witness :
    stoppedLoop.mRunning = false ∧
    (postEventOrDie exampleConfig stoppedLoop 9 43 (some 502) 1 65535).loop.trace
      = [Action.invokeCallback none (FreeCallback.eventComplete 502) 9 43] ∧
    (postEventOrDie exampleConfig stoppedLoop 9 43 (some 502) 1 65535).loop.mEvents
      = [broadcastEvent] :=
  ⟨by decide, by
    rw [(posts_on_stopped_loop exampleConfig stoppedLoop 9 43 (some 502) none 0 0 1 65535
      (by decide)).1]
    decide, by decide⟩

/-! ### What the eviction reports and counts -/

/-- C37. For `removeNum > 0`, `removeNonNanoappLowPriorityEventsFromBack` shortens the queue
by the events it removes, returns each of them to the pool, returns true exactly when it
removed at least one, and adds their number to the dropped counter (a `uint32_t`, so modulo
2^32). When `hasNoSpaceForHighPriorityEvent` returns false, the pool it leaves is not full:
it was not full, or the queue got shorter. The queue is shorter than `SIZE_MAX`; for the
last part the pool is within its capacity and every queued event holds a slot of it. -/
theorem eviction_reports_and_counts_removals (cfg : Config) (loop : EventLoop)
    (removeNum : Nat) (hnum : 0 < removeNum)
    (hsize : loop.mEvents.length < cfg.kSizeMax)
    (hcounter : loop.mNumDroppedLowPriEvents < kUint32Modulus) :
    (∃ removed : List Event,
      loop.mEvents.length =
        (removeNonNanoappLowPriorityEventsFromBack cfg loop removeNum).2.mEvents.length
          + removed.length ∧
      (removeNonNanoappLowPriorityEventsFromBack cfg loop removeNum).2.trace
        = loop.trace ++ removed.map Action.deallocate ∧
      (removeNonNanoappLowPriorityEventsFromBack cfg loop removeNum).2.mEventPool.allocated
        = loop.mEventPool.allocated - removed.length ∧
      ((removeNonNanoappLowPriorityEventsFromBack cfg loop removeNum).1 = true
        ↔ 1 ≤ removed.length) ∧
      (removeNonNanoappLowPriorityEventsFromBack cfg loop removeNum).2.mNumDroppedLowPriEvents
        = (loop.mNumDroppedLowPriEvents + removed.length) % kUint32Modulus) ∧
    (loop.mEventPool.allocated ≤ cfg.kMaxEventCount →
      loop.mEvents.length ≤ loop.mEventPool.allocated →
      (hasNoSpaceForHighPriorityEvent cfg loop).1 = false →
      (hasNoSpaceForHighPriorityEvent cfg loop).2.mEventPool.full cfg = false ∧
      (loop.mEventPool.full cfg = false ∨
        (hasNoSpaceForHighPriorityEvent cfg loop).2.mEvents.length < loop.mEvents.length)) := by
  have htotal := fun maxNum =>
    removeMatchedFromBack_total (isNonNanoappLowPriorityEvent cfg) maxNum loop.mEvents
  constructor
  · by_cases hstatic : cfg.staticEventLoop = true
    · refine ⟨[], ?_⟩
      simp [removeNonNanoappLowPriorityEventsFromBack, hstatic, Nat.mod_eq_of_lt hcounter]
    · simp only [Bool.not_eq_true] at hstatic
      rw [removeNonNanoappLowPriorityEventsFromBack_eq cfg loop removeNum hstatic (by omega)]
      refine ⟨(removeMatchedFromBack (isNonNanoappLowPriorityEvent cfg) removeNum
        loop.mEvents).1, ?_, rfl, rfl, ?_, ?_⟩
      · have := htotal removeNum
        simp only []
        omega
      · simp only [decide_eq_true_eq]
        omega
      · have := htotal removeNum
        simp only []
        split
        · next hzero =>
          simp only [Bool.or_eq_true, beq_iff_eq] at hzero
          rcases hzero with hzero | hmax
          · rw [hzero, Nat.add_zero, Nat.mod_eq_of_lt hcounter]
          · omega
        · rfl
  · intro hpool hqueued hspace
    unfold hasNoSpaceForHighPriorityEvent at hspace ⊢
    by_cases hfull : loop.mEventPool.full cfg = true
    · simp only [hfull, if_true, Bool.not_eq_false'] at hspace ⊢
      by_cases hstatic : cfg.staticEventLoop = true
      · simp [removeNonNanoappLowPriorityEventsFromBack, hstatic] at hspace
      · simp only [Bool.not_eq_true] at hstatic
        rw [removeNonNanoappLowPriorityEventsFromBack_eq cfg loop _ hstatic
          (by decide : targetLowPriorityEventRemove ≠ 0)] at hspace ⊢
        simp only [decide_eq_true_eq] at hspace
        have := htotal targetLowPriorityEventRemove
        refine ⟨?_, Or.inr (by simp only []; omega)⟩
        simp only [MemoryPool.full, decide_eq_false_iff_not, not_le]
        omega
    · simp only [Bool.not_eq_true] at hfull
      simp [hfull]

theorem eviction_reports_and_counts_removals_witness :
    0 < 4 ∧ fullLoop.mEvents.length < exampleConfig.kSizeMax ∧
    fullLoop.mNumDroppedLowPriEvents < kUint32Modulus ∧
    (removeNonNanoappLowPriorityEventsFromBack exampleConfig fullLoop 4).1 = true ∧
    (removeNonNanoappLowPriorityEventsFromBack exampleConfig fullLoop 4).2.mEvents
      = [broadcastEvent, nanoappEvent] ∧
    (removeNonNanoappLowPriorityEventsFromBack exampleConfig fullLoop
      4).2.mNumDroppedLowPriEvents = 1 ∧
    (hasNoSpaceForHighPriorityEvent exampleConfig fullLoop).2.mEventPool.full exampleConfig
      = false :=
  ⟨by decide, by decide, by decide, by decide, by decide, by decide,
    ((eviction_reports_and_counts_removals exampleConfig fullLoop 4 (by decide) (by decide)
      (by decide)).2 (by decide) (by decide) (by decide)).1⟩

/-! ### Message free functions and the registry lock -/

/-- C38. When `lookupAppByAppId` finds a nanoapp for the app id, a loaded nanoapp with that app
id, `invokeMessageFreeFunction` calls the free function once, on the message and its size, in
the loop state with `mCurrentApp` set to that nanoapp, and then sets `mCurrentApp` back to its
value on entry. A loaded nanoapp with the app id is always found. When no loaded nanoapp has
the app id the loop state is unchanged: the free function is not called. In every case
`mCurrentApp` ends as it was on entry. -/
theorem invokeMessageFreeFunction_restores_context
    (freeFunction : Nat → Nat → EventLoop → EventLoop) (loop : EventLoop)
    (appId message messageSize : Nat) :
    (∀ nanoapp, lookupAppByAppId loop appId = some nanoapp →
      nanoapp ∈ loop.mNanoapps ∧ nanoapp.appId = appId ∧
      invokeMessageFreeFunction freeFunction loop appId message messageSize =
        { freeFunction message messageSize { loop with mCurrentApp := some nanoapp } with
          mCurrentApp := loop.mCurrentApp }) ∧
    ((∃ loaded ∈ loop.mNanoapps, loaded.appId = appId) →
      ∃ nanoapp, lookupAppByAppId loop appId = some nanoapp) ∧
    ((∀ loaded ∈ loop.mNanoapps, loaded.appId ≠ appId) →
      invokeMessageFreeFunction freeFunction loop appId message messageSize = loop) ∧
    (invokeMessageFreeFunction freeFunction loop appId message messageSize).mCurrentApp
      = loop.mCurrentApp := by
  refine ⟨?_, ?_, ?_, ?_⟩
  · intro nanoapp hfound
    refine ⟨?_, ?_, ?_⟩
    · exact List.mem_of_find?_eq_some hfound
    · simpa using List.find?_some hfound
    · unfold invokeMessageFreeFunction
      rw [hfound]
  · rintro ⟨loaded, hmem, hid⟩
    cases hfind : lookupAppByAppId loop appId with
    | some nanoapp => exact ⟨nanoapp, rfl⟩
    | none =>
      unfold lookupAppByAppId at hfind
      rw [List.find?_eq_none] at hfind
      exact absurd hid (by simpa using hfind loaded hmem)
  · intro hnone
    have hfind : lookupAppByAppId loop appId = none := by
      unfold lookupAppByAppId
      rw [List.find?_eq_none]
      intro loaded hmem
      simpa using hnone loaded hmem
    unfold invokeMessageFreeFunction
    rw [hfind]
  · unfold invokeMessageFreeFunction
    split <;> rfl

theorem invokeMessageFreeFunction_restores_context_witness :
    lookupAppByAppId unloadingLoop 170 = some exampleApp ∧
    unloadingLoop.mCurrentApp = some exampleApp ∧
    invokeMessageFreeFunction
        (fun message messageSize state =>
          state.record (Action.invokeCallback state.mCurrentApp
            (FreeCallback.eventComplete 700) message messageSize))
        { unloadingLoop with mCurrentApp := some secondApp } 170 40 8 =
      { unloadingLoop with
        mCurrentApp := some secondApp
        trace := unloadingLoop.trace
          ++ [Action.invokeCallback (some exampleApp) (FreeCallback.eventComplete 700) 40 8] } :=
  ⟨by decide, by decide,
    ((invokeMessageFreeFunction_restores_context
      (fun message messageSize state =>
        state.record (Action.invokeCallback state.mCurrentApp
          (FreeCallback.eventComplete 700) message messageSize))
      { unloadingLoop with mCurrentApp := some secondApp } 170 40 8).1 exampleApp
        (by decide)).2.2.trans (by decide)⟩

theorem conditionalUnlock_conditionalLock (shouldLock : Bool)
    (guarded : EventLoop → EventLoop) (loop : EventLoop) :
    conditionalUnlock shouldLock (guarded (conditionalLock shouldLock loop))
      = underRegistryLock shouldLock guarded loop := by
  cases shouldLock <;> rfl

/-- C35. Each of `findNanoappInstanceIdByAppId`, `forEachNanoapp`, `findNanoappByInstanceId`,
`populateNanoappInfoForAppId` and `populateNanoappInfoForInstanceId` runs its body under the
registry lock exactly when the caller is not on the loop thread: off the loop thread the
mutex is locked before the body and unlocked after it; on the loop thread the body runs
alone, with no call on the mutex, and the two plain lookups leave the loop state as it is.
The stores of `populateNanoappInfo` are no calls on the mutex. -/
theorem lookups_lock_off_the_loop_thread (cfg : Config) (loop : EventLoop)
    (inEventLoopThread : Bool) (appId instanceId : Nat) (info : Option Nat)
    (callback : Nanoapp → EventLoop → EventLoop) :
    (findNanoappInstanceIdByAppId loop inEventLoopThread appId).2
      = underRegistryLock (!inEventLoopThread) (fun state => state) loop ∧
    forEachNanoapp callback loop inEventLoopThread
      = underRegistryLock (!inEventLoopThread)
          (fun state =>
            state.mNanoapps.foldl (fun visited nanoapp => callback nanoapp visited) state)
          loop ∧
    (findNanoappByInstanceId cfg loop inEventLoopThread instanceId).2
      = underRegistryLock (!inEventLoopThread) (fun state => state) loop ∧
    (populateNanoappInfoForAppId loop inEventLoopThread appId info).2
      = underRegistryLock (!inEventLoopThread)
          (fun state => (populateNanoappInfo state (lookupAppByAppId state appId) info).2)
          loop ∧
    (populateNanoappInfoForInstanceId cfg loop inEventLoopThread instanceId info).2
      = underRegistryLock (!inEventLoopThread)
          (fun state =>
            (populateNanoappInfo state (lookupAppByInstanceId cfg state instanceId) info).2)
          loop ∧
    (∀ (guarded : EventLoop → EventLoop) (state : EventLoop),
      underRegistryLock (!true) guarded state = guarded state) ∧
    (∀ (guarded : EventLoop → EventLoop) (state : EventLoop),
      underRegistryLock (!false) guarded state
        = (guarded (state.record Action.lockNanoapps)).record Action.unlockNanoapps) ∧
    (∀ state app, ∀ action ∈ (populateNanoappInfo state app info).2.trace.drop state.trace.length,
      action.isLockCall = false) ∧
    (findNanoappInstanceIdByAppId loop true appId).2 = loop ∧
    (findNanoappByInstanceId cfg loop true instanceId).2 = loop := by
  refine ⟨?_, ?_, ?_, ?_, ?_, fun _ _ => rfl, fun _ _ => rfl, ?_, rfl, rfl⟩
  · exact conditionalUnlock_conditionalLock _ (fun state => state) loop
  · exact conditionalUnlock_conditionalLock _
      (fun state =>
        state.mNanoapps.foldl (fun visited nanoapp => callback nanoapp visited) state) loop
  · exact conditionalUnlock_conditionalLock _ (fun state => state) loop
  · exact conditionalUnlock_conditionalLock _
      (fun state => (populateNanoappInfo state (lookupAppByAppId state appId) info).2) loop
  · exact conditionalUnlock_conditionalLock _
      (fun state =>
        (populateNanoappInfo state (lookupAppByInstanceId cfg state instanceId) info).2) loop
  · intro state app action hmem
    unfold populateNanoappInfo at hmem
    split at hmem
    · simp only [EventLoop.record, List.drop_left, List.mem_singleton] at hmem
      rw [hmem]; rfl
    · simp at hmem

/-! ### The token database of a nanoapp -/

/-- C39. The bounds check of `addNanoappDetokenizer` lets through spans that leave the
binary. For a stored binary of 8192 bytes, offset 8000 and size 192 pass
`checkTokenDatabaseOverflow`, on a 64-bit and on a 32-bit host, and the span built starts at
byte 4096 + 8000 of the binary, behind its end. The check also sees only the low 32 bits of
the offset: the offset 2^32 with size 16 passes as offset 0. -/
theorem token_database_span_leaves_the_binary :
    checkTokenDatabaseOverflow (2 ^ 64) 8000 192 8192 = false ∧
    addNanoappDetokenizer (2 ^ 64) (some 8192) 8000 192 = some (12096, 192) ∧
    8192 < 12096 + 192 ∧
    addNanoappDetokenizer (2 ^ 32) (some 8192) 8000 192 = some (12096, 192) ∧
    addNanoappDetokenizer (2 ^ 64) (some 8192) 4294967296 16 = some (4096 + 4294967296, 16) := by
  decide

/-! ### `logV2` -/

theorem logV2Loop_terminates (parser : LogParser) (logBuffer : Nat → Nat)
    (logBufferSize : Nat) (hsizeof : 0 < parser.sizeofLogMessageV2) :
    ∀ (fuel bufferIndex : Nat) (output : LogOutput), logBufferSize ≤ bufferIndex + fuel →
      (logV2Loop parser logBuffer logBufferSize (fuel + 1) bufferIndex output).isSome = true := by
  intro fuel
  induction fuel with
  | zero =>
    intro bufferIndex output hfuel
    unfold logV2Loop
    simp only []
    rw [if_neg (by omega)]
    rfl
  | succ fuel ih =>
    intro bufferIndex output hfuel
    unfold logV2Loop
    simp only []
    split
    · split
      · exact ih _ _ (by omega)
      · split
        · exact ih _ _ (by omega)
        · split
          · split
            · exact ih _ _ (by omega)
            · exact ih _ _ (by omega)
          · split
            · rfl
            · exact ih _ _ (by omega)
    · rfl

theorem readBytes_length (logBuffer : Nat → Nat) (start count : Nat) :
    (readBytes logBuffer start count).length = count := by
  simp [readBytes]

theorem readBytes_add (logBuffer : Nat → Nat) (start first second : Nat) :
    readBytes logBuffer start (first + second)
      = readBytes logBuffer start first ++ readBytes logBuffer (start + first) second := by
  unfold readBytes
  rw [List.range_add, List.map_append, List.map_map]
  congr 1
  apply List.map_congr_left
  intro offset _
  simp [Nat.add_assoc]

/-- A buffer that holds `front ++ back` from `start` on holds `front` there and `back` behind
it. -/
theorem readBytes_eq_append (logBuffer : Nat → Nat) (start count : Nat)
    (front back : List Nat) (hread : readBytes logBuffer start count = front ++ back) :
    readBytes logBuffer start front.length = front ∧
      readBytes logBuffer (start + front.length) back.length = back ∧
      count = front.length + back.length := by
  have hcount : count = front.length + back.length := by
    have := congrArg List.length hread
    simpa [readBytes_length] using this
  rw [hcount, readBytes_add] at hread
  have hfront := List.append_inj_left hread (by simp [readBytes_length])
  have hback := List.append_inj_right hread (by simp [readBytes_length])
  exact ⟨hfront, hback, hcount⟩

theorem readBytes_mem (logBuffer : Nat → Nat) (start count offset : Nat)
    (hoffset : offset < count) :
    logBuffer (start + offset) ∈ readBytes logBuffer start count := by
  unfold readBytes
  exact List.mem_map.2 ⟨offset, List.mem_range.2 hoffset, rfl⟩

/-- `strnlen` on text without NUL: it counts the text, whether a NUL follows within the
window or the window ends with the text. -/
theorem strnlen_of_text (logBuffer : Nat → Nat) :
    ∀ (length start maxLen : Nat), length ≤ maxLen →
      (∀ offset < length, logBuffer (start + offset) ≠ 0) →
      (length < maxLen → logBuffer (start + length) = 0) →
      strnlen logBuffer start maxLen = length := by
  intro length
  induction length with
  | zero =>
    intro start maxLen _ _ hnul
    cases maxLen with
    | zero => rfl
    | succ maxLen =>
      unfold strnlen
      rw [if_pos (by simpa using hnul (by omega))]
  | succ length ih =>
    intro start maxLen hle htext hnul
    cases maxLen with
    | zero => omega
    | succ maxLen =>
      unfold strnlen
      rw [if_neg (by simpa using htext 0 (by omega))]
      rw [ih (start + 1) maxLen (by omega)
        (fun offset hoffset => by
          have := htext (offset + 1) (by omega)
          rwa [show start + (offset + 1) = start + 1 + offset by omega] at this)
        (fun hlt => by
          have := hnul (by omega)
          rwa [show start + (length + 1) = start + 1 + length by omega] at this)]


theorem logV2Loop_exit (parser : LogParser) (logBuffer : Nat → Nat)
    (logBufferSize fuel bufferIndex : Nat) (output : LogOutput)
    (hend : ¬ bufferIndex + (parser.sizeofLogMessageV2 + 1) ≤ logBufferSize) :
    logV2Loop parser logBuffer logBufferSize (fuel + 1) bufferIndex output = some output := by
  unfold logV2Loop
  simp only []
  rw [if_neg hend]

/-- One cycle of the loop of `logV2` on a plain message. -/
theorem logV2Loop_plain_step (parser : LogParser) (logBuffer : Nat → Nat)
    (logBufferSize fuel bufferIndex : Nat) (output : LogOutput)
    (hpacked : parser.sizeofLogMessageV2 = 5)
    (hroom : bufferIndex + 6 ≤ logBufferSize)
    (hencoded : isLogMessageEncoded (logBuffer bufferIndex) = false)
    (hsnoop : isBtSnoopLogMessage (logBuffer bufferIndex) = false) :
    logV2Loop parser logBuffer logBufferSize (fuel + 1) bufferIndex output =
      if logBuffer (bufferIndex + 5
          + strnlen logBuffer (bufferIndex + 5) (logBufferSize - bufferIndex - 6)) ≠ 0 then
        some
          { output with
            emitted := output.emitted ++ [HostLog.invalidStructure]
            reads := output.reads ++ ([bufferIndex]
              ++ strnlenReads (bufferIndex + 5) (logBufferSize - bufferIndex - 6)
                  (strnlen logBuffer (bufferIndex + 5) (logBufferSize - bufferIndex - 6))
              ++ [bufferIndex + 5
                  + strnlen logBuffer (bufferIndex + 5) (logBufferSize - bufferIndex - 6)]) }
      else
        logV2Loop parser logBuffer logBufferSize fuel
          (bufferIndex + (5
            + (strnlen logBuffer (bufferIndex + 5) (logBufferSize - bufferIndex - 6) + 1)))
          { output with
            emitted := output.emitted ++
              [HostLog.message (getLogLevelFromMetadata (logBuffer bufferIndex))
                (timestampMillisAt logBuffer bufferIndex)
                (readBytes logBuffer (bufferIndex + 5)
                  (strnlen logBuffer (bufferIndex + 5) (logBufferSize - bufferIndex - 6)))]
            reads := output.reads ++ ([bufferIndex]
              ++ strnlenReads (bufferIndex + 5) (logBufferSize - bufferIndex - 6)
                  (strnlen logBuffer (bufferIndex + 5) (logBufferSize - bufferIndex - 6))
              ++ [bufferIndex + 5
                  + strnlen logBuffer (bufferIndex + 5) (logBufferSize - bufferIndex - 6)])
              ++ [bufferIndex + 1, bufferIndex + 2, bufferIndex + 3, bufferIndex + 4]
              ++ (List.range
                    (strnlen logBuffer (bufferIndex + 5) (logBufferSize - bufferIndex - 6)
                      + 1)).map (fun offset => bufferIndex + 5 + offset) } := by
  have hnanoapp : isNanoappTokenizedLogMessage (logBuffer bufferIndex) = false := by
    unfold isNanoappTokenizedLogMessage
    unfold isBtSnoopLogMessage at hsnoop
    rw [hsnoop]
    rfl
  conv_lhs => unfold logV2Loop
  simp only [hpacked, hnanoapp, hsnoop, hencoded, Bool.false_eq_true, if_false]
  rw [if_pos (by omega)]


theorem strnlenReads_lt (start maxLen length bound : Nat) (hbound : start + length < bound) :
    ∀ offset ∈ strnlenReads start maxLen length, offset < bound := by
  intro offset hmem
  unfold strnlenReads at hmem
  obtain ⟨index, hindex, rfl⟩ := List.mem_map.1 hmem
  have := List.mem_range.1 hindex
  omega

/-- The loop of `logV2` on a buffer that holds plain messages from `bufferIndex` on, followed by
bytes that hold no message. -/
theorem logV2Loop_plain (parser : LogParser) (logBuffer : Nat → Nat) (logBufferSize : Nat)
    (rest : List Nat) (hpacked : parser.sizeofLogMessageV2 = 5)
    (hrest : holdsNoMessage rest = true) :
    ∀ (logs : List PlainLogMessage) (fuel bufferIndex : Nat) (output : LogOutput),
      (∀ message ∈ logs, message.isPlain = true) →
      logBufferSize ≤ bufferIndex + fuel →
      readBytes logBuffer bufferIndex (logBufferSize - bufferIndex)
        = logs.flatMap PlainLogMessage.bytes ++ rest →
      bufferIndex ≤ logBufferSize →
      ∃ reads : List Nat,
        logV2Loop parser logBuffer logBufferSize (fuel + 1) bufferIndex output =
          some
            { emitted := output.emitted ++ logs.map PlainLogMessage.line
                ++ (if rest.length < 6 then [] else [HostLog.invalidStructure])
              reads := output.reads ++ reads
              mNumLogsDropped := output.mNumLogsDropped } ∧
        ∀ offset ∈ reads, offset < logBufferSize := by
  intro logs
  induction logs with
  | nil =>
    intro fuel bufferIndex output _ _ hread hindex
    simp only [List.flatMap_nil, List.nil_append, List.map_nil, List.append_nil] at hread ⊢
    have hlength : logBufferSize - bufferIndex = rest.length := by
      have := congrArg List.length hread
      simpa [readBytes_length] using this
    by_cases hshort : rest.length < 6
    · refine ⟨[], ?_, by simp⟩
      rw [logV2Loop_exit parser logBuffer logBufferSize fuel bufferIndex output
        (by rw [hpacked]; omega)]
      simp [hshort]
    · have hbyte : ∀ offset < rest.length, logBuffer (bufferIndex + offset) = rest.getD offset 0 := by
        intro offset hoffset
        rw [← hread]
        unfold readBytes
        rw [List.getD_eq_getElem _ _ (by simpa using by omega)]
        simp
      unfold holdsNoMessage at hrest
      simp only [hshort, decide_False, Bool.false_or, Bool.and_eq_true, Bool.not_eq_true',
        List.all_eq_true, bne_iff_ne, ne_eq] at hrest
      obtain ⟨⟨hencoded, hsnoop⟩, htext⟩ := hrest
      have hmetadata : logBuffer bufferIndex = rest.getD 0 0 := by
        have := hbyte 0 (by omega)
        simpa using this
      have hnonzero : ∀ offset < rest.length - 5, logBuffer (bufferIndex + 5 + offset) ≠ 0 := by
        intro offset hoffset
        rw [Nat.add_assoc, hbyte (5 + offset) (by omega)]
        apply htext
        rw [List.getD_eq_getElem _ _ (by omega)]
        have hlt : offset < (rest.drop 5).length := by
          simp
          omega
        have hdrop : rest[5 + offset] = (rest.drop 5)[offset] := by
          simp
        rw [hdrop]
        exact List.getElem_mem _
      have hlen : strnlen logBuffer (bufferIndex + 5) (logBufferSize - bufferIndex - 6)
          = logBufferSize - bufferIndex - 6 :=
        strnlen_of_text logBuffer _ _ _ (Nat.le_refl _)
          (fun offset hoffset => hnonzero offset (by omega)) (fun h => absurd h (by omega))
      rw [logV2Loop_plain_step parser logBuffer logBufferSize fuel bufferIndex output hpacked
        (by omega) (by rw [hmetadata]; exact hencoded) (by rw [hmetadata]; exact hsnoop), hlen]
      rw [if_pos (hnonzero (logBufferSize - bufferIndex - 6) (by omega))]
      refine ⟨[bufferIndex]
        ++ strnlenReads (bufferIndex + 5) (logBufferSize - bufferIndex - 6)
            (logBufferSize - bufferIndex - 6)
        ++ [bufferIndex + 5 + (logBufferSize - bufferIndex - 6)], ?_, ?_⟩
      · simp only [hshort, if_false]
      · intro offset hmem
        simp only [List.mem_append, List.mem_singleton] at hmem
        rcases hmem with (hmem | hmem) | hmem
        · omega
        · exact strnlenReads_lt _ _ _ _ (by omega) offset hmem
        · omega
  | cons message logs ih =>
    intro fuel bufferIndex output hplain hfuel hread hindex
    simp only [List.flatMap_cons, List.append_assoc] at hread
    obtain ⟨hmessage, hbehind, hcount⟩ :=
      readBytes_eq_append logBuffer bufferIndex _ _ _ hread
    have hbytes : message.bytes.length = 5 + (message.text.length + 1) := by
      simp [PlainLogMessage.bytes]
      omega
    unfold PlainLogMessage.bytes at hmessage
    rw [List.append_assoc] at hmessage
    obtain ⟨hheader, hpayload, _⟩ := readBytes_eq_append logBuffer bufferIndex _ _ _ hmessage
    obtain ⟨htext, hnul, _⟩ := readBytes_eq_append logBuffer _ _ _ _ hpayload
    simp only [List.length_cons, List.length_nil, List.length_singleton] at hheader htext hnul
    have hfields : logBuffer bufferIndex = message.metadata ∧
        logBuffer (bufferIndex + 1) = message.timestamp.1 ∧
        logBuffer (bufferIndex + 2) = message.timestamp.2.1 ∧
        logBuffer (bufferIndex + 3) = message.timestamp.2.2.1 ∧
        logBuffer (bufferIndex + 4) = message.timestamp.2.2.2 := by
      simpa [readBytes, List.range_succ] using hheader
    have hzero : logBuffer (bufferIndex + 5 + message.text.length) = 0 := by
      simpa [readBytes, List.range_succ] using hnul
    have hflags := hplain message (List.mem_cons_self _ _)
    unfold PlainLogMessage.isPlain at hflags
    simp only [Bool.and_eq_true, Bool.not_eq_true', List.all_eq_true, bne_iff_ne, ne_eq]
      at hflags
    obtain ⟨⟨hencoded, hsnoop⟩, hnonzero⟩ := hflags
    have hlen : strnlen logBuffer (bufferIndex + 5) (logBufferSize - bufferIndex - 6)
        = message.text.length :=
      strnlen_of_text logBuffer _ _ _ (by omega)
        (fun offset hoffset => by
          apply hnonzero
          rw [← htext]
          exact readBytes_mem logBuffer _ _ offset hoffset)
        (fun _ => hzero)
    obtain ⟨less, hless⟩ : ∃ less, fuel = less + 1 := ⟨fuel - 1, by omega⟩
    subst hless
    rw [logV2Loop_plain_step parser logBuffer logBufferSize (less + 1) bufferIndex output hpacked
      (by omega) (by rw [hfields.1]; exact hencoded) (by rw [hfields.1]; exact hsnoop), hlen]
    rw [if_neg (by simp [hzero])]
    obtain ⟨reads, hloop, hreads⟩ := ih less (bufferIndex + (5 + (message.text.length + 1)))
      { output with
        emitted := output.emitted ++
          [HostLog.message (getLogLevelFromMetadata (logBuffer bufferIndex))
            (timestampMillisAt logBuffer bufferIndex)
            (readBytes logBuffer (bufferIndex + 5) message.text.length)]
        reads := output.reads ++ ([bufferIndex]
          ++ strnlenReads (bufferIndex + 5) (logBufferSize - bufferIndex - 6)
              message.text.length
          ++ [bufferIndex + 5 + message.text.length])
          ++ [bufferIndex + 1, bufferIndex + 2, bufferIndex + 3, bufferIndex + 4]
          ++ (List.range (message.text.length + 1)).map
              (fun offset => bufferIndex + 5 + offset) }
      (fun other hmem => hplain other (List.mem_cons_of_mem _ hmem))
      (by omega)
      (by
        rw [← hbehind, hbytes]
        congr 1
        omega)
      (by omega)
    refine ⟨([bufferIndex]
        ++ strnlenReads (bufferIndex + 5) (logBufferSize - bufferIndex - 6) message.text.length
        ++ [bufferIndex + 5 + message.text.length])
      ++ [bufferIndex + 1, bufferIndex + 2, bufferIndex + 3, bufferIndex + 4]
      ++ (List.range (message.text.length + 1)).map (fun offset => bufferIndex + 5 + offset)
      ++ reads, ?_, ?_⟩
    · rw [hloop]
      simp only [List.map_cons, PlainLogMessage.line, htext, timestampMillisAt, hfields.1,
        hfields.2.1, hfields.2.2.1, hfields.2.2.2.1, hfields.2.2.2.2, List.append_assoc,
        List.singleton_append]
    · intro offset hmem
      simp only [List.mem_append, List.mem_singleton, List.mem_cons, List.mem_map,
        List.mem_range, List.not_mem_nil, or_false] at hmem
      rcases hmem with ((((hmem | hmem) | hmem) | hmem) | hmem) | hmem
      · omega
      · exact strnlenReads_lt _ _ _ _ (by omega) offset hmem
      · omega
      · omega
      · obtain ⟨index, hindex, rfl⟩ := hmem
        omega
      · exact hreads offset hmem


/-- C40. `logV2` returns for every buffer and every size. When the buffer holds plain messages
(neither tokenized nor BT snoop logs, each ended by its NUL) followed by bytes that hold no
message, it writes the dropped-logs lines and then one line for each message, in buffer
order, with the level, the timestamp and the text of the message; behind them only the error
for an invalid buffer structure, when at least six bytes are left. Every offset it reads is
below `logBufferSize`. The struct `LogMessageV2` is packed, five bytes before the text. -/
theorem logV2_terminates_and_parses_plain_logs (parser : LogParser) (logBuffer : Nat → Nat)
    (logBufferSize numLogsDropped : Nat) (hsizeof : 0 < parser.sizeofLogMessageV2) :
    (∃ output, logV2 parser logBuffer logBufferSize numLogsDropped = some output) ∧
    (∀ (logs : List PlainLogMessage) (rest : List Nat),
      parser.sizeofLogMessageV2 = 5 →
      (∀ message ∈ logs, message.isPlain = true) →
      holdsNoMessage rest = true →
      readBytes logBuffer 0 logBufferSize = logs.flatMap PlainLogMessage.bytes ++ rest →
      ∃ reads : List Nat,
        logV2 parser logBuffer logBufferSize numLogsDropped =
          some
            { emitted :=
                (updateAndPrintDroppedLogs parser.mNumLogsDropped numLogsDropped).1
                  ++ logs.map PlainLogMessage.line
                  ++ (if rest.length < 6 then [] else [HostLog.invalidStructure])
              reads := reads
              mNumLogsDropped := numLogsDropped } ∧
        ∀ offset ∈ reads, offset < logBufferSize) := by
  constructor
  · have hsome := logV2Loop_terminates parser logBuffer logBufferSize hsizeof logBufferSize 0
      { emitted := (updateAndPrintDroppedLogs parser.mNumLogsDropped numLogsDropped).1
        reads := []
        mNumLogsDropped := (updateAndPrintDroppedLogs parser.mNumLogsDropped numLogsDropped).2 }
      (by omega)
    exact Option.isSome_iff_exists.1 hsome
  · intro logs rest hpacked hplain hrest hread
    obtain ⟨reads, hloop, hreads⟩ :=
      logV2Loop_plain parser logBuffer logBufferSize rest hpacked hrest logs logBufferSize 0
        { emitted := (updateAndPrintDroppedLogs parser.mNumLogsDropped numLogsDropped).1
          reads := []
          mNumLogsDropped :=
            (updateAndPrintDroppedLogs parser.mNumLogsDropped numLogsDropped).2 }
        hplain (by omega) (by simpa using hread) (by omega)
    refine ⟨reads, ?_, hreads⟩
    unfold logV2
    simp only []
    rw [hloop]
    simp [updateAndPrintDroppedLogs]

theorem logV2_terminates_and_parses_plain_logs_witness :
    0 < exampleParser.sizeofLogMessageV2 ∧
    readBytes (bufferOf (hiMessage.bytes ++ okMessage.bytes ++ [2, 0, 0, 0, 0, 65, 66])) 0 23
      = [hiMessage, okMessage].flatMap PlainLogMessage.bytes ++ [2, 0, 0, 0, 0, 65, 66] ∧
    ∃ reads : List Nat,
      logV2 exampleParser
          (bufferOf (hiMessage.bytes ++ okMessage.bytes ++ [2, 0, 0, 0, 0, 65, 66])) 23 7 =
        some
          { emitted := [HostLog.logsDropped 7, HostLog.message 2 258 [104, 105],
              HostLog.message 3 259 [111, 107], HostLog.invalidStructure]
            reads := reads
            mNumLogsDropped := 7 } ∧
      ∀ offset ∈ reads, offset < 23 :=
  ⟨by decide, by decide,
    (logV2_terminates_and_parses_plain_logs exampleParser
      (bufferOf (hiMessage.bytes ++ okMessage.bytes ++ [2, 0, 0, 0, 0, 65, 66])) 23 7
      (by decide)).2 [hiMessage, okMessage] [2, 0, 0, 0, 0, 65, 66] (by decide) (by decide)
      (by decide) (by decide)⟩

end chre
